import Mathlib

/-!
# FlowerLineSmartCar: speed estimator, line-position estimator, scheduler and control tick

A shallow embedding of `APP/encoder_app.c`, `APP/gary_app.c`, `APP/scheduler.c`,
`APP/motor_app.c`, `APP/pid_control.c` and of one command handler of
`APP/usart_app.c` (constants from `APP/mydefine.h` and `Core/Inc/main.h`, types
from the headers of `APP/`).

Conventions of the embedding:

* C `float` values are rationals (`ℚ`).  In `encoder_app.c`, whose `float` values
  are truncated to integers and stored, every single-precision operation is
  embedded with its rounding (`f32`: nearest binary32 value, ties to even), the
  constants of `mydefine.h` it uses included.  Elsewhere (`gary_app.c`,
  `pid_control.c`, `JY901S_app.c`, the PID library) the `float` arithmetic is
  exact: the rounding of its results is not represented.  Division by zero
  follows `ℚ` (`x / 0 = 0`).
* Machine integers are `Nat` / `Int` with explicit wrap-around at the width of
  the C type (`wrapI16`, `wrapI32`, `sub_u32`, `add_u32`, `not_u8`).
* Hardware reads (`HAL_GetTick()`, `__HAL_TIM_GET_COUNTER(htim)`) are extra
  arguments of the function that performs them; hardware writes (pins, PWM
  compare registers) are collected in a sequence of `HW_Write`.
* The global objects the C functions mutate are passed in and returned.
* The PID library behind `pid.h` is not part of `APP/`: its controller type and
  its functions are parameters (`PID_Lib`).
* Text sent to the UART is not represented.
-/

namespace FlowerLine

/-! ## Machine arithmetic -/

/-- Two's-complement wrap of an integer to the range of `int16_t`. -/
def wrapI16 (n : Int) : Int := (n + 32768) % 65536 - 32768

/-- Two's-complement wrap of an integer to the range of `int32_t`. -/
def wrapI32 (n : Int) : Int := (n + 2147483648) % 4294967296 - 2147483648

/-- Subtraction of two `uint32_t` values (wraps modulo `2^32`). -/
def sub_u32 (a b : Nat) : Nat := (a % 4294967296 + (4294967296 - b % 4294967296)) % 4294967296

/-- Addition of two `uint32_t` values (wraps modulo `2^32`). -/
def add_u32 (a b : Nat) : Nat := (a + b) % 4294967296

/-- Bitwise complement stored back into a `uint8_t`. -/
def not_u8 (x : Nat) : Nat := 255 - x % 256

/-- Conversion of a `float` to an integer: the fractional part is discarded
(rounding toward zero). -/
def truncQ (q : ℚ) : Int := if 0 ≤ q then ⌊q⌋ else ⌈q⌉

/-- The cast `(int16_t)x` of a `float`: truncation, then the 16-bit store.  C
leaves the cast undefined when the truncated value does not fit `int16_t`; the
embedding then wraps, as the narrowing store of the target does. -/
def float_to_int16 (q : ℚ) : Int := wrapI16 (truncQ q)

/-! ### Single precision

The estimator of `encoder_app.c` truncates `float` values to integers and stores
them, so its `float` operations are embedded with their rounding: the exact
result of each operation is rounded to the nearest binary32 value (`f32`). -/

/-- Rounding of a rational to the nearest integer, a tie going to the even one. -/
def round_half_even (y : ℚ) : Int :=
  if y - ⌊y⌋ < 1 / 2 then ⌊y⌋
  else if 1 / 2 < y - ⌊y⌋ then ⌊y⌋ + 1
  else if ⌊y⌋ % 2 = 0 then ⌊y⌋
  else ⌊y⌋ + 1

/-- Binary exponent of the quantum of a binary32 value near `q`: 24 significant
bits, and the fixed quantum `2^-149` below the normal range. -/
def f32_exp (q : ℚ) : Int := max (Int.log 2 |q|) (-126) - 23

/-- The result of a `float` operation whose exact value is `q`: rounding to the
nearest binary32 value, ties to even.  A magnitude above `FLT_MAX`, where the C
value is infinite, is outside the embedding. -/
def f32 (q : ℚ) : ℚ := (round_half_even (q / 2 ^ f32_exp q) : ℚ) * 2 ^ f32_exp q

/-! ## Constants of `mydefine.h` -/

def ENCODER_PPR : Nat := 500
def ENCODER_QUADRATURE : Nat := 4
def ENCODER_SAMPLE_TIME : Nat := 50
def ENCODER_FILTER_SIZE : Nat := 5
def GEAR_RATIO : ℚ := 20

/-- The literal `0.048f`. -/
def WHEEL_DIAMETER : ℚ := f32 (48 / 1000)

/-- The literal `0.15f`. -/
def WHEEL_BASE : ℚ := f32 (15 / 100)

def ENCODER_HIGH_SPEED_SAMPLE : Nat := 20
def ENCODER_LOW_SPEED_SAMPLE : Nat := 100
def ENCODER_SPEED_THRESHOLD_H : ℚ := 6
def ENCODER_SPEED_THRESHOLD_L : ℚ := 1
def TOTAL_PPR : Nat := ENCODER_PPR * ENCODER_QUADRATURE

/-- The constant expression `(3.14159f * WHEEL_DIAMETER)`. -/
def WHEEL_CIRCUMFERENCE : ℚ := f32 (f32 (314159 / 100000) * WHEEL_DIAMETER)

/-- The constant expression `(1.0f / TOTAL_PPR)`. -/
def INV_TOTAL_PPR : ℚ := f32 (1 / f32 (TOTAL_PPR : ℚ))

/-- The constant expression `(1.0f / GEAR_RATIO)`. -/
def INV_GEAR_RATIO : ℚ := f32 (1 / GEAR_RATIO)

def MS_TO_S_FACTOR : ℚ := 1000

/-- The constant expression `(INV_TOTAL_PPR * INV_GEAR_RATIO * MS_TO_S_FACTOR)`. -/
def SPEED_CALC_FACTOR : ℚ := f32 (f32 (INV_TOTAL_PPR * INV_GEAR_RATIO) * MS_TO_S_FACTOR)

/-! ## Data model of `encoder_app.h` -/

inductive Encoder_ID_t where
  | ENCODER_A
  | ENCODER_B
  deriving DecidableEq, Repr

structure Encoder_Data_t where
  encoder_id : Encoder_ID_t
  total_count : Int
  last_count : Int
  speed_rpm : Int
  speed_buffer : List Int
  buffer_index : Nat
  last_update_time : Nat
  speed_rps : ℚ
  speed_m_s : ℚ
  adaptive_sample_time : Nat
  calc_time_us : Nat
  error_count : Nat
  filter_sum : Int
  deriving DecidableEq, Repr

structure Differential_Drive_t where
  linear_velocity : ℚ
  angular_velocity : ℚ
  left_wheel_speed : ℚ
  right_wheel_speed : ℚ
  last_update_time : Nat
  deriving DecidableEq, Repr

/-- The three global objects of `encoder_app.c`. -/
structure Encoder_Globals where
  encoder_data_A : Encoder_Data_t
  encoder_data_B : Encoder_Data_t
  diff_drive_data : Differential_Drive_t
  deriving DecidableEq, Repr

/-- The values a C object of type `Encoder_Data_t` holds in a run of the
firmware: a five-element `int16_t` buffer, a write index inside the buffer
(an index outside it makes the array access undefined), 32-bit sum and
timestamps. -/
def Encoder_Data_t.WellTyped (e : Encoder_Data_t) : Prop :=
  e.speed_buffer.length = ENCODER_FILTER_SIZE ∧
  (∀ x ∈ e.speed_buffer, -32768 ≤ x ∧ x ≤ 32767) ∧
  e.buffer_index < ENCODER_FILTER_SIZE ∧
  (-2147483648 ≤ e.filter_sum ∧ e.filter_sum ≤ 2147483647) ∧
  e.last_update_time < 4294967296 ∧
  e.adaptive_sample_time < 4294967296

/-- The running-sum predicate: `filter_sum` is the sum of the ring buffer. -/
def Encoder_Data_t.SumInv (e : Encoder_Data_t) : Prop :=
  e.filter_sum = e.speed_buffer.sum

/-! ## `encoder_app.c` -/

/-- The loop `for (i = 0; i < ENCODER_FILTER_SIZE; i++) speed_buffer[i] = 0;`. -/
def clear_buffer (speed_buffer : List Int) : List Int :=
  (List.range ENCODER_FILTER_SIZE).foldl (fun b i => b.set i 0) speed_buffer

/-- The initial value `Encoder_Init` writes into one encoder object. -/
def Encoder_Init_data (id : Encoder_ID_t) (e : Encoder_Data_t) (tick : Nat) : Encoder_Data_t :=
  { e with
    encoder_id := id
    total_count := 0
    last_count := 0
    speed_rpm := 0
    buffer_index := 0
    last_update_time := tick
    speed_rps := 0
    speed_m_s := 0
    adaptive_sample_time := ENCODER_SAMPLE_TIME
    calc_time_us := 0
    error_count := 0
    filter_sum := 0
    speed_buffer := clear_buffer e.speed_buffer }

/-- Function `Encoder_Init`; `tickA`, `tickB` are the two `HAL_GetTick()` reads. -/
def Encoder_Init (g : Encoder_Globals) (tickA tickB : Nat) : Encoder_Globals :=
  { g with
    encoder_data_A := Encoder_Init_data Encoder_ID_t.ENCODER_A g.encoder_data_A tickA
    encoder_data_B := Encoder_Init_data Encoder_ID_t.ENCODER_B g.encoder_data_B tickB }

/-- Function `get_adaptive_sample_time`. -/
def get_adaptive_sample_time (current_speed : ℚ) : Nat :=
  let abs_speed := |current_speed|
  if abs_speed > ENCODER_SPEED_THRESHOLD_H then ENCODER_HIGH_SPEED_SAMPLE
  else if abs_speed < ENCODER_SPEED_THRESHOLD_L then ENCODER_LOW_SPEED_SAMPLE
  else ENCODER_SAMPLE_TIME

/-- Function `apply_moving_average_filter`. -/
def apply_moving_average_filter (encoder_data : Encoder_Data_t) (new_value : ℚ) :
    Encoder_Data_t :=
  let new_value_int := float_to_int16 (f32 (new_value * 100))
  let old_value := encoder_data.speed_buffer.getD encoder_data.buffer_index 0
  let filter_sum := wrapI32 (encoder_data.filter_sum - old_value + new_value_int)
  let speed_buffer := encoder_data.speed_buffer.set encoder_data.buffer_index new_value_int
  let buffer_index := ((encoder_data.buffer_index + 1) % ENCODER_FILTER_SIZE) % 256
  let speed_rps : ℚ := |f32 (f32 (filter_sum : ℚ) / f32 ((ENCODER_FILTER_SIZE : ℚ) * 100))|
  let speed_rpm := float_to_int16 (f32 (speed_rps * 60))
  let speed_m_s := f32 (speed_rps * WHEEL_CIRCUMFERENCE)
  { encoder_data with
    filter_sum := filter_sum
    speed_buffer := speed_buffer
    buffer_index := buffer_index
    speed_rps := speed_rps
    speed_rpm := speed_rpm
    speed_m_s := speed_m_s }

/-- The overflow correction of the pulse difference in
`calculate_speed_for_encoder` (16-bit timer). -/
def overflow_correct (delta_count : Int) : Int :=
  if delta_count < -0x8000 then delta_count + 0x10000
  else if delta_count > 0x8000 then delta_count - 0x10000
  else delta_count

/-- The value of `delta_count` after the overflow correction, from the counter
read and the stored `last_count`. -/
def corrected_delta (current_counter : Nat) (last_count : Int) : Int :=
  overflow_correct ((current_counter : Int) - last_count)

/-- Function `calculate_speed_for_encoder`; `current_time` is the
`HAL_GetTick()` read and `current_counter` the timer counter read. -/
def calculate_speed_for_encoder (encoder_data : Encoder_Data_t)
    (current_time current_counter : Nat) : Encoder_Data_t :=
  let time_diff_ms := sub_u32 current_time encoder_data.last_update_time
  let required_sample_time := encoder_data.adaptive_sample_time
  if time_diff_ms ≥ required_sample_time then
    let delta_count := corrected_delta current_counter encoder_data.last_count
    let e1 : Encoder_Data_t :=
      if delta_count = 0 ∨ time_diff_ms > 200 then
        { encoder_data with
          speed_rps := 0
          speed_rpm := 0
          speed_m_s := 0
          speed_buffer := clear_buffer encoder_data.speed_buffer }
      else
        let pulses_per_ms : ℚ := f32 (f32 (delta_count : ℚ) / f32 (time_diff_ms : ℚ))
        let current_rps : ℚ := f32 (pulses_per_ms * SPEED_CALC_FACTOR)
        apply_moving_average_filter encoder_data current_rps
    { e1 with
      last_count := wrapI32 current_counter
      last_update_time := current_time
      total_count := wrapI32 current_counter
      adaptive_sample_time := get_adaptive_sample_time e1.speed_rps }
  else encoder_data

/-- Function `clear_speed_data`; the three ticks are its `HAL_GetTick()` reads. -/
def clear_speed_data (g : Encoder_Globals) (tickA tickB tickD : Nat) : Encoder_Globals :=
  { encoder_data_A := Encoder_Init_data g.encoder_data_A.encoder_id g.encoder_data_A tickA
    encoder_data_B := Encoder_Init_data g.encoder_data_B.encoder_id g.encoder_data_B tickB
    diff_drive_data :=
      { linear_velocity := 0
        angular_velocity := 0
        left_wheel_speed := 0
        right_wheel_speed := 0
        last_update_time := tickD } }

/-! ## Concrete wheel states used in the evaluation theorems -/

/-- The zero-initialised object `Encoder_Data_t encoder_data_A = {0}`. -/
def power_on_data : Encoder_Data_t :=
  { encoder_id := Encoder_ID_t.ENCODER_A
    total_count := 0
    last_count := 0
    speed_rpm := 0
    speed_buffer := [0, 0, 0, 0, 0]
    buffer_index := 0
    last_update_time := 0
    speed_rps := 0
    speed_m_s := 0
    adaptive_sample_time := 0
    calc_time_us := 0
    error_count := 0
    filter_sum := 0 }

/-- Wheel A after `Encoder_Init` at tick 0. -/
def init_data : Encoder_Data_t :=
  (Encoder_Init ⟨power_on_data, power_on_data, ⟨0, 0, 0, 0, 0⟩⟩ 0 0).encoder_data_A

/-- Wheel A after one moving sample: tick 50, counter 210. -/
def moving_data : Encoder_Data_t := calculate_speed_for_encoder init_data 50 210

/-- Wheel A after the wheel then stood still: tick 150, counter still 210. -/
def stopped_data : Encoder_Data_t := calculate_speed_for_encoder moving_data 150 210

/-- Wheel A after it moved again: tick 250, counter 430. -/
def restarted_data : Encoder_Data_t := calculate_speed_for_encoder stopped_data 250 430

/-- Wheel A after a fast first sample: tick 50, counter 32768. -/
def fast_data1 : Encoder_Data_t := calculate_speed_for_encoder init_data 50 32768

/-- Wheel A after a second fast sample: tick 100, counter 65535. -/
def fast_data2 : Encoder_Data_t := calculate_speed_for_encoder fast_data1 100 65535

/-! ## Constants of `mydefine.h` for the grayscale line sensor -/

def GARY_MAX_RETRY : Nat := 3
def GARY_LINE_WEIGHTS : List ℚ := [-4, -3, -2, -1, 1, 2, 3, 4]
def GARY_ERROR_MAX : ℚ := 4
def GARY_ERROR_MIN : ℚ := -4
def GARY_CENTER_THRESHOLD : ℚ := 1 / 2
def GARY_SLIGHT_THRESHOLD : ℚ := 3 / 2
def GARY_MODERATE_THRESHOLD : ℚ := 5 / 2
def GARY_SHARP_THRESHOLD : ℚ := 7 / 2

/-! ## Data model of `gary_app.h` -/

inductive Gary_LineState_t where
  | LINE_LOST
  | LINE_CENTER
  | LINE_SLIGHT_LEFT
  | LINE_SLIGHT_RIGHT
  | LINE_MODERATE_LEFT
  | LINE_MODERATE_RIGHT
  | LINE_SHARP_LEFT
  | LINE_SHARP_RIGHT
  | LINE_INTERSECTION
  | LINE_T_LEFT
  | LINE_T_RIGHT
  | LINE_SEARCHING
  deriving DecidableEq, Repr

/-! ## `gary_app.c` -/

/-- One iteration of the body of the averaging loop of `Gary_CalculateLineError`
at channel `i`; the accumulator is `(weighted_sum, black_line_count)`. -/
def error_step (line_bits : Nat) (acc : ℚ × Nat) (i : Nat) : ℚ × Nat :=
  if line_bits &&& (1 <<< i) ≠ 0 then (acc.1 + GARY_LINE_WEIGHTS.getD i 0, acc.2 + 1)
  else acc

/-- Function `Gary_CalculateLineError`. -/
def Gary_CalculateLineError (digital_data : Nat) : ℚ :=
  let line_bits := not_u8 digital_data
  if line_bits = 0x00 then 0
  else
    let acc := (List.range 8).foldl (error_step line_bits) ((0 : ℚ), 0)
    let weighted_sum := acc.1
    let black_line_count := acc.2
    if black_line_count > 0 then
      let error : ℚ := weighted_sum / (black_line_count : ℚ)
      let error := if error > GARY_ERROR_MAX then GARY_ERROR_MAX else error
      let error := if error < GARY_ERROR_MIN then GARY_ERROR_MIN else error
      error
    else 0

/-- The loop `while (temp) { line_count++; temp &= (temp - 1); }` of
`Gary_DetectLineState`, run for at most `fuel` iterations; the result is the
final `(temp, line_count)`. -/
def count_loop : Nat → Nat → Nat → Nat × Nat
  | 0, temp, line_count => (temp, line_count)
  | fuel + 1, temp, line_count =>
    if temp ≠ 0 then count_loop fuel (temp &&& (temp - 1)) (line_count + 1)
    else (temp, line_count)

/-- Function `Gary_DetectLineState`.  The counting loop gets fuel 8, which an
8-bit value never exhausts (`count_loop_terminates`). -/
def Gary_DetectLineState (digital_data : Nat) : Gary_LineState_t :=
  let line_bits := not_u8 digital_data
  if line_bits = 0x00 then Gary_LineState_t.LINE_LOST
  else
    let line_count := (count_loop 8 line_bits 0).2
    if line_count ≥ 6 then Gary_LineState_t.LINE_INTERSECTION
    else if line_bits &&& 0xF0 = 0xF0 then Gary_LineState_t.LINE_T_LEFT
    else if line_bits &&& 0x0F = 0x0F then Gary_LineState_t.LINE_T_RIGHT
    else
      let center := Gary_CalculateLineError digital_data
      if center ≥ -GARY_CENTER_THRESHOLD ∧ center ≤ GARY_CENTER_THRESHOLD then
        Gary_LineState_t.LINE_CENTER
      else if center > GARY_CENTER_THRESHOLD then
        if center ≤ GARY_SLIGHT_THRESHOLD then Gary_LineState_t.LINE_SLIGHT_RIGHT
        else if center ≤ GARY_MODERATE_THRESHOLD then Gary_LineState_t.LINE_MODERATE_RIGHT
        else Gary_LineState_t.LINE_SHARP_RIGHT
      else if center < -GARY_CENTER_THRESHOLD then
        if center ≥ -GARY_SLIGHT_THRESHOLD then Gary_LineState_t.LINE_SLIGHT_LEFT
        else if center ≥ -GARY_MODERATE_THRESHOLD then Gary_LineState_t.LINE_MODERATE_LEFT
        else Gary_LineState_t.LINE_SHARP_LEFT
      else Gary_LineState_t.LINE_LOST

/-- One iteration of the counting loop shared by `Gary_GetLineWidth` and
`Gary_DetectIntersection`. -/
def width_step (line_bits : Nat) (n : Nat) (i : Nat) : Nat :=
  if line_bits &&& (1 <<< i) ≠ 0 then n + 1 else n

/-- Function `Gary_GetLineWidth`. -/
def Gary_GetLineWidth (digital_data : Nat) : Nat :=
  let line_bits := not_u8 digital_data
  (List.range 8).foldl (width_step line_bits) 0

/-- Function `Gary_DetectIntersection`. -/
def Gary_DetectIntersection (digital_data : Nat) : Nat :=
  let line_bits := not_u8 digital_data
  let line_count := (List.range 8).foldl (width_step line_bits) 0
  if line_count ≥ 6 then 1 else 0

/-! ## Specification-side definitions

These follow the wording of the specification, not the code; the theorems
below compare them with the functions above. -/

/-- Specification: the weight of channel `i`, from the ordered set
`(-4, -3, -2, -1, 1, 2, 3, 4)` indexed by bit number. -/
def line_weight : Nat → ℚ
  | 0 => -4
  | 1 => -3
  | 2 => -2
  | 3 => -1
  | 4 => 1
  | 5 => 2
  | 6 => 3
  | 7 => 4
  | _ => 0

/-- Specification: the set channels (bit positions `0..7` holding a 1) of an
inverted bitmap, in increasing order. -/
def set_channels (bits : Nat) : List Nat :=
  (List.range 8).filter (fun i => bits.testBit i)

/-- Specification: the weighted-average error, (sum of the weights of the set
channels) / (number of set channels). -/
def weighted_average (bits : Nat) : ℚ :=
  ((set_channels bits).map line_weight).sum / ((set_channels bits).length : ℚ)

/-! ## `scheduler.c` -/

/-- The task functions stored in the table `scheduler_task`. -/
inductive Task_Func where
  | uart_task
  | motor_task
  | pid_task
  | imu_task
  | gary_task
  | encoder_task
  | oled_task
  | adc_task
  deriving DecidableEq, Repr

structure task_t where
  task_func : Task_Func
  rate_ms : Nat
  last_run : Nat
  deriving DecidableEq, Repr

/-- The static table `scheduler_task[]` with its initial values. -/
def scheduler_task : List task_t :=
  [ { task_func := Task_Func.uart_task, rate_ms := 10, last_run := 0 },
    { task_func := Task_Func.motor_task, rate_ms := 1, last_run := 0 },
    { task_func := Task_Func.pid_task, rate_ms := 10, last_run := 0 },
    { task_func := Task_Func.imu_task, rate_ms := 10, last_run := 0 },
    { task_func := Task_Func.gary_task, rate_ms := 10, last_run := 0 },
    { task_func := Task_Func.encoder_task, rate_ms := 10, last_run := 0 },
    { task_func := Task_Func.oled_task, rate_ms := 100, last_run := 0 },
    { task_func := Task_Func.adc_task, rate_ms := 50, last_run := 0 } ]

/-- Function `scheduler_init`: the value it stores in the `uint8_t task_num`. -/
def scheduler_init (table : List task_t) : Nat := table.length % 256

/-- The test `now_time >= scheduler_task[i].rate_ms + scheduler_task[i].last_run`
of `scheduler_run`; the sum is a `uint32_t` addition. -/
def task_due (t : task_t) (now_time : Nat) : Prop :=
  now_time ≥ (t.rate_ms + t.last_run) % 4294967296

instance (t : task_t) (now_time : Nat) : Decidable (task_due t now_time) := by
  unfold task_due; infer_instance

/-- The body of the `for` loop of `scheduler_run` at index `i`.  The state is the
task table and the rest of the program state `W`, on which `call f` runs the task
function `f`; `tick i` is the value `HAL_GetTick()` returns in iteration `i`.
An index outside the table (an undefined access in C) leaves the state as it is. -/
def scheduler_body {W : Type} (call : Task_Func → W → W) (tick : Nat → Nat)
    (st : List task_t × W) (i : Nat) : List task_t × W :=
  match st.1[i]? with
  | none => st
  | some t =>
    let now_time := tick i
    if task_due t now_time then
      (st.1.set i { t with last_run := now_time }, call t.task_func st.2)
    else st

/-- Function `scheduler_run`: the loop `for (i = 0; i < task_num; i++)`. -/
def scheduler_run {W : Type} (call : Task_Func → W → W) (tick : Nat → Nat) (task_num : Nat)
    (table : List task_t) (w : W) : List task_t × W :=
  (List.range task_num).foldl (scheduler_body call tick) (table, w)

/-- The task functions a pass calls, in call order, read off the table as it is
before the pass: the indices `0 .. task_num - 1` in increasing order, each kept
when its task is due at the clock value read for it. -/
def invoked_funcs (tick : Nat → Nat) (task_num : Nat) (table : List task_t) : List Task_Func :=
  (List.range task_num).filterMap fun i =>
    match table[i]? with
    | none => none
    | some t => if task_due t (tick i) then some t.task_func else none

/-- A program state that only records the task functions called, in order. -/
def call_log (f : Task_Func) (w : List Task_Func) : List Task_Func := w ++ [f]

/-- The task table when every task last ran at tick `2^32 - 5`. -/
def late_table : List task_t :=
  scheduler_task.map fun t => { t with last_run := 4294967291 }

/-! ## `motor_app.h`, `motor_app.c` -/

inductive Motor_State_t where
  | MOTOR_STATE_STOP
  | MOTOR_STATE_FORWARD
  | MOTOR_STATE_BACKWARD
  | MOTOR_STATE_ERROR
  deriving DecidableEq, Repr

inductive Motor_ID_t where
  | MOTOR_ID_LEFT
  | MOTOR_ID_RIGHT
  deriving DecidableEq, Repr

/-- The GPIO ports named in `main.h`. -/
inductive GPIO_Port where
  | GPIOA
  | GPIOB
  deriving DecidableEq, Repr

/-- Pin mask `STBY_Pin` (`GPIO_PIN_2`) of `main.h`. -/
def STBY_Pin : Nat := 0x0004

/-- Hardware configuration of a motor; the timer handle is an identifier. -/
structure Motor_Hardware_t where
  htim : Nat
  channel : Nat
  in1_port : GPIO_Port
  in1_pin : Nat
  in2_port : GPIO_Port
  in2_pin : Nat
  stby_port : GPIO_Port
  stby_pin : Nat
  deriving DecidableEq, Repr

structure Motor_t where
  motor_id : Motor_ID_t
  hw : Motor_Hardware_t
  speed : Int
  state : Motor_State_t
  enable : Nat
  deriving DecidableEq, Repr

/-- One write to the motor-driver hardware: `HAL_GPIO_WritePin` (with
`GPIO_PIN_SET` as `true`) or `__HAL_TIM_SET_COMPARE`. -/
inductive HW_Write where
  | WritePin (port : GPIO_Port) (pin : Nat) (level : Bool)
  | SetCompare (htim : Nat) (channel : Nat) (value : Nat)
  deriving DecidableEq, Repr

/-- The globals of `motor_app.c`. -/
structure Motor_Globals where
  PWM_left_value : Int
  PWM_right_value : Int
  enable : Nat
  motor1 : Motor_t
  motor2 : Motor_t
  deriving DecidableEq, Repr

/-- What a call of `Motor_SetSpeed` produces: its return value, the motor object
and the sequence of hardware writes performed so far. -/
structure Motor_Result where
  ret : Int
  motor : Motor_t
  writes : List HW_Write
  deriving DecidableEq, Repr

/-- Function `Motor_SetSpeed`, called on a motor object (the pointer argument is
never `NULL` at a call on an object, so the `motor == NULL` test is not
represented); `writes` is the sequence of hardware writes before the call. -/
def Motor_SetSpeed (motor : Motor_t) (speed : Int) (enable : Nat) (writes : List HW_Write) :
    Motor_Result :=
  if speed < -1000 ∨ speed > 1000 then { ret := -1, motor := motor, writes := writes }
  else
    let motor := { motor with enable := enable, speed := speed }
    if enable = 0 then
      { ret := 0
        motor := { motor with state := Motor_State_t.MOTOR_STATE_STOP }
        writes := writes ++
          [HW_Write.WritePin motor.hw.in1_port motor.hw.in1_pin false,
           HW_Write.WritePin motor.hw.in2_port motor.hw.in2_pin false,
           HW_Write.SetCompare motor.hw.htim motor.hw.channel 0] }
    else
      let writes := writes ++ [HW_Write.WritePin motor.hw.stby_port motor.hw.stby_pin true]
      if speed = 0 then
        { ret := 0
          motor := { motor with state := Motor_State_t.MOTOR_STATE_STOP }
          writes := writes ++
            [HW_Write.WritePin motor.hw.in1_port motor.hw.in1_pin false,
             HW_Write.WritePin motor.hw.in2_port motor.hw.in2_pin false,
             HW_Write.SetCompare motor.hw.htim motor.hw.channel 0] }
      else
        let fwd : Motor_t × List HW_Write :=
          if speed > 0 then
            ({ motor with state := Motor_State_t.MOTOR_STATE_FORWARD },
              writes ++
                [HW_Write.WritePin motor.hw.in1_port motor.hw.in1_pin false,
                 HW_Write.WritePin motor.hw.in2_port motor.hw.in2_pin true])
          else (motor, writes)
        let bwd : Motor_t × List HW_Write :=
          if speed < 0 then
            ({ fwd.1 with state := Motor_State_t.MOTOR_STATE_BACKWARD },
              fwd.2 ++
                [HW_Write.WritePin motor.hw.in1_port motor.hw.in1_pin true,
                 HW_Write.WritePin motor.hw.in2_port motor.hw.in2_pin false])
          else fwd
        let pwm_value : Nat := speed.natAbs % 65536
        { ret := 0
          motor := bwd.1
          writes := bwd.2 ++ [HW_Write.SetCompare motor.hw.htim motor.hw.channel pwm_value] }

/-- Function `motor_task`: the global STBY control. -/
def motor_task (mg : Motor_Globals) (writes : List HW_Write) : List HW_Write :=
  if mg.enable = 0 then writes ++ [HW_Write.WritePin GPIO_Port.GPIOA STBY_Pin false]
  else writes ++ [HW_Write.WritePin GPIO_Port.GPIOA STBY_Pin true]

/-- Function `Motor_StartStop`. -/
def Motor_StartStop (mg : Motor_Globals) : Motor_Globals := { mg with enable := 0 }

/-! ## `pid_control.h`, `pid_control.c` -/

structure pid_params_t where
  Kp : ℚ
  Ki : ℚ
  Kd : ℚ
  out_max : ℚ
  out_min : ℚ
  deriving DecidableEq, Repr

/-- The PID library behind `pid.h`, which is not part of `APP/`: the controller
type `PID_T` and the library functions are parameters of the embedding.  A
function that writes through its `PID_T*` argument returns the new controller. -/
structure PID_Lib (PID_T : Type) where
  pid_init : PID_T → ℚ → ℚ → ℚ → ℚ → ℚ → PID_T
  pid_set_target : PID_T → ℚ → PID_T
  pid_set_params : PID_T → ℚ → ℚ → ℚ → PID_T
  pid_set_limit : PID_T → ℚ → PID_T
  pid_reset : PID_T → PID_T
  pid_calculate_positional : PID_T → ℚ → PID_T × ℚ
  pid_calculate_incremental : PID_T → ℚ → PID_T × ℚ
  pid_constrain : ℚ → ℚ → ℚ → ℚ

/-- The globals of `pid_control.c`. -/
structure PID_Globals (PID_T : Type) where
  basic_speed : ℚ
  line_error : ℚ
  pid_line_out : ℚ
  yaw : ℚ
  pid_yaw_out : ℚ
  PID_left_speed : PID_T
  PID_right_speed : PID_T
  PID_line : PID_T
  PID_Angle : PID_T
  left_speed : pid_params_t
  right_speed : pid_params_t
  line : pid_params_t
  Angle : pid_params_t

/-- The cast `(int32_t)x` of a `float`: truncation, then the 32-bit store. -/
def float_to_int32 (q : ℚ) : Int := wrapI32 (truncQ q)

/-- Function `get_left_wheel_speed_ms` of `encoder_app.c`. -/
def get_left_wheel_speed_ms (eg : Encoder_Globals) : ℚ := eg.encoder_data_A.speed_m_s

/-- Function `get_right_wheel_speed_ms` of `encoder_app.c`. -/
def get_right_wheel_speed_ms (eg : Encoder_Globals) : ℚ := eg.encoder_data_B.speed_m_s

/-- Function `PID_reset_all`. -/
def PID_reset_all {PID_T : Type} (lib : PID_Lib PID_T) (pg : PID_Globals PID_T) :
    PID_Globals PID_T :=
  let pg := { pg with PID_left_speed := lib.pid_reset pg.PID_left_speed }
  let pg := { pg with PID_right_speed := lib.pid_reset pg.PID_right_speed }
  let pg := { pg with PID_line := lib.pid_reset pg.PID_line }
  { pg with PID_Angle := lib.pid_reset pg.PID_Angle }

/-- Function `PID_update_params`. -/
def PID_update_params {PID_T : Type} (lib : PID_Lib PID_T) (pg : PID_Globals PID_T) :
    PID_Globals PID_T :=
  let pg := { pg with
    PID_left_speed :=
      lib.pid_set_params pg.PID_left_speed pg.left_speed.Kp pg.left_speed.Ki pg.left_speed.Kd }
  let pg := { pg with
    PID_left_speed := lib.pid_set_limit pg.PID_left_speed pg.left_speed.out_max }
  let pg := { pg with
    PID_right_speed :=
      lib.pid_set_params pg.PID_right_speed pg.right_speed.Kp pg.right_speed.Ki
        pg.right_speed.Kd }
  let pg := { pg with
    PID_right_speed := lib.pid_set_limit pg.PID_right_speed pg.right_speed.out_max }
  let pg := { pg with
    PID_line := lib.pid_set_params pg.PID_line pg.line.Kp pg.line.Ki pg.line.Kd }
  let pg := { pg with PID_line := lib.pid_set_limit pg.PID_line pg.line.out_max }
  let pg := { pg with
    PID_Angle := lib.pid_set_params pg.PID_Angle pg.Angle.Kp pg.Angle.Ki pg.Angle.Kd }
  let pg := { pg with PID_Angle := lib.pid_set_limit pg.PID_Angle pg.Angle.out_max }
  PID_reset_all lib pg

/-- The part of `pid_task` after the enable test and before the motor calls: the
two positional PID calculations and the two `pid_constrain` calls.  The result is
the PID globals and the values of `pid_left_out` and `pid_right_out`. -/
def pid_task_outputs {PID_T : Type} (lib : PID_Lib PID_T) (pg : PID_Globals PID_T)
    (eg : Encoder_Globals) : PID_Globals PID_T × ℚ × ℚ :=
  let speed_current_left := get_left_wheel_speed_ms eg
  let speed_current_right := get_right_wheel_speed_ms eg
  let rl := lib.pid_calculate_positional pg.PID_left_speed speed_current_left
  let pg := { pg with PID_left_speed := rl.1 }
  let rr := lib.pid_calculate_positional pg.PID_right_speed speed_current_right
  let pg := { pg with PID_right_speed := rr.1 }
  let pid_left_out := lib.pid_constrain rl.2 pg.left_speed.out_min pg.left_speed.out_max
  let pid_right_out := lib.pid_constrain rr.2 pg.right_speed.out_min pg.right_speed.out_max
  (pg, pid_left_out, pid_right_out)

/-- Function `pid_task` (the UART print at its end is not represented). -/
def pid_task {PID_T : Type} (lib : PID_Lib PID_T) (pg : PID_Globals PID_T)
    (mg : Motor_Globals) (eg : Encoder_Globals) (writes : List HW_Write) :
    PID_Globals PID_T × Motor_Globals × List HW_Write :=
  if mg.enable = 0 then (pg, mg, writes)
  else
    let o := pid_task_outputs lib pg eg
    let r1 := Motor_SetSpeed mg.motor1 (float_to_int32 o.2.1) mg.enable writes
    let mg := { mg with motor1 := r1.motor }
    let r2 := Motor_SetSpeed mg.motor2 (float_to_int32 o.2.2) mg.enable r1.writes
    let mg := { mg with motor2 := r2.motor }
    (o.1, mg, r2.writes)

/-- Function `PID_init`. -/
def PID_init {PID_T : Type} (lib : PID_Lib PID_T) (pg : PID_Globals PID_T) :
    PID_Globals PID_T :=
  let pg := { pg with
    PID_left_speed :=
      lib.pid_init pg.PID_left_speed pg.left_speed.Kp pg.left_speed.Ki pg.left_speed.Kd 0
        pg.left_speed.out_max }
  let pg := { pg with
    PID_right_speed :=
      lib.pid_init pg.PID_right_speed pg.right_speed.Kp pg.right_speed.Ki pg.right_speed.Kd 0
        pg.right_speed.out_max }
  let pg := { pg with
    PID_line := lib.pid_init pg.PID_line pg.line.Kp pg.line.Ki pg.line.Kd 0 pg.line.out_max }
  let pg := { pg with
    PID_Angle :=
      lib.pid_init pg.PID_Angle pg.Angle.Kp pg.Angle.Ki pg.Angle.Kd 0 pg.Angle.out_max }
  let pg := { pg with PID_left_speed := lib.pid_set_target pg.PID_left_speed pg.basic_speed }
  let pg := { pg with PID_right_speed := lib.pid_set_target pg.PID_right_speed pg.basic_speed }
  let pg := { pg with PID_line := lib.pid_set_target pg.PID_line 0 }
  { pg with PID_Angle := lib.pid_set_target pg.PID_Angle 0 }

/-- The globals of `pid_control.c` at program start, with their initialisers;
`zero` is the zero-initialised controller object. -/
def pid_globals_start {PID_T : Type} (zero : PID_T) : PID_Globals PID_T :=
  { basic_speed := 3 / 10
    line_error := 0
    pid_line_out := 0
    yaw := 0
    pid_yaw_out := 0
    PID_left_speed := zero
    PID_right_speed := zero
    PID_line := zero
    PID_Angle := zero
    left_speed := { Kp := 180, Ki := 16, Kd := 18, out_max := 999, out_min := -999 }
    right_speed := { Kp := 180, Ki := 16, Kd := 18, out_max := 999, out_min := -999 }
    line := { Kp := 1, Ki := 0, Kd := 0, out_max := 0, out_min := 0 }
    Angle := { Kp := 0, Ki := 0, Kd := 0, out_max := 0, out_min := 0 } }

/-! ## `usart_app.c` -/

/-- Function `handle_SPEED_command_with_params`, as far as it acts on the globals
of `pid_control.c` (its UART messages are not represented); `new_speed` is the
value `atof(params[0])` it parses when `param_count` is 1. -/
def handle_SPEED_command_with_params {PID_T : Type} (lib : PID_Lib PID_T)
    (pg : PID_Globals PID_T) (param_count : Int) (new_speed : ℚ) : PID_Globals PID_T :=
  if param_count = 0 then pg
  else if param_count = 1 then
    if new_speed < 0 ∨ new_speed > 2 then pg
    else
      let pg := { pg with basic_speed := new_speed }
      let pg := { pg with PID_left_speed := lib.pid_set_target pg.PID_left_speed pg.basic_speed }
      let pg := { pg with
        PID_right_speed := lib.pid_set_target pg.PID_right_speed pg.basic_speed }
      PID_reset_all lib pg
  else pg

/-! ## The PID library, from the specification

Used to instantiate the library parameter in the witnesses. -/

/-- Modelled from the spec: the controller record of the PID library of `pid.h`
(outside `APP/`), with the fields of the PIDController data model: gains,
target, accumulated integral, previous errors, previous output, clamp bounds. -/
structure Spec_PID where
  Kp : ℚ
  Ki : ℚ
  Kd : ℚ
  target : ℚ
  integral : ℚ
  prev_error : ℚ
  prev_error2 : ℚ
  prev_output : ℚ
  out_min : ℚ
  out_max : ℚ
  deriving DecidableEq, Repr

/-- Modelled from the spec: `pid_constrain` of `pid.h`, which limits its first
argument to `[lo, hi]`. -/
def spec_pid_constrain (x lo hi : ℚ) : ℚ :=
  if x < lo then lo else if x > hi then hi else x

/-- Modelled from the spec: `reset` of the PID library, which zeroes the integral
and the previous-error and previous-output state. -/
def spec_pid_reset (p : Spec_PID) : Spec_PID :=
  { p with integral := 0, prev_error := 0, prev_error2 := 0, prev_output := 0 }

/-- Modelled from the spec: the positional form of the PID library,
`Kp·e + Ki·Σe·dt + Kd·(e − e_prev)/dt` with a fixed nominal `dt`, the integral
accumulated unconditionally and the final output clamped. -/
def spec_pid_positional (dt : ℚ) (p : Spec_PID) (measurement : ℚ) : Spec_PID × ℚ :=
  let e := p.target - measurement
  let integral := p.integral + e * dt
  let out := spec_pid_constrain (p.Kp * e + p.Ki * integral + p.Kd * (e - p.prev_error) / dt)
    p.out_min p.out_max
  ({ p with integral := integral, prev_error := e, prev_error2 := p.prev_error,
            prev_output := out }, out)

/-- Modelled from the spec: the incremental form of the PID library,
`out_k = out_{k-1} + Kp·(e_k − e_{k-1}) + Ki·e_k + Kd·(e_k − 2·e_{k-1} + e_{k-2})`,
clamped. -/
def spec_pid_incremental (p : Spec_PID) (measurement : ℚ) : Spec_PID × ℚ :=
  let e := p.target - measurement
  let out := spec_pid_constrain
    (p.prev_output + p.Kp * (e - p.prev_error) + p.Ki * e +
      p.Kd * (e - 2 * p.prev_error + p.prev_error2))
    p.out_min p.out_max
  ({ p with prev_error := e, prev_error2 := p.prev_error, prev_output := out }, out)

/-- Modelled from the spec: the operations of the PID library of `pid.h`
(`set_target`, `set_gains`, `set_output_limit` with a symmetric clamp, `reset`,
`calculate` in both forms), for a nominal period `dt`. -/
def spec_pid_lib (dt : ℚ) : PID_Lib Spec_PID :=
  { pid_init := fun _ kp ki kd target limit =>
      { Kp := kp, Ki := ki, Kd := kd, target := target, integral := 0, prev_error := 0,
        prev_error2 := 0, prev_output := 0, out_min := -limit, out_max := limit }
    pid_set_target := fun p target => { p with target := target }
    pid_set_params := fun p kp ki kd => { p with Kp := kp, Ki := ki, Kd := kd }
    pid_set_limit := fun p limit => { p with out_min := -limit, out_max := limit }
    pid_reset := spec_pid_reset
    pid_calculate_positional := spec_pid_positional dt
    pid_calculate_incremental := spec_pid_incremental
    pid_constrain := spec_pid_constrain }

/-! ## Concrete control states used in the evaluation theorems -/

/-- The zero-initialised controller object. -/
def zero_pid : Spec_PID :=
  { Kp := 0, Ki := 0, Kd := 0, target := 0, integral := 0, prev_error := 0, prev_error2 := 0,
    prev_output := 0, out_min := 0, out_max := 0 }

/-- The globals of `pid_control.c` after `PID_init`, with a 10 ms nominal period. -/
def pid_globals_ready : PID_Globals Spec_PID :=
  PID_init (spec_pid_lib (1 / 100)) (pid_globals_start zero_pid)

/-- The left motor as `Motor_Create` leaves it, on the pins `AN1`, `AN2` and
`STBY` of `main.h`. -/
def motor1_created : Motor_t :=
  { motor_id := Motor_ID_t.MOTOR_ID_LEFT
    hw := { htim := 1, channel := 0, in1_port := GPIO_Port.GPIOA, in1_pin := 0x0008,
            in2_port := GPIO_Port.GPIOA, in2_pin := 0x0010, stby_port := GPIO_Port.GPIOA,
            stby_pin := STBY_Pin }
    speed := 0
    state := Motor_State_t.MOTOR_STATE_STOP
    enable := 1 }

/-- The right motor as `Motor_Create` leaves it, on the pins `BN1`, `BN2` and
`STBY` of `main.h`. -/
def motor2_created : Motor_t :=
  { motor_id := Motor_ID_t.MOTOR_ID_LEFT
    hw := { htim := 1, channel := 4, in1_port := GPIO_Port.GPIOB, in1_pin := 0x0001,
            in2_port := GPIO_Port.GPIOB, in2_pin := 0x0002, stby_port := GPIO_Port.GPIOA,
            stby_pin := STBY_Pin }
    speed := 0
    state := Motor_State_t.MOTOR_STATE_STOP
    enable := 1 }

/-- The globals of `motor_app.c` after the motors are created: `enable` is 0. -/
def motors_idle : Motor_Globals :=
  { PWM_left_value := 0, PWM_right_value := 0, enable := 0, motor1 := motor1_created,
    motor2 := motor2_created }

/-- The globals of `motor_app.c` after a run in which the left motor was commanded
to 500 (`Motor_SetSpeed(&motor1, 500, 1)`) and `Motor_StartStop` then cleared
`enable`. -/
def motors_stopped : Motor_Globals :=
  Motor_StartStop { motors_idle with
    enable := 1
    motor1 := (Motor_SetSpeed motors_idle.motor1 500 1 []).motor }

/-- The hardware writes of that run. -/
def writes_stopped : List HW_Write := (Motor_SetSpeed motors_idle.motor1 500 1 []).writes

/-- The globals of `motor_app.c` while the motors are enabled. -/
def motors_running : Motor_Globals := { motors_idle with enable := 1 }

/-- The globals of `encoder_app.c` after `Encoder_Init` at tick 0. -/
def encoders_ready : Encoder_Globals :=
  Encoder_Init ⟨power_on_data, power_on_data, ⟨0, 0, 0, 0, 0⟩⟩ 0 0

/-- The value of the compare register (the PWM duty) of a timer channel after a
sequence of hardware writes: the last value written, if any. -/
def pwm_duty (htim channel : Nat) (writes : List HW_Write) : Option Nat :=
  writes.foldl
    (fun d w =>
      match w with
      | HW_Write.SetCompare h c v => if h = htim ∧ c = channel then some v else d
      | HW_Write.WritePin _ _ _ => d)
    none

/-! ## More of `encoder_app.c` -/

/-- Function `calculate_differential_drive`; `tick` is its `HAL_GetTick()` read. -/
def calculate_differential_drive (g : Encoder_Globals) (tick : Nat) : Encoder_Globals :=
  let left_speed := g.encoder_data_A.speed_m_s
  let right_speed := g.encoder_data_B.speed_m_s
  { g with
    diff_drive_data :=
      { linear_velocity := f32 (f32 (left_speed + right_speed) / 2)
        angular_velocity := f32 (f32 (right_speed - left_speed) / WHEEL_BASE)
        left_wheel_speed := left_speed
        right_wheel_speed := right_speed
        last_update_time := tick } }

/-- Function `is_encoder_system_healthy`; `current_time` is its `HAL_GetTick()`
read. -/
def is_encoder_system_healthy (g : Encoder_Globals) (current_time : Nat) : Nat :=
  if sub_u32 current_time g.encoder_data_A.last_update_time > 500 then 0
  else if sub_u32 current_time g.encoder_data_B.last_update_time > 500 then 0
  else if g.encoder_data_A.error_count > 100 ∨ g.encoder_data_B.error_count > 100 then 0
  else if sub_u32 current_time g.diff_drive_data.last_update_time > 500 then 0
  else 1

/-- The wheel states a run of the firmware reaches with 16-bit counter readings:
the state `Encoder_Init` or `clear_speed_data` writes into a wheel object (with
its buffer of five entries), and the state after any call of
`calculate_speed_for_encoder` with a counter reading in `0..65535`. -/
inductive Encoder_Reachable : Encoder_Data_t → Prop where
  | init (id : Encoder_ID_t) (e : Encoder_Data_t) (tick : Nat) :
      e.speed_buffer.length = ENCODER_FILTER_SIZE →
      Encoder_Reachable (Encoder_Init_data id e tick)
  | step (e : Encoder_Data_t) (current_time current_counter : Nat) :
      Encoder_Reachable e → current_counter ≤ 65535 →
      Encoder_Reachable (calculate_speed_for_encoder e current_time current_counter)

/-! ## More of `gary_app.h`, `gary_app.c` -/

structure Gary_Data_t where
  digital_data : Nat
  analog_data : List Nat
  normalize_data : List Nat
  line_state : Gary_LineState_t
  line_error : ℚ
  line_width : Nat
  data_ready : Nat
  last_update_time : Nat
  comm_error_count : Nat
  init_status : Nat
  deriving DecidableEq, Repr

/-- The global `gary_data` together with the two `static` counters of
`gary_task`. -/
structure Gary_State where
  gary_data : Gary_Data_t
  retry_count : Nat
  normalize_cycle : Nat
  deriving DecidableEq, Repr

/-- What the sensor transport (`gw_grayscale_sensor.h`, outside `APP/`) delivers
during one call of `gary_task`: the value of `IIC_Get_Digtal()`, the return value
of `IIC_Get_Anolog(analog_data, 8)` and the buffer contents after it, the return
value of `IIC_Anolog_Normalize(0xFF)`, the buffer contents after
`IIC_Get_Anolog(normalize_data, 8)`, and the `HAL_GetTick()` read. -/
structure Gary_Bus where
  digital : Nat
  analog_result : Nat
  analog_after : List Nat
  normalize_on : Nat
  normalize_after : List Nat
  tick : Nat
  deriving DecidableEq, Repr

/-- The loop `normalize_data[i] = (analog_data[i] * 100) / 255` of `gary_task`. -/
def simple_normalize (analog_data normalize_data : List Nat) : List Nat :=
  (List.range 8).foldl (fun nd i => nd.set i (analog_data.getD i 0 * 100 / 255 % 256))
    normalize_data

/-- Function `gary_task`. -/
def gary_task (s : Gary_State) (bus : Gary_Bus) : Gary_State :=
  if s.gary_data.init_status = 0 then s
  else
    let gd := { s.gary_data with digital_data := bus.digital % 256 }
    let result := bus.analog_result
    let gd := { gd with analog_data := bus.analog_after }
    if result = 1 then
      let retry_count := 0
      let gd := { gd with data_ready := 1, last_update_time := bus.tick }
      let normalize_cycle := (s.normalize_cycle + 1) % 256
      let cyc : Nat × Gary_Data_t :=
        if normalize_cycle ≥ 3 then
          if bus.normalize_on ≠ 0 then (0, { gd with normalize_data := bus.normalize_after })
          else (0, gd)
        else
          (normalize_cycle,
            { gd with normalize_data := simple_normalize gd.analog_data gd.normalize_data })
      let gd := cyc.2
      let gd := { gd with line_state := Gary_DetectLineState gd.digital_data }
      let gd := { gd with line_error := Gary_CalculateLineError gd.digital_data }
      let gd := { gd with line_width := Gary_GetLineWidth gd.digital_data }
      { gary_data := gd, retry_count := retry_count, normalize_cycle := cyc.1 }
    else
      let retry_count := (s.retry_count + 1) % 256
      let gd :=
        if gd.comm_error_count < 255 then { gd with comm_error_count := gd.comm_error_count + 1 }
        else gd
      if retry_count ≥ GARY_MAX_RETRY then
        { gary_data := { gd with data_ready := 0 }, retry_count := 0,
          normalize_cycle := s.normalize_cycle }
      else
        { gary_data := gd, retry_count := retry_count, normalize_cycle := s.normalize_cycle }

/-- Function `Gary_GetLineError`. -/
def Gary_GetLineError (gd : Gary_Data_t) : ℚ := gd.line_error

/-! ## `JY901S_app.h`, `JY901S_app.c` -/

def IMU_MAX_RETRY : Nat := 3
def IMU_ANGLE_SCALE : ℚ := 180 / 32768

/-- Register numbers of `REG.h` (outside `APP/`), as the comments of
`IMU_RegUpdateCallback` give them. -/
def Roll : Nat := 0x3d
def Pitch : Nat := 0x3e
def Yaw : Nat := 0x3f

/-- Return code `WIT_HAL_OK` of `wit_c_sdk.h` (outside `APP/`). -/
def WIT_HAL_OK : Int := 0

structure IMU_Data_t where
  roll : ℚ
  pitch : ℚ
  yaw : ℚ
  data_ready : Nat
  last_update_time : Nat
  comm_error_count : Nat
  init_status : Nat
  deriving DecidableEq, Repr

/-- The global `imu_data` together with the `static` counter of `imu_task`. -/
structure IMU_State where
  imu_data : IMU_Data_t
  retry_count : Nat
  deriving DecidableEq, Repr

/-- One invocation of the registered callback by the SDK: its two arguments, the
three Euler-angle entries of the SDK array `sReg` at that moment and the
`HAL_GetTick()` read of the callback. -/
structure Wit_Callback where
  uiReg : Nat
  uiRegNum : Nat
  sReg_Roll : Int
  sReg_Pitch : Int
  sReg_Yaw : Int
  tick : Nat
  deriving DecidableEq, Repr

/-- What the SDK does to `imu_data` while it runs: it calls back into
`JY901S_app.c`, either into the I2C adapter (`IMU_I2C_Read` / `IMU_I2C_Write`),
whose HAL transfer fails, or into the registered `IMU_RegUpdateCallback`.  An
adapter call whose transfer succeeds does not touch `imu_data`. -/
inductive Wit_Event where
  | i2c_failed
  | callback (cb : Wit_Callback)
  deriving DecidableEq, Repr

/-- What the call `WitReadReg(Roll, 3)` of the SDK (outside `APP/`) does during
one call of `imu_task`: the calls it makes into `JY901S_app.c`, in order, and its
return value; `tick` is the `HAL_GetTick()` read of `imu_task`. -/
structure Wit_Read where
  events : List Wit_Event
  result : Int
  tick : Nat
  deriving DecidableEq, Repr

/-- The error branch of `IMU_I2C_Read` and `IMU_I2C_Write`: the saturating
increment of `comm_error_count`. -/
def IMU_I2C_error (d : IMU_Data_t) : IMU_Data_t :=
  if d.comm_error_count < 255 then { d with comm_error_count := d.comm_error_count + 1 }
  else d

/-- Function `IMU_RegUpdateCallback`; the sums `uiReg + uiRegNum` are `uint32_t`
sums.  The three products are exact in single precision. -/
def IMU_RegUpdateCallback (d : IMU_Data_t) (cb : Wit_Callback) : IMU_Data_t :=
  if cb.uiReg ≤ Yaw ∧ add_u32 cb.uiReg cb.uiRegNum > Roll then
    let d :=
      if cb.uiReg ≤ Roll ∧ add_u32 cb.uiReg cb.uiRegNum > Roll then
        { d with roll := (cb.sReg_Roll : ℚ) * IMU_ANGLE_SCALE }
      else d
    let d :=
      if cb.uiReg ≤ Pitch ∧ add_u32 cb.uiReg cb.uiRegNum > Pitch then
        { d with pitch := (cb.sReg_Pitch : ℚ) * IMU_ANGLE_SCALE }
      else d
    let d :=
      if cb.uiReg ≤ Yaw ∧ add_u32 cb.uiReg cb.uiRegNum > Yaw then
        { d with yaw := (cb.sReg_Yaw : ℚ) * IMU_ANGLE_SCALE }
      else d
    { d with data_ready := 1, last_update_time := cb.tick }
  else d

/-- The effect on `imu_data` of the calls the SDK makes during `WitReadReg`. -/
def Wit_apply (d : IMU_Data_t) (events : List Wit_Event) : IMU_Data_t :=
  events.foldl
    (fun d ev =>
      match ev with
      | Wit_Event.i2c_failed => IMU_I2C_error d
      | Wit_Event.callback cb => IMU_RegUpdateCallback d cb)
    d

/-- Function `imu_task`. -/
def imu_task (s : IMU_State) (wit : Wit_Read) : IMU_State :=
  if s.imu_data.init_status = 0 then s
  else
    let d := Wit_apply s.imu_data wit.events
    let result := wit.result
    if result = WIT_HAL_OK then
      { imu_data := { d with last_update_time := wit.tick }, retry_count := 0 }
    else
      let retry_count := (s.retry_count + 1) % 256
      let d :=
        if d.comm_error_count < 255 then { d with comm_error_count := d.comm_error_count + 1 }
        else d
      if retry_count ≥ IMU_MAX_RETRY then
        { imu_data := { d with data_ready := 0 }, retry_count := 0 }
      else { imu_data := d, retry_count := retry_count }

/-! ## More of `pid_control.c` -/

/-- Function `PID_Line_Control`; `gd` is the global `gary_data`. -/
def PID_Line_Control {PID_T : Type} (lib : PID_Lib PID_T) (pg : PID_Globals PID_T)
    (gd : Gary_Data_t) : PID_Globals PID_T :=
  let pg := { pg with line_error := Gary_GetLineError gd / 4 }
  let r := lib.pid_calculate_positional pg.PID_line pg.line_error
  let pg := { pg with PID_line := r.1, pid_line_out := r.2 }
  let pg := { pg with
    pid_line_out := lib.pid_constrain pg.pid_line_out pg.line.out_min pg.line.out_max }
  let pg := { pg with
    PID_left_speed := lib.pid_set_target pg.PID_left_speed (pg.basic_speed - pg.pid_line_out) }
  { pg with
    PID_right_speed :=
      lib.pid_set_target pg.PID_right_speed (pg.basic_speed + pg.pid_line_out) }

/-- Function `PID_Angle_Control`; `imu` is the global `imu_data`. -/
def PID_Angle_Control {PID_T : Type} (lib : PID_Lib PID_T) (pg : PID_Globals PID_T)
    (imu : IMU_Data_t) : PID_Globals PID_T :=
  let pg := { pg with yaw := imu.yaw }
  let r := lib.pid_calculate_incremental pg.PID_Angle pg.yaw
  { pg with PID_Angle := r.1, pid_yaw_out := r.2 }

/-! ## Concrete sensor states used in the evaluation theorems -/

/-- The line sensor while tracking: initialised, data ready, last classification
`LINE_CENTER` from the bitmap `0xE7`. -/
def gary_tracking : Gary_State :=
  { gary_data :=
      { digital_data := 0xE7
        analog_data := [0, 0, 0, 0, 0, 0, 0, 0]
        normalize_data := [0, 0, 0, 0, 0, 0, 0, 0]
        line_state := Gary_LineState_t.LINE_CENTER
        line_error := 0
        line_width := 2
        data_ready := 1
        last_update_time := 100
        comm_error_count := 0
        init_status := 1 }
    retry_count := 0
    normalize_cycle := 0 }

/-- A failed sensor read at tick 130: the digital read returns `0xFF`, the analog
read returns 0. -/
def bus_failed : Gary_Bus :=
  { digital := 0xFF
    analog_result := 0
    analog_after := [0, 0, 0, 0, 0, 0, 0, 0]
    normalize_on := 0
    normalize_after := [0, 0, 0, 0, 0, 0, 0, 0]
    tick := 130 }

/-- A successful sensor read at tick 130 of the bitmap `0xF3`. -/
def bus_good : Gary_Bus :=
  { digital := 0xF3
    analog_result := 1
    analog_after := [255, 255, 0, 0, 255, 255, 255, 255]
    normalize_on := 0
    normalize_after := [0, 0, 0, 0, 0, 0, 0, 0]
    tick := 130 }

/-- The IMU after `IMU_Init` succeeded and before any data arrived. -/
def imu_waiting : IMU_State :=
  { imu_data :=
      { roll := 0, pitch := 0, yaw := 0, data_ready := 0, last_update_time := 0,
        comm_error_count := 0, init_status := 1 }
    retry_count := 0 }

/-- A call `WitReadReg(Roll, 3)` that returns `WIT_HAL_OK` without invoking the
callback. -/
def wit_silent : Wit_Read := { events := [], result := WIT_HAL_OK, tick := 20 }

/-- A call `WitReadReg(Roll, 3)` that delivers the three Euler registers through
the callback and returns `WIT_HAL_OK`. -/
def wit_delivers : Wit_Read :=
  { events :=
      [Wit_Event.callback
        { uiReg := Roll, uiRegNum := 3, sReg_Roll := 0, sReg_Pitch := 0, sReg_Yaw := 8192,
          tick := 20 }]
    result := WIT_HAL_OK
    tick := 20 }

/-- A call `WitReadReg(Roll, 3)` that returns an error code. -/
def wit_failed : Wit_Read := { events := [], result := -1, tick := 20 }

/-- The IMU with a heading of 10 degrees whose data is not ready. -/
def imu_not_ready : IMU_Data_t :=
  { roll := 0, pitch := 0, yaw := 10, data_ready := 0, last_update_time := 0,
    comm_error_count := 3, init_status := 1 }

/-- The globals of `pid_control.c` after the heading gains were set to
`Kp = 1`, limit 100, and `PID_update_params` was run. -/
def pid_globals_heading : PID_Globals Spec_PID :=
  PID_update_params (spec_pid_lib (1 / 100))
    { pid_globals_ready with
      Angle := { Kp := 1, Ki := 0, Kd := 0, out_max := 100, out_min := -100 } }

/-- The globals of `encoder_app.c` after wheel A took one moving sample. -/
def encoders_moving : Encoder_Globals :=
  { encoder_data_A := moving_data
    encoder_data_B := init_data
    diff_drive_data :=
      { linear_velocity := 0, angular_velocity := 0, left_wheel_speed := 0,
        right_wheel_speed := 0, last_update_time := 50 } }

/-! ## Specification-side definition: wheel states of opposite direction -/

/-- Specification: `e'` is `e` with the ring buffer negated and the running sum
negated (as 32-bit values: the sums add up to 0 modulo `2^32`), at the same
write index. -/
def Mirrored (e e' : Encoder_Data_t) : Prop :=
  e'.speed_buffer = e.speed_buffer.map (fun x => -x) ∧
  e'.buffer_index = e.buffer_index ∧
  (e'.filter_sum + e.filter_sum) % 4294967296 = 0

/-! ## Specification-side definition: mirror image of a bitmap -/

/-- Specification: the bit reversal of an 8-bit bitmap, which swaps bit `i` with
bit `7 - i`. -/
def bit_reverse8 (b : Nat) : Nat :=
  ((List.range 8).map (fun i => if b.testBit i then 2 ^ (7 - i) else 0)).sum

/-! ## Machine-arithmetic lemmas -/

theorem wrapI16_of_range (n : Int) (h0 : -32768 ≤ n) (h1 : n ≤ 32767) : wrapI16 n = n := by
  unfold wrapI16; omega

theorem wrapI16_range (n : Int) : -32768 ≤ wrapI16 n ∧ wrapI16 n ≤ 32767 := by
  unfold wrapI16; omega

theorem wrapI32_of_range (n : Int) (h0 : -2147483648 ≤ n) (h1 : n ≤ 2147483647) :
    wrapI32 n = n := by
  unfold wrapI32; omega

theorem truncQ_eq (q : ℚ) (n : Int) (h0 : 0 ≤ q) (h1 : (n : ℚ) ≤ q) (h2 : q < n + 1) :
    truncQ q = n := by
  simp only [truncQ, if_pos h0]
  exact Int.floor_eq_iff.mpr ⟨h1, h2⟩

/-- Truncation never increases the magnitude and loses less than one unit. -/
theorem truncQ_abs_bounds (q : ℚ) :
    (|(truncQ q : ℚ)| ≤ |q|) ∧ (|q| - 1 < |(truncQ q : ℚ)|) := by
  unfold truncQ
  split_ifs with h
  · have h1 : ((⌊q⌋ : Int) : ℚ) ≤ q := Int.floor_le q
    have h2 : q < (⌊q⌋ : Int) + 1 := Int.lt_floor_add_one q
    have h3 : (0 : ℚ) ≤ ((⌊q⌋ : Int) : ℚ) := by exact_mod_cast Int.floor_nonneg.mpr h
    rw [abs_of_nonneg h3, abs_of_nonneg h]
    constructor <;> linarith
  · push_neg at h
    have h1 : q ≤ ((⌈q⌉ : Int) : ℚ) := Int.le_ceil q
    have h2 : ((⌈q⌉ : Int) : ℚ) < q + 1 := Int.ceil_lt_add_one q
    have h3 : ((⌈q⌉ : Int) : ℚ) ≤ 0 := by
      have : ⌈q⌉ ≤ 0 := Int.ceil_le.mpr (by simpa using h.le)
      exact_mod_cast this
    rw [abs_of_nonpos h3, abs_of_neg h]
    constructor <;> linarith

/-! ## Single-precision rounding lemmas -/

theorem round_half_even_intCast (n : Int) : round_half_even (n : ℚ) = n := by
  unfold round_half_even
  simp

theorem round_half_even_eq (y : ℚ) (n : Int) (h1 : (n : ℚ) - 1 / 2 < y)
    (h2 : y < (n : ℚ) + 1 / 2) : round_half_even y = n := by
  unfold round_half_even
  have hf1 : ((⌊y⌋ : Int) : ℚ) ≤ y := Int.floor_le y
  have hf2 : y < (⌊y⌋ : Int) + 1 := Int.lt_floor_add_one y
  split_ifs with ha hb hc
  · have h3 : (n : ℚ) - 1 < (⌊y⌋ : Int) := by linarith
    have h4 : ((⌊y⌋ : Int) : ℚ) < n + 1 := by linarith
    have h5 : n - 1 < ⌊y⌋ := by exact_mod_cast h3
    have h6 : ⌊y⌋ < n + 1 := by exact_mod_cast h4
    omega
  · have h3 : (n : ℚ) - 1 < (⌊y⌋ : Int) + 1 := by linarith
    have h4 : ((⌊y⌋ : Int) : ℚ) + 1 < n + 1 := by linarith
    have h5 : n - 1 < ⌊y⌋ + 1 := by exact_mod_cast h3
    have h6 : ⌊y⌋ + 1 < n + 1 := by exact_mod_cast h4
    omega
  · have hy : y - (⌊y⌋ : Int) = 1 / 2 := le_antisymm (not_lt.mp hb) (not_lt.mp ha)
    have h3 : (n : ℚ) - 1 < (⌊y⌋ : Int) := by linarith
    have h4 : ((⌊y⌋ : Int) : ℚ) < n := by linarith
    have h5 : n - 1 < ⌊y⌋ := by exact_mod_cast h3
    have h6 : ⌊y⌋ < n := by exact_mod_cast h4
    omega
  · have hy : y - (⌊y⌋ : Int) = 1 / 2 := le_antisymm (not_lt.mp hb) (not_lt.mp ha)
    have h3 : (n : ℚ) - 1 < (⌊y⌋ : Int) := by linarith
    have h4 : ((⌊y⌋ : Int) : ℚ) < n := by linarith
    have h5 : n - 1 < ⌊y⌋ := by exact_mod_cast h3
    have h6 : ⌊y⌋ < n := by exact_mod_cast h4
    omega

theorem round_half_even_err (y : ℚ) : |(round_half_even y : ℚ) - y| ≤ 1 / 2 := by
  unfold round_half_even
  have hf1 : ((⌊y⌋ : Int) : ℚ) ≤ y := Int.floor_le y
  have hf2 : y < (⌊y⌋ : Int) + 1 := Int.lt_floor_add_one y
  rw [abs_le]
  split_ifs with ha hb hc <;> push_cast <;> constructor <;> linarith

/-- Bounds by integers. -/
theorem round_half_even_le (y : ℚ) (n : Int) (h : y ≤ n) : round_half_even y ≤ n := by
  have hf : ⌊y⌋ ≤ n := by
    have : ((⌊y⌋ : Int) : ℚ) ≤ n := le_trans (Int.floor_le y) h
    exact_mod_cast this
  unfold round_half_even
  by_cases heq : ⌊y⌋ = n
  · have hy : y - (⌊y⌋ : Int) ≤ 0 := by rw [heq]; linarith
    rw [if_pos (by linarith)]
    exact hf
  · split_ifs <;> omega

theorem le_round_half_even (y : ℚ) (n : Int) (h : (n : ℚ) ≤ y) : n ≤ round_half_even y := by
  have hf : n ≤ ⌊y⌋ := Int.le_floor.mpr h
  unfold round_half_even
  split_ifs <;> omega

theorem round_half_even_mono (a b : ℚ) (h : a ≤ b) : round_half_even a ≤ round_half_even b := by
  have hfl : ⌊a⌋ ≤ ⌊b⌋ := Int.floor_mono h
  by_cases heq : ⌊a⌋ = ⌊b⌋
  · unfold round_half_even
    rw [heq]
    have hab : a - (⌊b⌋ : Int) ≤ b - (⌊b⌋ : Int) := by linarith
    split_ifs <;> first | omega | (exfalso; linarith)
  · have h1 : round_half_even a ≤ ⌊a⌋ + 1 := by
      unfold round_half_even; split_ifs <;> omega
    have h2 : ⌊b⌋ ≤ round_half_even b := by
      unfold round_half_even; split_ifs <;> omega
    omega

theorem round_half_even_neg (y : ℚ) : round_half_even (-y) = -round_half_even y := by
  by_cases hint : ((⌊y⌋ : Int) : ℚ) = y
  · rw [← hint, ← Int.cast_neg, round_half_even_intCast, round_half_even_intCast]
  · have hf1 : ((⌊y⌋ : Int) : ℚ) < y := lt_of_le_of_ne (Int.floor_le y) hint
    have hf2 : y < (⌊y⌋ : Int) + 1 := Int.lt_floor_add_one y
    have hn : ⌊-y⌋ = -⌊y⌋ - 1 := by
      rw [Int.floor_eq_iff]; push_cast; constructor <;> linarith
    unfold round_half_even
    rw [hn]
    push_cast
    split_ifs <;> first | omega | (exfalso; linarith)


theorem two_zpow_pos (k : Int) : (0 : ℚ) < 2 ^ k := zpow_pos (by norm_num) k

theorem f32_exp_neg (q : ℚ) : f32_exp (-q) = f32_exp q := by
  unfold f32_exp; rw [abs_neg]

theorem f32_neg (q : ℚ) : f32 (-q) = -f32 q := by
  unfold f32
  rw [f32_exp_neg, neg_div, round_half_even_neg]
  push_cast
  ring

theorem f32_zero : f32 0 = 0 := by
  unfold f32
  rw [zero_div]
  have h : round_half_even 0 = 0 := by
    have := round_half_even_intCast 0
    simpa using this
  rw [h]; simp

theorem f32_nonneg (q : ℚ) (h : 0 ≤ q) : 0 ≤ f32 q := by
  unfold f32
  have h1 : (0 : Int) ≤ round_half_even (q / 2 ^ f32_exp q) :=
    le_round_half_even _ 0 (by simpa using div_nonneg h (two_zpow_pos _).le)
  exact mul_nonneg (by exact_mod_cast h1) (two_zpow_pos _).le

theorem f32_abs (q : ℚ) : |f32 q| = f32 |q| := by
  rcases le_total 0 q with h | h
  · rw [abs_of_nonneg h, abs_of_nonneg (f32_nonneg q h)]
  · have h1 := f32_nonneg (-q) (by linarith)
    rw [abs_of_nonpos h]
    rw [f32_neg] at h1 ⊢
    rw [abs_of_nonpos (by linarith)]

/-- The binary exponent of a positive value. -/
theorem log_bounds (q : ℚ) (hq : 0 < q) :
    (2 : ℚ) ^ Int.log 2 q ≤ q ∧ q < (2 : ℚ) ^ (Int.log 2 q + 1) := by
  have h1 := Int.zpow_log_le_self (b := 2) (by norm_num) hq
  have h2 := Int.lt_zpow_succ_log_self (b := 2) (by norm_num) q
  simp only [Nat.cast_ofNat] at h1 h2
  exact ⟨h1, h2⟩

theorem log_eq (q : ℚ) (e : Int) (h1 : (2 : ℚ) ^ e ≤ q) (h2 : q < (2 : ℚ) ^ (e + 1)) :
    Int.log 2 q = e := by
  have hq : 0 < q := lt_of_lt_of_le (two_zpow_pos e) h1
  have a1 : e ≤ Int.log 2 q := by
    have := (Int.zpow_le_iff_le_log (b := 2) (by norm_num) hq (x := e)).mp
      (by simpa using h1)
    exact this
  have a2 : Int.log 2 q < e + 1 := by
    have := (Int.lt_zpow_iff_log_lt (b := 2) (by norm_num) hq (x := e + 1)).mp
      (by simpa using h2)
    exact this
  omega

/-- Evaluation of `f32` at a positive value of known binary exponent, away from a
tie. -/
theorem f32_eval (q : ℚ) (e n : Int) (he : -126 ≤ e) (h1 : (2 : ℚ) ^ e ≤ q)
    (h2 : q < (2 : ℚ) ^ (e + 1)) (h3 : (n : ℚ) - 1 / 2 < q / 2 ^ (e - 23))
    (h4 : q / 2 ^ (e - 23) < (n : ℚ) + 1 / 2) : f32 q = n * 2 ^ (e - 23) := by
  have hq : 0 < q := lt_of_lt_of_le (two_zpow_pos e) h1
  have hl := log_eq q e h1 h2
  have hx : f32_exp q = e - 23 := by
    unfold f32_exp; rw [abs_of_pos hq, hl, max_eq_left he]
  unfold f32
  rw [hx, round_half_even_eq _ n h3 h4]

theorem f32_exp_pos_cases (q : ℚ) :
    (f32_exp q = Int.log 2 |q| - 23 ∧ -126 ≤ Int.log 2 |q|) ∨
    (f32_exp q = -149 ∧ Int.log 2 |q| < -126) := by
  unfold f32_exp
  rcases le_total (Int.log 2 |q|) (-126) with h | h
  · rcases eq_or_lt_of_le h with h' | h'
    · left; rw [h']; simp
    · right; rw [max_eq_right h]; exact ⟨by norm_num, h'⟩
  · left; rw [max_eq_left h]; exact ⟨rfl, h⟩

/-- A positive value in the normal range rounds to at least the power of two
below it. -/
theorem f32_lower (q : ℚ) (hq : 0 < q) (hL : -126 ≤ Int.log 2 q) :
    (2 : ℚ) ^ Int.log 2 q ≤ f32 q := by
  have hx : f32_exp q = Int.log 2 q - 23 := by
    unfold f32_exp; rw [abs_of_pos hq, max_eq_left hL]
  obtain ⟨h1, -⟩ := log_bounds q hq
  unfold f32
  rw [hx]
  have hu := two_zpow_pos (Int.log 2 q - 23)
  have h2 : ((8388608 : Int) : ℚ) ≤ q / 2 ^ (Int.log 2 q - 23) := by
    rw [le_div_iff₀ hu]
    have : (2 : ℚ) ^ Int.log 2 q = 8388608 * 2 ^ (Int.log 2 q - 23) := by
      rw [zpow_sub₀ (by norm_num)]; norm_num; field_simp
    push_cast
    rw [← this]; exact h1
  have h3 := le_round_half_even _ _ h2
  have h4 : ((8388608 : Int) : ℚ) ≤ (round_half_even (q / 2 ^ (Int.log 2 q - 23)) : ℚ) := by
    exact_mod_cast h3
  have : (2 : ℚ) ^ Int.log 2 q = 8388608 * 2 ^ (Int.log 2 q - 23) := by
    rw [zpow_sub₀ (by norm_num)]; norm_num; field_simp
  rw [this]
  push_cast at h4
  exact mul_le_mul_of_nonneg_right h4 hu.le

/-- A positive value rounds to at most `2^24` quanta. -/
theorem f32_upper (q : ℚ) (hq : 0 < q) : f32 q ≤ 16777216 * 2 ^ f32_exp q := by
  obtain ⟨-, h1⟩ := log_bounds q hq
  have hu := two_zpow_pos (f32_exp q)
  have hle : Int.log 2 q + 1 ≤ f32_exp q + 24 := by
    unfold f32_exp; rw [abs_of_pos hq]
    have := le_max_left (Int.log 2 q) (-126)
    omega
  have h2 : q / 2 ^ f32_exp q ≤ ((16777216 : Int) : ℚ) := by
    rw [div_le_iff₀ hu]
    have h3 : (2 : ℚ) ^ (Int.log 2 q + 1) ≤ 2 ^ (f32_exp q + 24) :=
      zpow_le_zpow_right₀ (by norm_num) hle
    have h4 : (2 : ℚ) ^ (f32_exp q + 24) = 16777216 * 2 ^ f32_exp q := by
      rw [zpow_add₀ (by norm_num)]; norm_num; ring
    push_cast
    linarith
  have h3 := round_half_even_le _ _ h2
  have h4 : (round_half_even (q / 2 ^ f32_exp q) : ℚ) ≤ ((16777216 : Int) : ℚ) := by
    exact_mod_cast h3
  unfold f32
  push_cast at h4
  exact mul_le_mul_of_nonneg_right h4 hu.le

theorem f32_mono_pos (a b : ℚ) (ha : 0 < a) (h : a ≤ b) : f32 a ≤ f32 b := by
  have hb : 0 < b := lt_of_lt_of_le ha h
  have hlog : Int.log 2 a ≤ Int.log 2 b := Int.log_mono_right ha h
  have hexp : f32_exp a ≤ f32_exp b := by
    unfold f32_exp; rw [abs_of_pos ha, abs_of_pos hb]
    exact sub_le_sub_right (max_le_max hlog (le_refl _)) 23
  rcases eq_or_lt_of_le hexp with heq | hlt
  · unfold f32
    rw [heq]
    have hu := two_zpow_pos (f32_exp b)
    have h1 : a / 2 ^ f32_exp b ≤ b / 2 ^ f32_exp b := div_le_div_of_nonneg_right h hu.le
    have h2 := round_half_even_mono _ _ h1
    have h3 : (round_half_even (a / 2 ^ f32_exp b) : ℚ) ≤ round_half_even (b / 2 ^ f32_exp b) := by
      exact_mod_cast h2
    exact mul_le_mul_of_nonneg_right h3 hu.le
  · have hLb : -126 ≤ Int.log 2 b ∧ f32_exp b = Int.log 2 b - 23 := by
      have hxa : -149 ≤ f32_exp a := by
        unfold f32_exp
        have := le_max_right (Int.log 2 |a|) (-126)
        omega
      rcases f32_exp_pos_cases b with ⟨h1, h2⟩ | ⟨h1, h2⟩
      · rw [abs_of_pos hb] at h1 h2; exact ⟨h2, h1⟩
      · omega
    have h1 := f32_upper a ha
    have h2 := f32_lower b hb hLb.1
    have h3 : (16777216 : ℚ) * 2 ^ f32_exp a = 2 ^ (f32_exp a + 24) := by
      rw [zpow_add₀ (by norm_num)]; norm_num; ring
    have h4 : (2 : ℚ) ^ (f32_exp a + 24) ≤ 2 ^ Int.log 2 b :=
      zpow_le_zpow_right₀ (by norm_num) (by omega)
    linarith

/-- Rounding to `float` is monotone. -/
theorem f32_mono (a b : ℚ) (h : a ≤ b) : f32 a ≤ f32 b := by
  rcases lt_or_le 0 a with ha | ha
  · exact f32_mono_pos a b ha h
  · rcases le_or_lt 0 b with hb | hb
    · have h1 := f32_nonneg (-a) (by linarith)
      rw [f32_neg] at h1
      have h2 := f32_nonneg b hb
      linarith
    · have h1 := f32_mono_pos (-b) (-a) (by linarith) (by linarith)
      rw [f32_neg, f32_neg] at h1
      linarith


/-- An integer of magnitude at most `2^24` is a `float`. -/
theorem f32_intCast (n : Int) (h0 : -16777216 ≤ n) (h1 : n ≤ 16777216) : f32 (n : ℚ) = n := by
  have key : ∀ m : Int, 0 < m → m ≤ 16777216 → f32 (m : ℚ) = m := by
    intro m hm0 hm1
    have hq : (0 : ℚ) < m := by exact_mod_cast hm0
    obtain ⟨b1, b2⟩ := log_bounds (m : ℚ) hq
    have hL0 : 0 ≤ Int.log 2 (m : ℚ) := by
      have : (2 : ℚ) ^ (0 : Int) ≤ m := by
        have : (1 : ℚ) ≤ m := by exact_mod_cast hm0
        simpa using this
      have := (Int.zpow_le_iff_le_log (b := 2) (by norm_num) hq (x := 0)).mp (by simpa using this)
      exact this
    have hL1 : Int.log 2 (m : ℚ) ≤ 24 := by
      have : (m : ℚ) < (2 : ℚ) ^ (25 : Int) := by
        have : (m : ℚ) ≤ 16777216 := by exact_mod_cast hm1
        norm_num; linarith
      have := (Int.lt_zpow_iff_log_lt (b := 2) (by norm_num) hq (x := 25)).mp (by simpa using this)
      omega
    have hx : f32_exp (m : ℚ) = Int.log 2 (m : ℚ) - 23 := by
      unfold f32_exp; rw [abs_of_pos hq, max_eq_left (by omega)]
    have hint : ∃ j : Int, (m : ℚ) / 2 ^ (Int.log 2 (m : ℚ) - 23) = j := by
      rcases eq_or_lt_of_le hL1 with h24 | hlt
      · rw [h24] at b1 ⊢
        have hm : m = 16777216 := by
          have : (16777216 : ℚ) ≤ m := by norm_num at b1; exact b1
          have : (16777216 : Int) ≤ m := by exact_mod_cast this
          omega
        refine ⟨8388608, ?_⟩
        rw [hm]; norm_num
      · obtain ⟨k, hk⟩ := Int.eq_ofNat_of_zero_le (show 0 ≤ 23 - Int.log 2 (m : ℚ) by omega)
        refine ⟨m * 2 ^ k, ?_⟩
        have he : Int.log 2 (m : ℚ) - 23 = -(k : Int) := by omega
        rw [he, zpow_neg, zpow_natCast]
        push_cast
        field_simp
    obtain ⟨j, hj⟩ := hint
    unfold f32
    rw [hx, hj, round_half_even_intCast, ← hj]
    have hu := two_zpow_pos (Int.log 2 (m : ℚ) - 23)
    field_simp
  rcases lt_trichotomy n 0 with hn | hn | hn
  · have := key (-n) (by omega) (by omega)
    push_cast at this
    rw [f32_neg] at this
    linarith
  · subst hn; simpa using f32_zero
  · exact key n hn h1

/-- The rounding error of `f32` is at most half a quantum. -/
theorem f32_err (q : ℚ) : |f32 q - q| ≤ 2 ^ f32_exp q / 2 := by
  have hu := two_zpow_pos (f32_exp q)
  have h := round_half_even_err (q / 2 ^ f32_exp q)
  unfold f32
  have e : (round_half_even (q / 2 ^ f32_exp q) : ℚ) * 2 ^ f32_exp q - q =
      ((round_half_even (q / 2 ^ f32_exp q) : ℚ) - q / 2 ^ f32_exp q) * 2 ^ f32_exp q := by
    field_simp
  rw [e, abs_mul, abs_of_pos hu]
  calc |(round_half_even (q / 2 ^ f32_exp q) : ℚ) - q / 2 ^ f32_exp q| * 2 ^ f32_exp q
      ≤ 1 / 2 * 2 ^ f32_exp q := mul_le_mul_of_nonneg_right h hu.le
    _ = 2 ^ f32_exp q / 2 := by ring

/-- Relative form of the rounding error in the normal range. -/
theorem f32_err_rel (q : ℚ) (hq : (2 : ℚ) ^ (-126 : Int) ≤ |q|) :
    |f32 q - q| ≤ |q| / 16777216 := by
  have hpos : 0 < |q| := lt_of_lt_of_le (two_zpow_pos _) hq
  have hL : -126 ≤ Int.log 2 |q| :=
    (Int.zpow_le_iff_le_log (b := 2) (by norm_num) hpos (x := -126)).mp (by simpa using hq)
  have hx : f32_exp q = Int.log 2 |q| - 23 := by
    unfold f32_exp; rw [max_eq_left hL]
  have h := f32_err q
  rw [hx] at h
  obtain ⟨b1, -⟩ := log_bounds |q| hpos
  have e : (2 : ℚ) ^ (Int.log 2 |q| - 23) / 2 = 2 ^ Int.log 2 |q| / 16777216 := by
    rw [zpow_sub₀ (by norm_num)]; norm_num; ring
  rw [e] at h
  have : (2 : ℚ) ^ Int.log 2 |q| / 16777216 ≤ |q| / 16777216 :=
    div_le_div_of_nonneg_right b1 (by norm_num)
  linarith

/-- The rounding error of `f32` below a power of two. -/
theorem f32_err_of_lt (q : ℚ) (k : Int) (hk : -126 ≤ k) (h : |q| < (2 : ℚ) ^ (k + 1)) :
    |f32 q - q| ≤ 2 ^ (k - 24) := by
  rcases eq_or_ne q 0 with h0 | h0
  · subst h0
    rw [f32_zero]
    simpa using (two_zpow_pos (k - 24)).le
  · have hpos : 0 < |q| := abs_pos.mpr h0
    have hL : Int.log 2 |q| < k + 1 :=
      (Int.lt_zpow_iff_log_lt (b := 2) (by norm_num) hpos (x := k + 1)).mp (by simpa using h)
    have hx : f32_exp q ≤ k - 23 := by
      unfold f32_exp
      have := max_le (show Int.log 2 |q| ≤ k by omega) hk
      omega
    have h1 := f32_err q
    have h2 : (2 : ℚ) ^ f32_exp q ≤ 2 ^ (k - 23) := zpow_le_zpow_right₀ (by norm_num) hx
    have h3 : (2 : ℚ) ^ (k - 23) / 2 = 2 ^ (k - 24) := by
      rw [show k - 23 = (k - 24) + 1 by ring, zpow_add₀ (by norm_num)]; norm_num
    linarith

/-- A value rounding below an integer of magnitude at most `2^24` lies below it. -/
theorem lt_of_f32_lt_intCast (q : ℚ) (n : Int) (h0 : -16777216 ≤ n) (h1 : n ≤ 16777216)
    (h : f32 q < n) : q < n := by
  by_contra hc
  have := f32_mono _ _ (not_lt.mp hc)
  rw [f32_intCast n h0 h1] at this
  linarith

/-- A numeral of magnitude at most `2^24` is a `float`. -/
theorem f32_ofNat_small (n : ℕ) [n.AtLeastTwo] (h : n ≤ 16777216) :
    f32 (OfNat.ofNat n) = OfNat.ofNat n := by
  have := f32_intCast (n : Int) (by omega) (by omega)
  simpa using this

/-! ## Ring-buffer lemmas -/

theorem list_length_five (l : List Int) (h : l.length = 5) :
    ∃ a b c d e, l = [a, b, c, d, e] := by
  match l, h with
  | [a, b, c, d, e], _ => exact ⟨a, b, c, d, e, rfl⟩

theorem clear_buffer_eq (l : List Int) (h : l.length = ENCODER_FILTER_SIZE) :
    clear_buffer l = [0, 0, 0, 0, 0] := by
  obtain ⟨a, b, c, d, e, rfl⟩ := list_length_five l h
  rfl

theorem f32_five_hundred : f32 ((ENCODER_FILTER_SIZE : ℚ) * 100) = 500 := by
  have h := f32_intCast 500 (by norm_num) (by norm_num)
  have e : ((ENCODER_FILTER_SIZE : ℚ) * 100) = ((500 : Int) : ℚ) := by
    norm_num [ENCODER_FILTER_SIZE]
  rw [e, h]; norm_num

/-- What one call of `apply_moving_average_filter` does to a well-typed state
whose running sum is exact: the state stays well typed, the running sum stays
exact, the slot at the write index receives the stored sample, the index
advances cyclically and the filtered speed is `|filter_sum / 500|` in single
precision (the conversion of the sum, at most `5 * 32768` in magnitude, is
exact). -/
theorem filter_step (e : Encoder_Data_t) (v : ℚ) (hwt : e.WellTyped) (hinv : e.SumInv) :
    (apply_moving_average_filter e v).WellTyped ∧
    (apply_moving_average_filter e v).SumInv ∧
    (apply_moving_average_filter e v).speed_buffer =
      e.speed_buffer.set e.buffer_index (float_to_int16 (f32 (v * 100))) ∧
    (apply_moving_average_filter e v).buffer_index = (e.buffer_index + 1) % 5 ∧
    (apply_moving_average_filter e v).speed_rps =
      |f32 (((apply_moving_average_filter e v).filter_sum : ℚ) / 500)| := by
  rcases e with ⟨id, tc, lc, rpm, buf, idx, lut, rps, ms, ast, ctu, ec, fs⟩
  simp only [Encoder_Data_t.WellTyped, ENCODER_FILTER_SIZE] at hwt
  obtain ⟨hlen, hr, hidx, hfs, hlut, hast⟩ := hwt
  simp only [Encoder_Data_t.SumInv] at hinv
  obtain ⟨a, b, c, d, e', rfl⟩ := list_length_five buf hlen
  have ha := hr a (by simp)
  have hb := hr b (by simp)
  have hc := hr c (by simp)
  have hd := hr d (by simp)
  have he := hr e' (by simp)
  have hv := wrapI16_range (truncQ (f32 (v * 100)))
  simp only [List.sum_cons, List.sum_nil] at hinv
  subst hinv
  have ht : float_to_int16 (f32 (v * 100)) = wrapI16 (truncQ (f32 (v * 100))) := rfl
  generalize wrapI16 (truncQ (f32 (v * 100))) = t at *
  have hw : wrapI32 (a + (b + (c + (d + (e' + 0)))) - [a, b, c, d, e'].getD idx 0 + t) =
      a + (b + (c + (d + (e' + 0)))) - [a, b, c, d, e'].getD idx 0 + t := by
    apply wrapI32_of_range <;> interval_cases idx <;> simp <;> omega
  have hf : f32 ((a + (b + (c + (d + (e' + 0)))) - [a, b, c, d, e'].getD idx 0 + t : Int) : ℚ) =
      ((a + (b + (c + (d + (e' + 0)))) - [a, b, c, d, e'].getD idx 0 + t : Int) : ℚ) := by
    apply f32_intCast <;> interval_cases idx <;> simp <;> omega
  simp only [apply_moving_average_filter, Encoder_Data_t.WellTyped, Encoder_Data_t.SumInv,
    ht, hw, hf, f32_five_hundred]
  simp only [ENCODER_FILTER_SIZE]
  refine ⟨⟨?_, ?_, ?_, ?_, hlut, hast⟩, ?_, trivial, ?_, trivial⟩
  · simp
  · intro x hx
    interval_cases idx <;> simp at hx <;> rcases hx with h | h | h | h | h <;> subst h <;>
      assumption
  · omega
  · interval_cases idx <;> simp <;> omega
  · interval_cases idx <;> simp <;> omega
  · omega

/-! ## Evaluation of the concrete wheel states -/

theorem truncQ_twenty_one_halves : truncQ (21 / 2) = 10 :=
  truncQ_eq _ 10 (by norm_num) (by norm_num) (by norm_num)

theorem f32_10 : f32 10 = 10 := f32_ofNat_small 10 (by norm_num)

theorem f32_15 : f32 15 = 15 := f32_ofNat_small 15 (by norm_num)

theorem f32_500 : f32 500 = 500 := f32_ofNat_small 500 (by norm_num)

/-- The single-precision value of `SPEED_CALC_FACTOR`, `0.025000000372...`. -/
theorem SPEED_CALC_FACTOR_eq : SPEED_CALC_FACTOR = 13421773 / 536870912 := by
  unfold SPEED_CALC_FACTOR INV_TOTAL_PPR INV_GEAR_RATIO GEAR_RATIO MS_TO_S_FACTOR TOTAL_PPR
    ENCODER_PPR ENCODER_QUADRATURE
  have h0 : f32 (((500 * 4 : Nat) : ℚ)) = 2000 := by
    have := f32_intCast 2000 (by norm_num) (by norm_num)
    norm_num at this ⊢
    exact this
  have h1 : f32 (1 / 2000) = 8589935 / 17179869184 := by
    rw [f32_eval _ (-11) 8589935 (by norm_num) (by norm_num) (by norm_num) (by norm_num)
    (by norm_num)]
    norm_num
  have h2 : f32 (1 / 20) = 13421773 / 268435456 := by
    rw [f32_eval _ (-5) 13421773 (by norm_num) (by norm_num) (by norm_num) (by norm_num)
    (by norm_num)]
    norm_num
  have h3 : f32 ((8589935 / 17179869184 : ℚ) * (13421773 / 268435456)) =
      1717987 / 68719476736 := by
    rw [f32_eval _ (-16) 13743896 (by norm_num) (by norm_num) (by norm_num) (by norm_num)
    (by norm_num)]
    norm_num
  rw [h0, h1, h2, h3, f32_eval _ (-6) 13421773 (by norm_num) (by norm_num) (by norm_num) (by norm_num)
    (by norm_num)]
  norm_num

/-- The single-precision value of `WHEEL_CIRCUMFERENCE`, `0.15079632...`. -/
theorem WHEEL_CIRCUMFERENCE_eq : WHEEL_CIRCUMFERENCE = 5059885 / 33554432 := by
  unfold WHEEL_CIRCUMFERENCE WHEEL_DIAMETER
  have h1 : f32 (48 / 1000) = 6442451 / 134217728 := by
    rw [f32_eval _ (-5) 12884902 (by norm_num) (by norm_num) (by norm_num) (by norm_num)
    (by norm_num)]
    norm_num
  have h2 : f32 (314159 / 100000) = 823549 / 262144 := by
    rw [f32_eval _ (1) 13176784 (by norm_num) (by norm_num) (by norm_num) (by norm_num)
    (by norm_num)]
    norm_num
  rw [h1, h2, f32_eval _ (-3) 10119770 (by norm_num) (by norm_num) (by norm_num) (by norm_num)
    (by norm_num)]
  norm_num

/-- The value cast to `int16_t` for 210 counts in 50 ms: exactly `10.5`. -/
theorem scaled_sample_210_50 :
    f32 (f32 (f32 (f32 210 / f32 50) * SPEED_CALC_FACTOR) * 100) = 21 / 2 := by
  rw [f32_ofNat_small 210 (by norm_num), f32_ofNat_small 50 (by norm_num), SPEED_CALC_FACTOR_eq]
  have h1 : f32 ((210 : ℚ) / 50) = 4404019 / 1048576 := by
    rw [f32_eval _ (2) 8808038 (by norm_num) (by norm_num) (by norm_num) (by norm_num)
    (by norm_num)]
    norm_num
  have h2 : f32 ((4404019 / 1048576 : ℚ) * (13421773 / 536870912)) = 14092861 / 134217728 := by
    rw [f32_eval _ (-4) 14092861 (by norm_num) (by norm_num) (by norm_num) (by norm_num)
    (by norm_num)]
    norm_num
  rw [h1, h2, f32_eval _ (3) 11010048 (by norm_num) (by norm_num) (by norm_num) (by norm_num)
    (by norm_num)]
  norm_num

/-- The value cast to `int16_t` for 220 counts in 100 ms: `5.5000004...`. -/
theorem scaled_sample_220_100 :
    f32 (f32 (f32 (f32 220 / f32 100) * SPEED_CALC_FACTOR) * 100) = 11534337 / 2097152 := by
  rw [f32_ofNat_small 220 (by norm_num), f32_ofNat_small 100 (by norm_num), SPEED_CALC_FACTOR_eq]
  have h1 : f32 ((220 : ℚ) / 100) = 9227469 / 4194304 := by
    rw [f32_eval _ (1) 9227469 (by norm_num) (by norm_num) (by norm_num) (by norm_num)
    (by norm_num)]
    norm_num
  have h2 : f32 ((9227469 / 4194304 : ℚ) * (13421773 / 536870912)) = 14763951 / 268435456 := by
    rw [f32_eval _ (-5) 14763951 (by norm_num) (by norm_num) (by norm_num) (by norm_num)
    (by norm_num)]
    norm_num
  rw [h1, h2, f32_eval _ (2) 11534337 (by norm_num) (by norm_num) (by norm_num) (by norm_num)
    (by norm_num)]
  norm_num

theorem stored_sample_220_100 : truncQ (11534337 / 2097152) = 5 :=
  truncQ_eq _ 5 (by norm_num) (by norm_num) (by norm_num)

/-- The `float` nearest to `0.02`. -/
theorem f32_one_fiftieth : f32 (1 / 50) = 5368709 / 268435456 := by
  rw [f32_eval _ (-6) 10737418 (by norm_num) (by norm_num) (by norm_num) (by norm_num)
    (by norm_num)]
  norm_num

/-- The `float` nearest to `0.03`. -/
theorem f32_three_hundredths : f32 (3 / 100) = 16106127 / 536870912 := by
  rw [f32_eval _ (-6) 16106127 (by norm_num) (by norm_num) (by norm_num) (by norm_num)
    (by norm_num)]
  norm_num

/-- The stored `speed_rpm` for the filtered speed `0.02f`. -/
theorem speed_rpm_one_fiftieth : truncQ (f32 (f32 (1 / 50) * 60)) = 1 := by
  rw [f32_one_fiftieth, f32_eval _ (0) 10066329 (by norm_num) (by norm_num) (by norm_num) (by norm_num)
    (by norm_num)]
  exact truncQ_eq _ 1 (by norm_num) (by norm_num) (by norm_num)

/-- The stored `speed_rpm` for the filtered speed `0.03f`. -/
theorem speed_rpm_three_hundredths : truncQ (f32 (f32 (3 / 100) * 60)) = 1 := by
  rw [f32_three_hundredths, f32_eval _ (0) 15099494 (by norm_num) (by norm_num) (by norm_num) (by norm_num)
    (by norm_num)]
  exact truncQ_eq _ 1 (by norm_num) (by norm_num) (by norm_num)

theorem init_data_eq : init_data = { power_on_data with adaptive_sample_time := 50 } := by
  simp [init_data, Encoder_Init, Encoder_Init_data, power_on_data, clear_buffer,
    ENCODER_FILTER_SIZE, ENCODER_SAMPLE_TIME, List.range, List.range.loop]

theorem moving_data_eq : moving_data =
    { power_on_data with
      total_count := 210, last_count := 210, speed_rpm := 1, speed_buffer := [10, 0, 0, 0, 0],
      buffer_index := 1, last_update_time := 50, speed_rps := f32 (1 / 50),
      speed_m_s := f32 (f32 (1 / 50) * WHEEL_CIRCUMFERENCE), adaptive_sample_time := 100,
      filter_sum := 10 } := by
  rw [moving_data, init_data_eq]
  norm_num [calculate_speed_for_encoder, power_on_data, sub_u32, corrected_delta,
    overflow_correct, apply_moving_average_filter, scaled_sample_210_50,
    ENCODER_FILTER_SIZE, float_to_int16, wrapI32, wrapI16,
    truncQ_twenty_one_halves, f32_10, f32_500, f32_abs, abs_of_nonneg,
    speed_rpm_one_fiftieth]
  norm_num [get_adaptive_sample_time, f32_one_fiftieth, abs_of_nonneg,
    ENCODER_SPEED_THRESHOLD_H, ENCODER_SPEED_THRESHOLD_L, ENCODER_LOW_SPEED_SAMPLE]

theorem stopped_data_eq : stopped_data =
    { power_on_data with
      total_count := 210, last_count := 210, speed_rpm := 0, speed_buffer := [0, 0, 0, 0, 0],
      buffer_index := 1, last_update_time := 150, speed_rps := 0,
      speed_m_s := 0, adaptive_sample_time := 100, filter_sum := 10 } := by
  rw [stopped_data, moving_data_eq]
  norm_num [calculate_speed_for_encoder, power_on_data, sub_u32, corrected_delta,
    overflow_correct, wrapI32, get_adaptive_sample_time, clear_buffer, ENCODER_FILTER_SIZE,
    List.range, List.range.loop, ENCODER_SPEED_THRESHOLD_H, ENCODER_SPEED_THRESHOLD_L,
    ENCODER_LOW_SPEED_SAMPLE]

theorem restarted_data_eq : restarted_data =
    { power_on_data with
      total_count := 430, last_count := 430, speed_rpm := 1, speed_buffer := [0, 5, 0, 0, 0],
      buffer_index := 2, last_update_time := 250, speed_rps := f32 (3 / 100),
      speed_m_s := f32 (f32 (3 / 100) * WHEEL_CIRCUMFERENCE), adaptive_sample_time := 100,
      filter_sum := 15 } := by
  rw [restarted_data, stopped_data_eq]
  norm_num [calculate_speed_for_encoder, power_on_data, sub_u32, corrected_delta,
    overflow_correct, apply_moving_average_filter, scaled_sample_220_100,
    ENCODER_FILTER_SIZE, float_to_int16, wrapI32, wrapI16,
    stored_sample_220_100, f32_15, f32_500, f32_abs, abs_of_nonneg,
    speed_rpm_three_hundredths]
  norm_num [get_adaptive_sample_time, f32_three_hundredths, abs_of_nonneg,
    ENCODER_SPEED_THRESHOLD_H, ENCODER_SPEED_THRESHOLD_L, ENCODER_LOW_SPEED_SAMPLE]

/-! ## Theorems: overflow-corrected counter difference -/

/-- C1: for 16-bit counter readings the corrected delta is `d - 65536` when
`d > 32768`, `d + 65536` when `d < -32768` and `d` otherwise; when `|d| > 32768`
the corrected delta has the sign opposite to `d` and magnitude below 32768. -/
theorem corrected_delta_wraps (current_counter : Nat) (last_count d : Int)
    (hc : current_counter ≤ 65535) (hl0 : 0 ≤ last_count) (hl1 : last_count ≤ 65535)
    (hd : d = (current_counter : Int) - last_count) :
    (32768 < d → corrected_delta current_counter last_count = d - 65536) ∧
    (d < -32768 → corrected_delta current_counter last_count = d + 65536) ∧
    (-32768 ≤ d → d ≤ 32768 → corrected_delta current_counter last_count = d) ∧
    (32768 < d → corrected_delta current_counter last_count < 0 ∧
      -32768 < corrected_delta current_counter last_count) ∧
    (d < -32768 → 0 < corrected_delta current_counter last_count ∧
      corrected_delta current_counter last_count < 32768) := by
  simp only [corrected_delta, overflow_correct]
  rw [← hd]
  have h1 : d ≤ 65535 := by omega
  have h2 : -65535 ≤ d := by omega
  refine ⟨?_, ?_, ?_, ?_, ?_⟩
  · intro h; rw [if_neg (by omega), if_pos (by omega)]
  · intro h; rw [if_pos (by omega)]
  · intro h h'; rw [if_neg (by omega), if_neg (by omega)]
  · intro h; rw [if_neg (by omega), if_pos (by omega)]; omega
  · intro h; rw [if_pos (by omega)]; omega

/-- Witness of C1: `last_count = 65530`, counter `5` gives the corrected delta `+11`. -/
theorem corrected_delta_wraps_witness :
    (5 : Nat) ≤ 65535 ∧ (0 : Int) ≤ 65530 ∧ (65530 : Int) ≤ 65535 ∧
    corrected_delta 5 65530 = 11 ∧
    (0 < corrected_delta 5 65530 ∧ corrected_delta 5 65530 < 32768) := by
  have h := corrected_delta_wraps 5 65530 (-65525) (by decide) (by decide) (by decide)
    (by decide)
  exact ⟨by decide, by decide, by decide, by decide, h.2.2.2.2 (by decide)⟩

/-! ## Theorems: the running sum of the ring buffer -/

/-- After `Encoder_Init` the running sum of both wheels is exact. -/
theorem Encoder_Init_running_sum (g : Encoder_Globals) (tickA tickB : Nat)
    (hA : g.encoder_data_A.speed_buffer.length = ENCODER_FILTER_SIZE)
    (hB : g.encoder_data_B.speed_buffer.length = ENCODER_FILTER_SIZE) :
    (Encoder_Init g tickA tickB).encoder_data_A.SumInv ∧
    (Encoder_Init g tickA tickB).encoder_data_B.SumInv := by
  simp [Encoder_Init, Encoder_Init_data, Encoder_Data_t.SumInv, clear_buffer_eq _ hA,
    clear_buffer_eq _ hB]

/-- After `clear_speed_data` the running sum of both wheels is exact. -/
theorem clear_speed_data_running_sum (g : Encoder_Globals) (tickA tickB tickD : Nat)
    (hA : g.encoder_data_A.speed_buffer.length = ENCODER_FILTER_SIZE)
    (hB : g.encoder_data_B.speed_buffer.length = ENCODER_FILTER_SIZE) :
    (clear_speed_data g tickA tickB tickD).encoder_data_A.SumInv ∧
    (clear_speed_data g tickA tickB tickD).encoder_data_B.SumInv := by
  simp [clear_speed_data, Encoder_Init_data, Encoder_Data_t.SumInv, clear_buffer_eq _ hA,
    clear_buffer_eq _ hB]

/-- Every call of `apply_moving_average_filter` keeps the running sum exact. -/
theorem apply_moving_average_filter_running_sum (e : Encoder_Data_t) (v : ℚ)
    (hwt : e.WellTyped) (hinv : e.SumInv) : (apply_moving_average_filter e v).SumInv :=
  (filter_step e v hwt hinv).2.1

/-- A call of `calculate_speed_for_encoder` that returns early or takes the
filtering branch keeps the running sum exact. -/
theorem calculate_speed_running_sum_of_moving (e : Encoder_Data_t)
    (current_time current_counter : Nat) (hwt : e.WellTyped) (hinv : e.SumInv)
    (hmove : ¬ (corrected_delta current_counter e.last_count = 0 ∨
      sub_u32 current_time e.last_update_time > 200)) :
    (calculate_speed_for_encoder e current_time current_counter).SumInv := by
  have h := (filter_step e (f32 (f32 (f32 (corrected_delta current_counter e.last_count : ℚ) /
    f32 (sub_u32 current_time e.last_update_time : ℚ)) * SPEED_CALC_FACTOR)) hwt hinv).2.1
  simp only [Encoder_Data_t.SumInv] at h hinv ⊢
  unfold calculate_speed_for_encoder
  simp only [if_neg hmove]
  split_ifs
  · exact h
  · exact hinv

/-- A call of `calculate_speed_for_encoder` that takes the zero-speed branch
keeps the running sum exact only when the sum was already zero: the branch
clears the buffer and leaves `filter_sum` as it was. -/
theorem calculate_speed_zero_branch_sum (e : Encoder_Data_t)
    (current_time current_counter : Nat)
    (hlen : e.speed_buffer.length = ENCODER_FILTER_SIZE)
    (hdue : e.adaptive_sample_time ≤ sub_u32 current_time e.last_update_time)
    (hstop : corrected_delta current_counter e.last_count = 0 ∨
      sub_u32 current_time e.last_update_time > 200) :
    (calculate_speed_for_encoder e current_time current_counter).filter_sum = e.filter_sum ∧
    (calculate_speed_for_encoder e current_time current_counter).speed_buffer.sum = 0 := by
  unfold calculate_speed_for_encoder
  simp only [ge_iff_le, if_pos hdue, if_pos hstop, clear_buffer_eq _ hlen]
  simp

/-- C2 (evaluation at the failing input): wheel A after `Encoder_Init` and one
moving sample is well typed with an exact running sum (`filter_sum = 10`, buffer
`[10,0,0,0,0]`); the next call, with an unchanged counter, takes the zero-speed
branch and ends with `filter_sum = 10` over the cleared buffer, so the running-sum
predicate no longer holds. -/
theorem zero_branch_breaks_running_sum :
    moving_data.WellTyped ∧ moving_data.SumInv ∧
    moving_data.adaptive_sample_time ≤ sub_u32 150 moving_data.last_update_time ∧
    corrected_delta 210 moving_data.last_count = 0 ∧
    (calculate_speed_for_encoder moving_data 150 210).speed_buffer = [0, 0, 0, 0, 0] ∧
    (calculate_speed_for_encoder moving_data 150 210).filter_sum = 10 ∧
    ¬ (calculate_speed_for_encoder moving_data 150 210).SumInv := by
  have h : calculate_speed_for_encoder moving_data 150 210 = stopped_data := rfl
  rw [h, stopped_data_eq, moving_data_eq]
  simp [Encoder_Data_t.WellTyped, Encoder_Data_t.SumInv, power_on_data, ENCODER_FILTER_SIZE,
    sub_u32, corrected_delta, overflow_correct]

/-! ## Theorems: the speed after a stop -/

/-- The state a call of `calculate_speed_for_encoder` returns from its
zero-speed branch: `filter_sum` and `buffer_index` are those of the call's input. -/
theorem zero_branch_state (e : Encoder_Data_t) (current_time current_counter : Nat)
    (hlen : e.speed_buffer.length = ENCODER_FILTER_SIZE)
    (hdue : e.adaptive_sample_time ≤ sub_u32 current_time e.last_update_time)
    (hstop : corrected_delta current_counter e.last_count = 0 ∨
      sub_u32 current_time e.last_update_time > 200) :
    calculate_speed_for_encoder e current_time current_counter =
      { e with
        speed_rps := 0
        speed_rpm := 0
        speed_m_s := 0
        speed_buffer := [0, 0, 0, 0, 0]
        last_count := wrapI32 current_counter
        last_update_time := current_time
        total_count := wrapI32 current_counter
        adaptive_sample_time := 100 } := by
  unfold calculate_speed_for_encoder
  simp only [ge_iff_le, if_pos hdue, if_pos hstop, clear_buffer_eq _ hlen]
  norm_num [get_adaptive_sample_time, ENCODER_SPEED_THRESHOLD_H, ENCODER_SPEED_THRESHOLD_L,
    ENCODER_LOW_SPEED_SAMPLE]

/-- The `float` nearest to `0.01`. -/
theorem f32_one_hundredth : f32 (1 / 100) = 5368709 / 536870912 := by
  rw [f32_eval _ (-7) 10737418 (by norm_num) (by norm_num) (by norm_num) (by norm_num)
    (by norm_num)]
  norm_num

/-- The filtered speed of the first filtering call after a stop, for every wheel
state: the sum `filter_sum` held before the stop is added to the new sample. -/
theorem speed_after_stop (e : Encoder_Data_t) (t1 c1 t2 c2 : Nat)
    (hlen : e.speed_buffer.length = ENCODER_FILTER_SIZE)
    (hdue1 : e.adaptive_sample_time ≤ sub_u32 t1 e.last_update_time)
    (hstop : corrected_delta c1 e.last_count = 0 ∨ sub_u32 t1 e.last_update_time > 200)
    (hdue2 : 100 ≤ sub_u32 t2 t1)
    (hmove : ¬ (corrected_delta c2 (wrapI32 c1) = 0 ∨ sub_u32 t2 t1 > 200)) :
    (calculate_speed_for_encoder (calculate_speed_for_encoder e t1 c1) t2 c2).speed_rps =
      |f32 (f32 ((wrapI32 (e.filter_sum + float_to_int16
          (f32 (f32 (f32 (f32 (corrected_delta c2 (wrapI32 c1) : ℚ) / f32 (sub_u32 t2 t1 : ℚ)) *
            SPEED_CALC_FACTOR) * 100))) : Int) : ℚ) / 500)| := by
  rw [zero_branch_state e t1 c1 hlen hdue1 hstop]
  unfold calculate_speed_for_encoder
  simp only [ge_iff_le, if_pos hdue2, if_neg hmove, apply_moving_average_filter,
    f32_five_hundred]
  have h0 : ([0, 0, 0, 0, 0] : List Int).getD e.buffer_index 0 = 0 := by
    rcases e.buffer_index with _ | _ | _ | _ | _ | n <;> simp
  rw [h0]
  norm_num

/-- C3 (evaluation at the failing input): after the stop of wheel A (zero-speed
branch, speed forced to 0), the next call takes the filtering branch with raw
sample `s = 0.055000003` (220 counts in 100 ms), of which `trunc(100 * s) = 5` is
stored; the filtered speed is `0.03f`, whereas `|trunc(100 * s)| / 500` is `0.01`:
the sum recorded before the stop (10) is still part of it. -/
theorem restart_speed_keeps_stale_sum :
    stopped_data.speed_rps = 0 ∧
    stopped_data.adaptive_sample_time ≤ sub_u32 250 stopped_data.last_update_time ∧
    ¬ (corrected_delta 430 stopped_data.last_count = 0 ∨
      sub_u32 250 stopped_data.last_update_time > 200) ∧
    truncQ (f32 (f32 (f32 (f32 (corrected_delta 430 stopped_data.last_count : ℚ) /
      f32 (sub_u32 250 stopped_data.last_update_time : ℚ)) * SPEED_CALC_FACTOR) * 100)) = 5 ∧
    (calculate_speed_for_encoder stopped_data 250 430).speed_rps = f32 (3 / 100) ∧
    f32 (3 / 100) = 16106127 / 536870912 ∧
    |((5 : Int) : ℚ)| / 500 = 1 / 100 ∧
    (calculate_speed_for_encoder stopped_data 250 430).speed_rps ≠ 1 / 100 ∧
    (calculate_speed_for_encoder stopped_data 250 430).speed_rps ≠ f32 (1 / 100) := by
  have h : calculate_speed_for_encoder stopped_data 250 430 = restarted_data := rfl
  have hs : truncQ (f32 (f32 (f32 (f32 (corrected_delta 430 stopped_data.last_count : ℚ) /
      f32 (sub_u32 250 stopped_data.last_update_time : ℚ)) * SPEED_CALC_FACTOR) * 100)) = 5 := by
    rw [stopped_data_eq]
    norm_num [power_on_data, sub_u32, corrected_delta, overflow_correct,
      scaled_sample_220_100, stored_sample_220_100]
  refine ⟨?_, ?_, ?_, hs, ?_, f32_three_hundredths, by norm_num, ?_, ?_⟩
  · rw [stopped_data_eq]
  · rw [stopped_data_eq]; decide
  · rw [stopped_data_eq]; decide
  · rw [h, restarted_data_eq]
  · rw [h, restarted_data_eq]
    show f32 (3 / 100) ≠ 1 / 100
    rw [f32_three_hundredths]; norm_num
  · rw [h, restarted_data_eq]
    show f32 (3 / 100) ≠ f32 (1 / 100)
    rw [f32_three_hundredths, f32_one_hundredth]; norm_num

/-! ## Theorems: filter idempotence -/

/-- The single-precision quotient by 100 of the magnitude of the stored sample
`trunc(100 * v)` is within `0.01 + 2^-16` of `|v|`. -/
theorem stored_sample_close (v : ℚ) (hv0 : -32768 ≤ truncQ (f32 (v * 100)))
    (hv1 : truncQ (f32 (v * 100)) ≤ 32767) :
    abs (f32 (|(truncQ (f32 (v * 100)) : ℚ)| / 100) - abs v) < 1 / 100 + 1 / 65536 := by
  obtain ⟨hle, hgt⟩ := truncQ_abs_bounds (f32 (v * 100))
  have hy : |f32 (v * 100)| = f32 (|v| * 100) := by
    rw [f32_abs, abs_mul]; norm_num
  rw [hy] at hle hgt
  have hcast : |(truncQ (f32 (v * 100)) : ℚ)| = ((|truncQ (f32 (v * 100))| : Int) : ℚ) := by
    push_cast; rfl
  rw [hcast] at hle hgt ⊢
  have hm0 : (0 : Int) ≤ |truncQ (f32 (v * 100))| := abs_nonneg _
  have hm1 : |truncQ (f32 (v * 100))| ≤ 32768 := by
    rw [abs_le]; constructor <;> omega
  generalize |truncQ (f32 (v * 100))| = m at hle hgt hm0 hm1 ⊢
  have hM0 : (0 : ℚ) ≤ (m : ℚ) := by exact_mod_cast hm0
  have hM1 : (m : ℚ) ≤ 32768 := by exact_mod_cast hm1
  have ha0 : (0 : ℚ) ≤ |v| * 100 := by positivity
  -- the exact product lies below `m + 1`
  have hlt : |v| * 100 < ((m + 1 : Int) : ℚ) :=
    lt_of_f32_lt_intCast _ (m + 1) (by omega) (by omega) (by push_cast; linarith)
  push_cast at hlt
  -- and at most `2^-9` below the rounded product
  have he1 := f32_err_of_lt (|v| * 100) 15 (by norm_num)
    (by rw [abs_of_nonneg ha0]; norm_num; linarith)
  have he2 := f32_err_of_lt ((m : ℚ) / 100) 8 (by norm_num)
    (by rw [abs_of_nonneg (by positivity)]; norm_num; linarith)
  norm_num at he1 he2
  rw [abs_le] at he1 he2
  rw [abs_lt]
  constructor <;> linarith [he1.1, he1.2, he2.1, he2.2]


/-- The speed after `ENCODER_FILTER_SIZE` calls of `apply_moving_average_filter`
with the same sample: the single-precision quotient of the magnitude of the
stored sample by 100. -/
theorem filter_five_times (e : Encoder_Data_t) (v : ℚ) (hwt : e.WellTyped) (hinv : e.SumInv)
    (hv0 : -32768 ≤ truncQ (f32 (v * 100))) (hv1 : truncQ (f32 (v * 100)) ≤ 32767) :
    ((fun s => apply_moving_average_filter s v)^[ENCODER_FILTER_SIZE] e).speed_rps =
      f32 (|(truncQ (f32 (v * 100)) : ℚ)| / 100) := by
  have ht : float_to_int16 (f32 (v * 100)) = truncQ (f32 (v * 100)) :=
    wrapI16_of_range _ hv0 hv1
  obtain ⟨w1, i1, b1, x1, -⟩ := filter_step e v hwt hinv
  obtain ⟨w2, i2, b2, x2, -⟩ := filter_step _ v w1 i1
  obtain ⟨w3, i3, b3, x3, -⟩ := filter_step _ v w2 i2
  obtain ⟨w4, i4, b4, x4, -⟩ := filter_step _ v w3 i3
  obtain ⟨-, i5, b5, -, r5⟩ := filter_step _ v w4 i4
  have hlen := hwt.1
  have hidx := hwt.2.2.1
  simp only [ENCODER_FILTER_SIZE] at hlen hidx
  obtain ⟨a, b, c, d, e', hbuf⟩ := list_length_five _ hlen
  have hsum : ((fun s => apply_moving_average_filter s v)^[ENCODER_FILTER_SIZE] e).filter_sum =
      5 * truncQ (f32 (v * 100)) := by
    simp only [ENCODER_FILTER_SIZE, Function.iterate_succ, Function.iterate_zero,
      Function.comp_apply, id_eq]
    rw [i5, b5, x4, b4, x3, b3, x2, b2, x1, b1, hbuf, ht]
    generalize truncQ (f32 (v * 100)) = t
    generalize e.buffer_index = idx at hidx
    interval_cases idx <;> simp <;> ring
  have h := r5
  simp only [ENCODER_FILTER_SIZE, Function.iterate_succ, Function.iterate_zero,
    Function.comp_apply, id_eq] at hsum ⊢
  rw [h, hsum]
  push_cast
  rw [show (5 * (truncQ (f32 (v * 100)) : ℚ)) / 500 = (truncQ (f32 (v * 100)) : ℚ) / 100 by ring,
    f32_abs, abs_div]
  norm_num

/-- C4 (as stated, refuted): from the state `Encoder_Init` leaves, five calls with
the sample `0.29f` give `speed_rps = 0.29f`, not `|trunc(100 v)| / 100 = 0.28`: the
single-precision product `100 * v` is `29.0`, above the exact product
`28.9999991...`; and five calls with the sample `16.2199993f`, whose product
truncates to 1621, give `speed_rps = 16.2099990...`, more than `0.01` away. -/
theorem filter_idempotence_rounding :
    init_data.WellTyped ∧ init_data.SumInv ∧
    truncQ ((9730785 / 33554432 : ℚ) * 100) = 28 ∧
    f32 ((9730785 / 33554432 : ℚ) * 100) = 29 ∧
    ((fun s => apply_moving_average_filter s (9730785 / 33554432))^[ENCODER_FILTER_SIZE]
      init_data).speed_rps = 9730785 / 33554432 ∧
    ((fun s => apply_moving_average_filter s (9730785 / 33554432))^[ENCODER_FILTER_SIZE]
      init_data).speed_rps ≠ |(truncQ ((9730785 / 33554432 : ℚ) * 100) : ℚ)| / 100 ∧
    truncQ ((8503951 / 524288 : ℚ) * 100) = 1621 ∧
    ((fun s => apply_moving_average_filter s (8503951 / 524288))^[ENCODER_FILTER_SIZE]
      init_data).speed_rps = 2124677 / 131072 ∧
    ¬ (abs (((fun s => apply_moving_average_filter s (8503951 / 524288))^[ENCODER_FILTER_SIZE]
      init_data).speed_rps - abs (8503951 / 524288)) < 1 / 100) := by
  have hw : init_data.WellTyped := by
    rw [init_data_eq]
    simp [Encoder_Data_t.WellTyped, power_on_data, ENCODER_FILTER_SIZE]
  have hs : init_data.SumInv := by
    rw [init_data_eq]
    simp [Encoder_Data_t.SumInv, power_on_data]
  have ha : f32 ((9730785 / 33554432 : ℚ) * 100) = 29 := by
    rw [f32_eval _ (4) 15204352 (by norm_num) (by norm_num) (by norm_num) (by norm_num)
    (by norm_num)]
    norm_num
  have hb : f32 ((8503951 / 524288 : ℚ) * 100) = 13287423 / 8192 := by
    rw [f32_eval _ (10) 13287423 (by norm_num) (by norm_num) (by norm_num) (by norm_num)
    (by norm_num)]
    norm_num
  have hta : truncQ (f32 ((9730785 / 33554432 : ℚ) * 100)) = 29 := by
    rw [ha]; exact truncQ_eq _ 29 (by norm_num) (by norm_num) (by norm_num)
  have htb : truncQ (f32 ((8503951 / 524288 : ℚ) * 100)) = 1621 := by
    rw [hb]; exact truncQ_eq _ 1621 (by norm_num) (by norm_num) (by norm_num)
  have hta' : truncQ ((9730785 / 33554432 : ℚ) * 100) = 28 :=
    truncQ_eq _ 28 (by norm_num) (by norm_num) (by norm_num)
  have htb' : truncQ ((8503951 / 524288 : ℚ) * 100) = 1621 :=
    truncQ_eq _ 1621 (by norm_num) (by norm_num) (by norm_num)
  have hfa : f32 (29 / 100) = 9730785 / 33554432 := by
    rw [f32_eval _ (-2) 9730785 (by norm_num) (by norm_num) (by norm_num) (by norm_num)
    (by norm_num)]
    norm_num
  have hfb : f32 (1621 / 100) = 2124677 / 131072 := by
    rw [f32_eval _ (4) 8498708 (by norm_num) (by norm_num) (by norm_num) (by norm_num)
    (by norm_num)]
    norm_num
  have h1 := filter_five_times init_data (9730785 / 33554432) hw hs (by rw [hta]; decide)
    (by rw [hta]; decide)
  have h2 := filter_five_times init_data (8503951 / 524288) hw hs (by rw [htb]; decide)
    (by rw [htb]; decide)
  rw [hta] at h1
  rw [htb] at h2
  have e1 : |((29 : Int) : ℚ)| / 100 = 29 / 100 := by norm_num
  have e2 : |((1621 : Int) : ℚ)| / 100 = 1621 / 100 := by norm_num
  rw [e1, hfa] at h1
  rw [e2, hfb] at h2
  refine ⟨hw, hs, hta', ha, h1, ?_, htb', h2, ?_⟩
  · rw [h1, hta']; norm_num
  · rw [h2]; norm_num [abs_of_nonneg, abs_of_nonpos]

/-- C4 (amended): from a well-typed state whose running sum is exact,
`ENCODER_FILTER_SIZE` consecutive calls of `apply_moving_average_filter` with the
same sample `v`, whose stored sample `n = trunc(100 * v)` (truncation of the
single-precision product) fits `int16_t`, give `speed_rps = |n| / 100` rounded to
single precision, which differs from `|v|` by less than `0.01 + 2^-16` (and from
`v` itself when `v ≥ 0`). -/
theorem filter_idempotence (e : Encoder_Data_t) (v : ℚ) (hwt : e.WellTyped) (hinv : e.SumInv)
    (hv0 : -32768 ≤ truncQ (f32 (v * 100))) (hv1 : truncQ (f32 (v * 100)) ≤ 32767) :
    ((fun s => apply_moving_average_filter s v)^[ENCODER_FILTER_SIZE] e).speed_rps =
      f32 (|(truncQ (f32 (v * 100)) : ℚ)| / 100) ∧
    abs (((fun s => apply_moving_average_filter s v)^[ENCODER_FILTER_SIZE] e).speed_rps -
      abs v) < 1 / 100 + 1 / 65536 ∧
    (0 ≤ v →
      abs (((fun s => apply_moving_average_filter s v)^[ENCODER_FILTER_SIZE] e).speed_rps -
        v) < 1 / 100 + 1 / 65536) := by
  have hrps := filter_five_times e v hwt hinv hv0 hv1
  have hclose : abs (f32 (|(truncQ (f32 (v * 100)) : ℚ)| / 100) - abs v) <
      1 / 100 + 1 / 65536 :=
    stored_sample_close v hv0 hv1
  refine ⟨hrps, ?_, ?_⟩
  · rw [hrps]; exact hclose
  · intro hv; rw [hrps]; rw [abs_of_nonneg hv] at hclose; exact hclose

/-- Witness of C4 (amended): wheel A after one moving sample (`moving_data`: buffer
`[10,0,0,0,0]`, index 1, sum 10) and the sample `v = 1/2`, stored as 50: the speed
is `0.5`. -/
theorem filter_idempotence_witness :
    moving_data.WellTyped ∧ moving_data.SumInv ∧
    truncQ (f32 ((1 / 2 : ℚ) * 100)) = 50 ∧
    ((fun s => apply_moving_average_filter s (1 / 2))^[ENCODER_FILTER_SIZE]
      moving_data).speed_rps = f32 (|((50 : Int) : ℚ)| / 100) ∧
    f32 (|((50 : Int) : ℚ)| / 100) = 1 / 2 := by
  have h50 : truncQ (f32 ((1 / 2 : ℚ) * 100)) = 50 := by
    rw [show ((1 / 2 : ℚ) * 100) = 50 by norm_num, f32_ofNat_small 50 (by norm_num)]
    exact truncQ_eq _ 50 (by norm_num) (by norm_num) (by norm_num)
  have hw : moving_data.WellTyped := by
    rw [moving_data_eq]
    simp [Encoder_Data_t.WellTyped, power_on_data, ENCODER_FILTER_SIZE]
  have hs : moving_data.SumInv := by
    rw [moving_data_eq]
    simp [Encoder_Data_t.SumInv, power_on_data]
  have h0 : -32768 ≤ truncQ (f32 ((1 / 2 : ℚ) * 100)) := by rw [h50]; decide
  have h1 : truncQ (f32 ((1 / 2 : ℚ) * 100)) ≤ 32767 := by rw [h50]; decide
  have h := (filter_idempotence moving_data (1 / 2) hw hs h0 h1).1
  rw [h50] at h
  have hhalf : f32 (|((50 : Int) : ℚ)| / 100) = 1 / 2 := by
    rw [show |((50 : Int) : ℚ)| / 100 = 1 / 2 by norm_num, f32_eval _ (-1) 8388608 (by norm_num) (by norm_num) (by norm_num) (by norm_num)
    (by norm_num)]
    norm_num
  exact ⟨hw, hs, h50, h, hhalf⟩

/-! ## Theorems: the zero-speed branch and the sampling gate -/

/-- C5: a call of `calculate_speed_for_encoder` whose elapsed time has reached the
adaptive sample period and whose corrected delta is 0 or whose elapsed time
exceeds 200 ms ends with `speed_rps = 0`, `speed_rpm = 0`, `speed_m_s = 0` and the
five buffer entries equal to 0. -/
theorem zero_branch_forces_zero_speed (e : Encoder_Data_t) (current_time current_counter : Nat)
    (hlen : e.speed_buffer.length = ENCODER_FILTER_SIZE)
    (hdue : e.adaptive_sample_time ≤ sub_u32 current_time e.last_update_time)
    (hstop : corrected_delta current_counter e.last_count = 0 ∨
      sub_u32 current_time e.last_update_time > 200) :
    (calculate_speed_for_encoder e current_time current_counter).speed_rps = 0 ∧
    (calculate_speed_for_encoder e current_time current_counter).speed_rpm = 0 ∧
    (calculate_speed_for_encoder e current_time current_counter).speed_m_s = 0 ∧
    (calculate_speed_for_encoder e current_time current_counter).speed_buffer =
      [0, 0, 0, 0, 0] := by
  unfold calculate_speed_for_encoder
  simp only [ge_iff_le, if_pos hdue, if_pos hstop, clear_buffer_eq _ hlen]
  simp

/-- Witness of C5: wheel A after one moving sample (last update at tick 50, last
count 210), read 250 ms later at tick 300 with counter 260: a nonzero delta of 50
and an elapsed time above the 200 ms bound. -/
theorem zero_branch_forces_zero_speed_witness :
    sub_u32 300 moving_data.last_update_time = 250 ∧
    corrected_delta 260 moving_data.last_count = 50 ∧
    moving_data.speed_rps = f32 (1 / 50) ∧ f32 (1 / 50) ≠ 0 ∧
    (calculate_speed_for_encoder moving_data 300 260).speed_rps = 0 ∧
    (calculate_speed_for_encoder moving_data 300 260).speed_rpm = 0 ∧
    (calculate_speed_for_encoder moving_data 300 260).speed_m_s = 0 ∧
    (calculate_speed_for_encoder moving_data 300 260).speed_buffer = [0, 0, 0, 0, 0] := by
  have hlen : moving_data.speed_buffer.length = ENCODER_FILTER_SIZE := by
    rw [moving_data_eq]; rfl
  have ht : sub_u32 300 moving_data.last_update_time = 250 := by
    rw [moving_data_eq]; rfl
  have hd : corrected_delta 260 moving_data.last_count = 50 := by
    rw [moving_data_eq]; rfl
  have hdue : moving_data.adaptive_sample_time ≤ sub_u32 300 moving_data.last_update_time := by
    rw [ht, moving_data_eq]; decide
  have hr : moving_data.speed_rps = f32 (1 / 50) := by rw [moving_data_eq]
  have hnz : f32 (1 / 50) ≠ 0 := by rw [f32_one_fiftieth]; norm_num
  exact ⟨ht, hd, hr, hnz, zero_branch_forces_zero_speed moving_data 300 260 hlen hdue
    (Or.inr (by rw [ht]; decide))⟩

/-- C6: when the elapsed time (unsigned 32-bit difference) is strictly less than
`adaptive_sample_time`, `calculate_speed_for_encoder` returns the wheel state
unchanged, every field included. -/
theorem early_call_leaves_state (e : Encoder_Data_t) (current_time current_counter : Nat)
    (hearly : sub_u32 current_time e.last_update_time < e.adaptive_sample_time) :
    calculate_speed_for_encoder e current_time current_counter = e := by
  unfold calculate_speed_for_encoder
  simp only [ge_iff_le, if_neg (Nat.not_le.mpr hearly)]

/-- Witness of C6: wheel A after one moving sample (period 100 ms, last update at
tick 50), called 30 ms later with a changed counter. -/
theorem early_call_leaves_state_witness :
    sub_u32 80 moving_data.last_update_time < moving_data.adaptive_sample_time ∧
    calculate_speed_for_encoder moving_data 80 999 = moving_data := by
  have h : sub_u32 80 moving_data.last_update_time < moving_data.adaptive_sample_time := by
    rw [moving_data_eq]; decide
  exact ⟨h, early_call_leaves_state moving_data 80 999 h⟩

/-! ## Theorems: the adaptive sample period -/

/-- C7: `get_adaptive_sample_time` returns 20 when `|speed| > 6`, 100 when
`|speed| < 1` and 50 otherwise (so 50 at exactly 1 and at exactly 6), it depends
only on `|speed|`, and a call of `calculate_speed_for_encoder` that performs the
update stores `get_adaptive_sample_time` of the speed it has just computed. -/
theorem adaptive_sample_time_bands (speed : ℚ) (e : Encoder_Data_t)
    (current_time current_counter : Nat)
    (hdue : e.adaptive_sample_time ≤ sub_u32 current_time e.last_update_time) :
    (6 < |speed| → get_adaptive_sample_time speed = 20) ∧
    (|speed| < 1 → get_adaptive_sample_time speed = 100) ∧
    (1 ≤ |speed| → |speed| ≤ 6 → get_adaptive_sample_time speed = 50) ∧
    get_adaptive_sample_time 1 = 50 ∧ get_adaptive_sample_time 6 = 50 ∧
    get_adaptive_sample_time (-speed) = get_adaptive_sample_time speed ∧
    get_adaptive_sample_time |speed| = get_adaptive_sample_time speed ∧
    (calculate_speed_for_encoder e current_time current_counter).adaptive_sample_time =
      get_adaptive_sample_time
        (calculate_speed_for_encoder e current_time current_counter).speed_rps := by
  refine ⟨?_, ?_, ?_, ?_, ?_, ?_, ?_, ?_⟩
  · intro h
    simp [get_adaptive_sample_time, ENCODER_SPEED_THRESHOLD_H, ENCODER_HIGH_SPEED_SAMPLE, h]
  · intro h
    have h6 : ¬ (6 < |speed|) := by linarith
    simp [get_adaptive_sample_time, ENCODER_SPEED_THRESHOLD_H, ENCODER_SPEED_THRESHOLD_L,
      ENCODER_LOW_SPEED_SAMPLE, h, h6]
  · intro h1 h6
    have h6n : ¬ (6 < |speed|) := by linarith
    have h1n : ¬ (|speed| < 1) := by linarith
    simp [get_adaptive_sample_time, ENCODER_SPEED_THRESHOLD_H, ENCODER_SPEED_THRESHOLD_L,
      ENCODER_SAMPLE_TIME, h1n, h6n]
  · norm_num [get_adaptive_sample_time, ENCODER_SPEED_THRESHOLD_H, ENCODER_SPEED_THRESHOLD_L,
      ENCODER_SAMPLE_TIME]
  · norm_num [get_adaptive_sample_time, ENCODER_SPEED_THRESHOLD_H, ENCODER_SPEED_THRESHOLD_L,
      ENCODER_SAMPLE_TIME]
  · simp [get_adaptive_sample_time]
  · simp [get_adaptive_sample_time]
  · unfold calculate_speed_for_encoder
    simp only [ge_iff_le, if_pos hdue]

/-- Witness of C7: speed `-7` and the update of wheel A at tick 150, counter 210. -/
theorem adaptive_sample_time_bands_witness :
    moving_data.adaptive_sample_time ≤ sub_u32 150 moving_data.last_update_time ∧
    get_adaptive_sample_time (-7) = 20 ∧
    (calculate_speed_for_encoder moving_data 150 210).adaptive_sample_time =
      get_adaptive_sample_time (calculate_speed_for_encoder moving_data 150 210).speed_rps := by
  have hdue : moving_data.adaptive_sample_time ≤ sub_u32 150 moving_data.last_update_time := by
    rw [moving_data_eq]; decide
  have h := adaptive_sample_time_bands (-7) moving_data 150 210 hdue
  exact ⟨hdue, h.1 (by norm_num), h.2.2.2.2.2.2.2⟩

/-! ## Lemmas on the bit loops of `gary_app.c` -/

theorem not_u8_lt (x : Nat) : not_u8 x < 256 := by
  unfold not_u8; omega

set_option maxRecDepth 100000 in
/-- With fuel 8 the counting loop of `Gary_DetectLineState` always runs to its
exit condition `temp == 0`. -/
theorem count_loop_terminates : ∀ lb < 256, (count_loop 8 lb 0).1 = 0 := by decide

set_option maxRecDepth 100000 in
/-- The clear-lowest-set-bit loop counts the set channels. -/
theorem count_loop_eq : ∀ lb < 256, (count_loop 8 lb 0).2 = (set_channels lb).length := by
  decide

set_option maxRecDepth 100000 in
/-- The mask test `line_bits & (1 << i)` of the `for` loops selects the set
channels. -/
theorem mask_filter_eq :
    ∀ lb < 256, (List.range 8).filter (fun i => lb &&& (1 <<< i) ≠ 0) = set_channels lb := by
  decide

set_option maxRecDepth 100000 in
theorem set_channels_nil : ∀ lb < 256, set_channels lb = [] → lb = 0 := by decide

theorem weights_getD (i : Nat) : GARY_LINE_WEIGHTS.getD i 0 = line_weight i := by
  rcases i with _ | _ | _ | _ | _ | _ | _ | _ | i <;> simp [GARY_LINE_WEIGHTS, line_weight]

theorem line_weight_bounds (i : Nat) : -4 ≤ line_weight i ∧ line_weight i ≤ 4 := by
  rcases i with _ | _ | _ | _ | _ | _ | _ | _ | i
  all_goals first
    | (norm_num [line_weight]; done)
    | (show (-4 : ℚ) ≤ 0 ∧ (0 : ℚ) ≤ 4; norm_num)

/-- The averaging loop, over any list of channel indices and from any
accumulator: it adds the weights of the selected channels and counts them. -/
theorem error_fold (lb : Nat) (l : List Nat) (acc : ℚ × Nat) :
    l.foldl (error_step lb) acc =
      (acc.1 + ((l.filter (fun i => lb &&& (1 <<< i) ≠ 0)).map line_weight).sum,
        acc.2 + (l.filter (fun i => lb &&& (1 <<< i) ≠ 0)).length) := by
  induction l generalizing acc with
  | nil => simp
  | cons i l ih =>
    rw [List.foldl_cons, ih]
    by_cases h : lb &&& (1 <<< i) ≠ 0
    · unfold error_step
      rw [if_pos h, weights_getD]
      simp [h, List.filter_cons, add_assoc, add_comm 1]
    · simp [error_step, h, List.filter_cons]

theorem weight_sum_bounds (l : List Nat) :
    -4 * (l.length : ℚ) ≤ (l.map line_weight).sum ∧
    (l.map line_weight).sum ≤ 4 * (l.length : ℚ) := by
  induction l with
  | nil => simp
  | cons i l ih =>
    have h := line_weight_bounds i
    simp only [List.map_cons, List.sum_cons, List.length_cons]
    push_cast
    constructor <;> linarith [ih.1, ih.2, h.1, h.2]

/-- The weighted average of the specification lies in `[-4, 4]`. -/
theorem weighted_average_bounds (bits : Nat) :
    -4 ≤ weighted_average bits ∧ weighted_average bits ≤ 4 := by
  unfold weighted_average
  have h := weight_sum_bounds (set_channels bits)
  rcases Nat.eq_zero_or_pos (set_channels bits).length with h0 | hpos
  · rw [h0]; norm_num
  · have hq : (0 : ℚ) < ((set_channels bits).length : ℚ) := by exact_mod_cast hpos
    constructor
    · rw [le_div_iff₀ hq]; linarith [h.1]
    · rw [div_le_iff₀ hq]; linarith [h.2]

/-- The value `Gary_CalculateLineError` returns when at least one channel of the
inverted bitmap is set. -/
theorem line_error_eq (digital_data : Nat)
    (hk : 1 ≤ (set_channels (not_u8 digital_data)).length) :
    Gary_CalculateLineError digital_data = weighted_average (not_u8 digital_data) := by
  have hlt := not_u8_lt digital_data
  have hne : not_u8 digital_data ≠ 0 := by
    intro h0
    rw [h0] at hk
    exact absurd hk (by decide)
  have hb := weighted_average_bounds (not_u8 digital_data)
  unfold Gary_CalculateLineError
  simp only [if_neg hne, error_fold, mask_filter_eq _ hlt, zero_add]
  have hpos : (set_channels (not_u8 digital_data)).length > 0 := hk
  simp only [if_pos hpos]
  unfold weighted_average at hb
  simp only [GARY_ERROR_MAX, GARY_ERROR_MIN]
  rw [if_neg (not_lt.mpr hb.2), if_neg (not_lt.mpr hb.1)]
  rfl

/-! ## Theorems: the line-position error -/

/-- C8: when the inverted bitmap has `k ≥ 1` set bits, `Gary_CalculateLineError`
returns (sum of the weights of the set bit positions) / `k`, with the weights
`(-4,-3,-2,-1,1,2,3,4)` indexed by bit number, and the result lies in `[-4, 4]`. -/
theorem line_error_weighted_average (digital_data : Nat)
    (hk : 1 ≤ (set_channels (not_u8 digital_data)).length) :
    Gary_CalculateLineError digital_data =
      ((set_channels (not_u8 digital_data)).map line_weight).sum /
        ((set_channels (not_u8 digital_data)).length : ℚ) ∧
    -4 ≤ Gary_CalculateLineError digital_data ∧ Gary_CalculateLineError digital_data ≤ 4 := by
  have h := line_error_eq digital_data hk
  have hb := weighted_average_bounds (not_u8 digital_data)
  rw [h]
  exact ⟨rfl, hb⟩

/-- Witness of C8: `digital_data = 0xE7`, inverted bitmap `00011000` (bits 3 and
4, weights -1 and +1), error 0. -/
theorem line_error_weighted_average_witness :
    not_u8 0xE7 = 0x18 ∧ set_channels (not_u8 0xE7) = [3, 4] ∧
    Gary_CalculateLineError 0xE7 = (line_weight 3 + line_weight 4) / 2 ∧
    Gary_CalculateLineError 0xE7 = 0 := by
  have hs : set_channels (not_u8 0xE7) = [3, 4] := by decide
  have h := (line_error_weighted_average 0xE7 (by rw [hs]; decide)).1
  rw [hs] at h
  refine ⟨by decide, hs, ?_, ?_⟩
  · rw [h]; norm_num
  · rw [h]; norm_num [line_weight]

/-! ## Theorems: the line-state bands -/

/-- C9: for a bitmap that reaches the band classification of
`Gary_DetectLineState` (1 to 5 set bits after inversion, neither nibble fully
set) the state is fixed by the error `e = Gary_CalculateLineError`: CENTER for
`-0.5 ≤ e ≤ 0.5`, SLIGHT_RIGHT for `0.5 < e ≤ 1.5`, MODERATE_RIGHT for
`1.5 < e ≤ 2.5`, SHARP_RIGHT for `e > 2.5`, and the mirrored LEFT states for
negative `e`; an error on a threshold falls in the band of smaller magnitude. -/
theorem line_state_bands (digital_data : Nat)
    (hk1 : 1 ≤ (set_channels (not_u8 digital_data)).length)
    (hk5 : (set_channels (not_u8 digital_data)).length ≤ 5)
    (hleft : not_u8 digital_data &&& 0xF0 ≠ 0xF0)
    (hright : not_u8 digital_data &&& 0x0F ≠ 0x0F) :
    (-1 / 2 ≤ Gary_CalculateLineError digital_data ∧
        Gary_CalculateLineError digital_data ≤ 1 / 2 →
      Gary_DetectLineState digital_data = Gary_LineState_t.LINE_CENTER) ∧
    (1 / 2 < Gary_CalculateLineError digital_data ∧
        Gary_CalculateLineError digital_data ≤ 3 / 2 →
      Gary_DetectLineState digital_data = Gary_LineState_t.LINE_SLIGHT_RIGHT) ∧
    (3 / 2 < Gary_CalculateLineError digital_data ∧
        Gary_CalculateLineError digital_data ≤ 5 / 2 →
      Gary_DetectLineState digital_data = Gary_LineState_t.LINE_MODERATE_RIGHT) ∧
    (5 / 2 < Gary_CalculateLineError digital_data →
      Gary_DetectLineState digital_data = Gary_LineState_t.LINE_SHARP_RIGHT) ∧
    (-3 / 2 ≤ Gary_CalculateLineError digital_data ∧
        Gary_CalculateLineError digital_data < -1 / 2 →
      Gary_DetectLineState digital_data = Gary_LineState_t.LINE_SLIGHT_LEFT) ∧
    (-5 / 2 ≤ Gary_CalculateLineError digital_data ∧
        Gary_CalculateLineError digital_data < -3 / 2 →
      Gary_DetectLineState digital_data = Gary_LineState_t.LINE_MODERATE_LEFT) ∧
    (Gary_CalculateLineError digital_data < -5 / 2 →
      Gary_DetectLineState digital_data = Gary_LineState_t.LINE_SHARP_LEFT) := by
  have hlt := not_u8_lt digital_data
  have hne : not_u8 digital_data ≠ 0 := by
    intro h0
    rw [h0] at hk1
    exact absurd hk1 (by decide)
  have hcount : ¬ ((count_loop 8 (not_u8 digital_data) 0).2 ≥ 6) := by
    rw [count_loop_eq _ hlt]; omega
  unfold Gary_DetectLineState
  simp only [if_neg hne, if_neg hcount, if_neg hleft, if_neg hright, GARY_CENTER_THRESHOLD,
    GARY_SLIGHT_THRESHOLD, GARY_MODERATE_THRESHOLD]
  generalize Gary_CalculateLineError digital_data = e
  refine ⟨?_, ?_, ?_, ?_, ?_, ?_, ?_⟩
  · rintro ⟨h1, h2⟩
    rw [if_pos ⟨by linarith, h2⟩]
  · rintro ⟨h1, h2⟩
    rw [if_neg (by rintro ⟨-, h⟩; linarith), if_pos h1, if_pos h2]
  · rintro ⟨h1, h2⟩
    rw [if_neg (by rintro ⟨-, h⟩; linarith), if_pos (by linarith), if_neg (by linarith),
      if_pos h2]
  · intro h1
    rw [if_neg (by rintro ⟨-, h⟩; linarith), if_pos (by linarith), if_neg (by linarith),
      if_neg (by linarith)]
  · rintro ⟨h1, h2⟩
    rw [if_neg (by rintro ⟨h, -⟩; linarith), if_neg (by linarith), if_pos (by linarith),
      if_pos (by linarith)]
  · rintro ⟨h1, h2⟩
    rw [if_neg (by rintro ⟨h, -⟩; linarith), if_neg (by linarith), if_pos (by linarith),
      if_neg (by linarith), if_pos (by linarith)]
  · intro h1
    rw [if_neg (by rintro ⟨h, -⟩; linarith), if_neg (by linarith), if_pos (by linarith),
      if_neg (by linarith), if_neg (by linarith)]

/-- Witness of C9: `digital_data = 0xE7` (inverted bitmap `00011000`) has error 0
and state CENTER. -/
theorem line_state_bands_witness :
    set_channels (not_u8 0xE7) = [3, 4] ∧
    Gary_CalculateLineError 0xE7 = 0 ∧
    Gary_DetectLineState 0xE7 = Gary_LineState_t.LINE_CENTER := by
  have hs : set_channels (not_u8 0xE7) = [3, 4] := by decide
  have he : Gary_CalculateLineError 0xE7 = 0 := by
    rw [line_error_eq 0xE7 (by rw [hs]; decide), weighted_average, hs]
    norm_num [line_weight]
  have h := (line_state_bands 0xE7 (by rw [hs]; decide) (by rw [hs]; decide) (by decide)
    (by decide)).1
  exact ⟨hs, he, h (by rw [he]; norm_num)⟩

/-! ## Theorems: no line under the sensor -/

/-- C10: for an 8-bit bitmap with no set bit after inversion (that is
`digital_data = 0xFF`), `Gary_CalculateLineError` returns 0 and
`Gary_DetectLineState` returns `LINE_LOST`. -/
theorem no_line_gives_lost (digital_data : Nat) (hd : digital_data < 256)
    (h0 : set_channels (not_u8 digital_data) = []) :
    digital_data = 0xFF ∧
    Gary_CalculateLineError digital_data = 0 ∧
    Gary_DetectLineState digital_data = Gary_LineState_t.LINE_LOST := by
  have hz : not_u8 digital_data = 0 := set_channels_nil _ (not_u8_lt digital_data) h0
  refine ⟨?_, ?_, ?_⟩
  · unfold not_u8 at hz; omega
  · unfold Gary_CalculateLineError
    simp only [if_pos hz]
  · unfold Gary_DetectLineState
    simp only [if_pos hz]

/-- Witness of C10: `digital_data = 0xFF`. -/
theorem no_line_gives_lost_witness :
    set_channels (not_u8 0xFF) = [] ∧
    Gary_CalculateLineError 0xFF = 0 ∧
    Gary_DetectLineState 0xFF = Gary_LineState_t.LINE_LOST := by
  have hs : set_channels (not_u8 0xFF) = [] := by decide
  exact ⟨hs, (no_line_gives_lost 0xFF (by decide) hs).2⟩

/-! ## Theorems: intersections and T-junctions -/

/-- The bit-by-bit counting loop of `Gary_GetLineWidth` and
`Gary_DetectIntersection`, over any list of channel indices. -/
theorem width_fold (lb : Nat) (l : List Nat) (n : Nat) :
    l.foldl (width_step lb) n = n + (l.filter (fun i => lb &&& (1 <<< i) ≠ 0)).length := by
  induction l generalizing n with
  | nil => simp
  | cons i l ih =>
    rw [List.foldl_cons, ih]
    by_cases h : lb &&& (1 <<< i) ≠ 0
    · simp [width_step, h, List.filter_cons, add_assoc, add_comm 1]
    · simp [width_step, h, List.filter_cons]

/-- `Gary_GetLineWidth` is the number of set channels of the inverted bitmap. -/
theorem line_width_eq (digital_data : Nat) :
    Gary_GetLineWidth digital_data = (set_channels (not_u8 digital_data)).length := by
  unfold Gary_GetLineWidth
  simp only [width_fold, mask_filter_eq _ (not_u8_lt digital_data), zero_add]

set_option maxRecDepth 100000 in
/-- The nibble masks of the T-junction tests select channels 4..7 and 0..3. -/
theorem nibble_masks : ∀ lb < 256,
    (lb &&& 0xF0 = 0xF0 ↔
      (lb.testBit 4 ∧ lb.testBit 5 ∧ lb.testBit 6 ∧ lb.testBit 7)) ∧
    (lb &&& 0x0F = 0x0F ↔
      (lb.testBit 0 ∧ lb.testBit 1 ∧ lb.testBit 2 ∧ lb.testBit 3)) := by
  decide

/-- C11: `Gary_DetectLineState` returns `LINE_INTERSECTION` exactly when the
inverted bitmap has at least 6 set bits, which is exactly when
`Gary_DetectIntersection` returns 1; the clear-lowest-set-bit loop terminates
and its count equals the bit-by-bit count of `Gary_GetLineWidth`; with all 8
bits set the intersection test wins over the T-junction tests. -/
theorem intersection_iff_six_bits (digital_data : Nat) :
    (Gary_DetectLineState digital_data = Gary_LineState_t.LINE_INTERSECTION ↔
      6 ≤ (set_channels (not_u8 digital_data)).length) ∧
    (Gary_DetectIntersection digital_data = 1 ↔
      6 ≤ (set_channels (not_u8 digital_data)).length) ∧
    (count_loop 8 (not_u8 digital_data) 0).1 = 0 ∧
    (count_loop 8 (not_u8 digital_data) 0).2 = Gary_GetLineWidth digital_data ∧
    Gary_GetLineWidth digital_data = (set_channels (not_u8 digital_data)).length ∧
    (not_u8 0x00 &&& 0xF0 = 0xF0 ∧ not_u8 0x00 &&& 0x0F = 0x0F ∧
      Gary_DetectLineState 0x00 = Gary_LineState_t.LINE_INTERSECTION) := by
  have hlt := not_u8_lt digital_data
  have hcnt := count_loop_eq _ hlt
  have hw := line_width_eq digital_data
  refine ⟨?_, ?_, count_loop_terminates _ hlt, ?_, hw, ?_⟩
  · unfold Gary_DetectLineState
    by_cases h0 : not_u8 digital_data = 0
    · simp only [if_pos h0]
      constructor
      · intro h; exact absurd h (by decide)
      · intro h; rw [h0] at h; exact absurd h (by decide)
    · simp only [if_neg h0, hcnt]
      by_cases h6 : (set_channels (not_u8 digital_data)).length ≥ 6
      · rw [if_pos h6]
        exact ⟨fun _ => h6, fun _ => rfl⟩
      · rw [if_neg h6]
        constructor
        · intro h
          split_ifs at h
        · intro h; exact absurd h h6
  · unfold Gary_DetectIntersection
    have hf : (List.range 8).foldl (width_step (not_u8 digital_data)) 0 =
        (set_channels (not_u8 digital_data)).length := hw
    simp only [hf]
    split_ifs with h6
    · exact ⟨fun _ => h6, fun _ => rfl⟩
    · exact ⟨fun h => absurd h (by decide), fun h => absurd h h6⟩
  · rw [hcnt, hw]
  · refine ⟨by decide, by decide, ?_⟩
    unfold Gary_DetectLineState
    have h0 : not_u8 0x00 ≠ 0 := by decide
    have h6 : (count_loop 8 (not_u8 0x00) 0).2 ≥ 6 := by decide
    simp only [if_neg h0, if_pos h6]

/-- C12: for a bitmap whose inverted value has 1 to 5 set bits,
`Gary_DetectLineState` returns `LINE_T_LEFT` when the 4 most-significant bits of
the inverted value are all set, and otherwise `LINE_T_RIGHT` when the 4
least-significant bits are all set. -/
theorem t_junction_states (digital_data : Nat)
    (hk1 : 1 ≤ (set_channels (not_u8 digital_data)).length)
    (hk5 : (set_channels (not_u8 digital_data)).length ≤ 5) :
    (((not_u8 digital_data).testBit 4 ∧ (not_u8 digital_data).testBit 5 ∧
        (not_u8 digital_data).testBit 6 ∧ (not_u8 digital_data).testBit 7) →
      Gary_DetectLineState digital_data = Gary_LineState_t.LINE_T_LEFT) ∧
    (¬ ((not_u8 digital_data).testBit 4 ∧ (not_u8 digital_data).testBit 5 ∧
        (not_u8 digital_data).testBit 6 ∧ (not_u8 digital_data).testBit 7) →
      ((not_u8 digital_data).testBit 0 ∧ (not_u8 digital_data).testBit 1 ∧
        (not_u8 digital_data).testBit 2 ∧ (not_u8 digital_data).testBit 3) →
      Gary_DetectLineState digital_data = Gary_LineState_t.LINE_T_RIGHT) := by
  have hlt := not_u8_lt digital_data
  have hne : not_u8 digital_data ≠ 0 := by
    intro h0
    rw [h0] at hk1
    exact absurd hk1 (by decide)
  have hcount : ¬ ((count_loop 8 (not_u8 digital_data) 0).2 ≥ 6) := by
    rw [count_loop_eq _ hlt]; omega
  obtain ⟨hL, hR⟩ := nibble_masks _ hlt
  unfold Gary_DetectLineState
  simp only [if_neg hne, if_neg hcount]
  constructor
  · intro h
    rw [if_pos (hL.mpr h)]
  · intro hn h
    rw [if_neg (fun hc => hn (hL.mp hc)), if_pos (hR.mpr h)]

/-- Witness of C12: inverted `11110000` (`digital_data = 0x0F`) gives
`LINE_T_LEFT`, inverted `00001111` (`digital_data = 0xF0`) gives `LINE_T_RIGHT`. -/
theorem t_junction_states_witness :
    not_u8 0x0F = 0xF0 ∧ not_u8 0xF0 = 0x0F ∧
    Gary_DetectLineState 0x0F = Gary_LineState_t.LINE_T_LEFT ∧
    Gary_DetectLineState 0xF0 = Gary_LineState_t.LINE_T_RIGHT := by
  refine ⟨by decide, by decide, ?_, ?_⟩
  · exact (t_junction_states 0x0F (by decide) (by decide)).1 (by decide)
  · exact (t_junction_states 0xF0 (by decide) (by decide)).2 (by decide) (by decide)

/-! ## Theorems: the scheduler -/

theorem scheduler_run_succ {W : Type} (call : Task_Func → W → W) (tick : Nat → Nat) (n : Nat)
    (table : List task_t) (w : W) :
    scheduler_run call tick (n + 1) table w =
      scheduler_body call tick (scheduler_run call tick n table w) n := by
  simp [scheduler_run, List.range_succ, List.foldl_append]

theorem invoked_funcs_succ (tick : Nat → Nat) (n : Nat) (table : List task_t) :
    invoked_funcs tick (n + 1) table =
      invoked_funcs tick n table ++
        (match table[n]? with
          | none => []
          | some t => if task_due t (tick n) then [t.task_func] else []) := by
  simp only [invoked_funcs, List.range_succ, List.filterMap_append]
  congr 1
  cases h : table[n]? with
  | none => simp [List.filterMap, h]
  | some t =>
    by_cases hd : task_due t (tick n)
    · simp [List.filterMap, h, hd]
    · simp [List.filterMap, h, hd]

/-- The state after the first `n` iterations of `scheduler_run`, entry by entry. -/
theorem scheduler_run_inv {W : Type} (call : Task_Func → W → W) (tick : Nat → Nat)
    (table : List task_t) (w : W) (n : Nat) :
    (∀ i, (scheduler_run call tick n table w).1[i]? =
      (table[i]?).map (fun t =>
        if i < n ∧ task_due t (tick i) then { t with last_run := tick i } else t)) ∧
    (scheduler_run call tick n table w).2 =
      (invoked_funcs tick n table).foldl (fun w f => call f w) w := by
  induction n with
  | zero =>
    constructor
    · intro i
      cases h : table[i]? <;> simp [scheduler_run, h]
    · simp [scheduler_run, invoked_funcs]
  | succ n ih =>
    obtain ⟨ih1, ih2⟩ := ih
    rw [scheduler_run_succ, invoked_funcs_succ]
    have hn : (scheduler_run call tick n table w).1[n]? = table[n]? := by
      rw [ih1 n]
      cases h : table[n]? <;> simp
    unfold scheduler_body
    rw [hn]
    cases h : table[n]? with
    | none =>
      constructor
      · intro i
        rw [ih1 i]
        cases hi : table[i]? with
        | none => rfl
        | some t =>
          have hne : i ≠ n := by
            intro e; rw [e, h] at hi; exact absurd hi (by simp)
          simp only [Option.map_some']
          by_cases hlt : i < n
          · have : i < n + 1 := by omega
            simp [hlt, this]
          · have : ¬ i < n + 1 := by omega
            simp [hlt, this]
      · simp [ih2]
    | some t =>
      by_cases hd : task_due t (tick n)
      · simp only [hd, if_true]
        constructor
        · intro i
          rw [List.getElem?_set]
          by_cases e : n = i
          · subst e
            have hlen : n < (scheduler_run call tick n table w).1.length := by
              by_contra hc
              have := List.getElem?_eq_none (Nat.le_of_not_lt hc)
              rw [hn, h] at this
              exact absurd this (by simp)
            simp [hlen, h, hd]
          · rw [if_neg e, ih1 i]
            cases hi : table[i]? with
            | none => rfl
            | some t' =>
              simp only [Option.map_some']
              by_cases hlt : i < n
              · have : i < n + 1 := by omega
                simp [hlt, this]
              · have : ¬ i < n + 1 := by omega
                simp [hlt, this]
        · simp [ih2, List.foldl_append]
      · simp only [hd, if_false]
        constructor
        · intro i
          rw [ih1 i]
          cases hi : table[i]? with
          | none => rfl
          | some t' =>
            simp only [Option.map_some']
            by_cases e : i = n
            · subst e
              rw [h] at hi
              cases hi
              simp [hd]
            · by_cases hlt : i < n
              · have : i < n + 1 := by omega
                simp [hlt, this]
              · have : ¬ i < n + 1 := by omega
                simp [hlt, this]
        · simp [ih2]


theorem scheduler_run_length {W : Type} (call : Task_Func → W → W) (tick : Nat → Nat)
    (table : List task_t) (w : W) (n : Nat) :
    (scheduler_run call tick n table w).1.length = table.length := by
  induction n with
  | zero => simp [scheduler_run]
  | succ n ih =>
    rw [scheduler_run_succ]
    unfold scheduler_body
    split
    · exact ih
    · simp only []
      split_ifs
      · simp [ih]
      · exact ih

theorem foldl_call_log (l w : List Task_Func) :
    l.foldl (fun w f => call_log f w) w = w ++ l := by
  induction l generalizing w with
  | nil => simp
  | cons f l ih =>
    rw [List.foldl_cons, ih]
    simp [call_log]

/-- Without wrap-around the test of `scheduler_run` is the elapsed-time test. -/
theorem task_due_iff_elapsed (t : task_t) (now_time : Nat)
    (hsum : t.rate_ms + t.last_run < 4294967296) (hnow : now_time < 4294967296)
    (hle : t.last_run ≤ now_time) :
    task_due t now_time ↔ sub_u32 now_time t.last_run ≥ t.rate_ms := by
  unfold task_due sub_u32
  constructor <;> intro h <;> omega

/-- C13 (evaluation at the failing inputs): a task with period 10 ms that last ran
at tick `2^32 - 5` is invoked again at tick `2^32 - 3`, after 2 ms, because
`rate_ms + last_run` wraps to 5; in a pass at that tick over the table in which
every task last ran at `2^32 - 5` all eight tasks are called, while only
`motor_task` (period 1 ms) has `now - last_run >= rate_ms`.  Conversely, a task
that last ran at `2^32 - 16` is not invoked at tick 4, 20 ms later. -/
theorem scheduler_trigger_wraps :
    task_due { task_func := Task_Func.uart_task, rate_ms := 10, last_run := 4294967291 }
      4294967293 ∧
    sub_u32 4294967293 4294967291 = 2 ∧
    (scheduler_run call_log (fun _ => 4294967293) 8 late_table []).2 =
      [Task_Func.uart_task, Task_Func.motor_task, Task_Func.pid_task, Task_Func.imu_task,
        Task_Func.gary_task, Task_Func.encoder_task, Task_Func.oled_task,
        Task_Func.adc_task] ∧
    (late_table.filter (fun t => sub_u32 4294967293 t.last_run ≥ t.rate_ms)).map
      (fun t => t.task_func) = [Task_Func.motor_task] ∧
    ¬ task_due { task_func := Task_Func.uart_task, rate_ms := 10, last_run := 4294967280 } 4 ∧
    sub_u32 4 4294967280 = 20 := by
  refine ⟨by decide, by decide, by decide, by decide, by decide, by decide⟩

/-- C14: one pass of `scheduler_run` over a table of `task_num` tasks handles the
indices `0 .. task_num - 1` once each, in increasing order: the tasks called are,
in table order, exactly those due at the clock value read for them; a task that
is called gets `last_run` set to that clock value, and a task that is not called
keeps its entry. -/
theorem scheduler_pass {W : Type} (call : Task_Func → W → W) (tick : Nat → Nat)
    (table : List task_t) (w : W) (task_num : Nat) :
    (scheduler_run call tick task_num table w).2 =
      (invoked_funcs tick task_num table).foldl (fun w f => call f w) w ∧
    (scheduler_run call tick task_num table w).1.length = table.length ∧
    (∀ i t, table[i]? = some t → i < task_num → task_due t (tick i) →
      (scheduler_run call tick task_num table w).1[i]? =
        some { task_func := t.task_func, rate_ms := t.rate_ms, last_run := tick i }) ∧
    (∀ i t, table[i]? = some t → ¬ (i < task_num ∧ task_due t (tick i)) →
      (scheduler_run call tick task_num table w).1[i]? = some t) := by
  obtain ⟨h1, h2⟩ := scheduler_run_inv call tick table w task_num
  refine ⟨h2, scheduler_run_length call tick table w task_num, ?_, ?_⟩
  · intro i t ht hi hd
    rw [h1 i, ht]
    simp [hi, hd]
  · intro i t ht hn
    rw [h1 i, ht]
    simp only [Option.map_some', if_neg hn]

/-- Witness of C14: the initial table at tick 1000, where every task is overdue:
each task is called once, in table order, and every `last_run` becomes 1000. -/
theorem scheduler_pass_witness :
    scheduler_init scheduler_task = 8 ∧
    (scheduler_run call_log (fun _ => 1000) 8 scheduler_task []).2 =
      [Task_Func.uart_task, Task_Func.motor_task, Task_Func.pid_task, Task_Func.imu_task,
        Task_Func.gary_task, Task_Func.encoder_task, Task_Func.oled_task,
        Task_Func.adc_task] ∧
    (scheduler_run call_log (fun _ => 1000) 8 scheduler_task []).1[6]? =
      some { task_func := Task_Func.oled_task, rate_ms := 100, last_run := 1000 } := by
  have h := scheduler_pass call_log (fun _ => 1000) scheduler_task [] 8
  refine ⟨by decide, ?_, ?_⟩
  · rw [h.1, foldl_call_log]; decide
  · exact h.2.2.1 6 { task_func := Task_Func.oled_task, rate_ms := 100, last_run := 0 }
      (by decide) (by decide) (by decide)

/-- The task functions a pass over an eight-entry table calls, one entry at a time. -/
theorem invoked_funcs_eight (tick : Nat → Nat) (t0 t1 t2 t3 t4 t5 t6 t7 : task_t) :
    invoked_funcs tick 8 [t0, t1, t2, t3, t4, t5, t6, t7] =
      (if task_due t0 (tick 0) then [t0.task_func] else []) ++
      (if task_due t1 (tick 1) then [t1.task_func] else []) ++
      (if task_due t2 (tick 2) then [t2.task_func] else []) ++
      (if task_due t3 (tick 3) then [t3.task_func] else []) ++
      (if task_due t4 (tick 4) then [t4.task_func] else []) ++
      (if task_due t5 (tick 5) then [t5.task_func] else []) ++
      (if task_due t6 (tick 6) then [t6.task_func] else []) ++
      (if task_due t7 (tick 7) then [t7.task_func] else []) := by
  have h0 : invoked_funcs tick 0 [t0, t1, t2, t3, t4, t5, t6, t7] = [] := rfl
  simp only [invoked_funcs_succ, h0, List.nil_append, List.getElem?_cons_zero,
    List.getElem?_cons_succ]

theorem task_list_eight (l : List task_t) (h : l.length = 8) :
    ∃ t0 t1 t2 t3 t4 t5 t6 t7, l = [t0, t1, t2, t3, t4, t5, t6, t7] := by
  match l, h with
  | [t0, t1, t2, t3, t4, t5, t6, t7], _ => exact ⟨t0, t1, t2, t3, t4, t5, t6, t7, rfl⟩

/-- C15 (as stated, refuted): in `scheduler_task` the entry of `encoder_task`
(index 5) is not before the entry of `pid_task` (index 2); in the pass at tick 10
from the initial table both are due and `pid_task` is called first. -/
theorem encoder_task_not_before_pid_task :
    scheduler_task.map (fun t => t.task_func) =
      [Task_Func.uart_task, Task_Func.motor_task, Task_Func.pid_task, Task_Func.imu_task,
        Task_Func.gary_task, Task_Func.encoder_task, Task_Func.oled_task,
        Task_Func.adc_task] ∧
    ¬ ((scheduler_task.map (fun t => t.task_func)).indexOf Task_Func.encoder_task <
      (scheduler_task.map (fun t => t.task_func)).indexOf Task_Func.pid_task) ∧
    (scheduler_run call_log (fun _ => 10) 8 scheduler_task []).2 =
      [Task_Func.uart_task, Task_Func.motor_task, Task_Func.pid_task, Task_Func.imu_task,
        Task_Func.gary_task, Task_Func.encoder_task] := by
  refine ⟨by decide, by decide, by decide⟩

/-- C15 (amended): in every table with the task functions of `scheduler_task`
(the pass only ever changes `last_run`), a pass in which `pid_task` and
`encoder_task` are both due calls `pid_task` before `encoder_task`, each once. -/
theorem pid_task_runs_before_encoder_task (tick : Nat → Nat) (table : List task_t)
    (hfun : table.map (fun t => t.task_func) = scheduler_task.map (fun t => t.task_func))
    (hpid : ∀ t, table[2]? = some t → task_due t (tick 2))
    (henc : ∀ t, table[5]? = some t → task_due t (tick 5)) :
    ∃ l1 l2 l3 : List Task_Func,
      (scheduler_run call_log tick 8 table []).2 =
        l1 ++ Task_Func.pid_task :: (l2 ++ Task_Func.encoder_task :: l3) ∧
      Task_Func.pid_task ∉ l1 ∧ Task_Func.encoder_task ∉ l1 ∧
      Task_Func.pid_task ∉ l2 ∧ Task_Func.encoder_task ∉ l2 ∧
      Task_Func.pid_task ∉ l3 ∧ Task_Func.encoder_task ∉ l3 := by
  have hlen : table.length = 8 := by
    have := congrArg List.length hfun
    simpa [scheduler_task] using this
  obtain ⟨t0, t1, t2, t3, t4, t5, t6, t7, rfl⟩ := task_list_eight table hlen
  simp only [scheduler_task, List.map_cons, List.map_nil, List.cons.injEq, and_true] at hfun
  obtain ⟨f0, f1, f2, f3, f4, f5, f6, f7⟩ := hfun
  have d2 : task_due t2 (tick 2) := hpid t2 rfl
  have d5 : task_due t5 (tick 5) := henc t5 rfl
  rw [(scheduler_run_inv call_log tick _ [] 8).2, foldl_call_log, invoked_funcs_eight,
    if_pos d2, if_pos d5, f0, f1, f2, f3, f4, f5, f6, f7]
  refine ⟨(if task_due t0 (tick 0) then [Task_Func.uart_task] else []) ++
      (if task_due t1 (tick 1) then [Task_Func.motor_task] else []),
    (if task_due t3 (tick 3) then [Task_Func.imu_task] else []) ++
      (if task_due t4 (tick 4) then [Task_Func.gary_task] else []),
    (if task_due t6 (tick 6) then [Task_Func.oled_task] else []) ++
      (if task_due t7 (tick 7) then [Task_Func.adc_task] else []), ?_, ?_, ?_, ?_, ?_, ?_, ?_⟩
  · simp
  all_goals split_ifs <;> simp

/-- Witness of C15 (amended): the pass at tick 10 from the initial table. -/
theorem pid_task_runs_before_encoder_task_witness :
    ∃ l1 l2 l3 : List Task_Func,
      (scheduler_run call_log (fun _ => 10) 8 scheduler_task []).2 =
        l1 ++ Task_Func.pid_task :: (l2 ++ Task_Func.encoder_task :: l3) ∧
      Task_Func.pid_task ∉ l1 ∧ Task_Func.encoder_task ∉ l1 ∧
      Task_Func.pid_task ∉ l2 ∧ Task_Func.encoder_task ∉ l2 ∧
      Task_Func.pid_task ∉ l3 ∧ Task_Func.encoder_task ∉ l3 :=
  pid_task_runs_before_encoder_task (fun _ => 10) scheduler_task rfl
    (fun t h => by
      have e : t = { task_func := Task_Func.pid_task, rate_ms := 10, last_run := 0 } := by
        simpa [scheduler_task] using h.symm
      rw [e]; decide)
    (fun t h => by
      have e : t = { task_func := Task_Func.encoder_task, rate_ms := 10, last_run := 0 } := by
        simpa [scheduler_task] using h.symm
      rw [e]; decide)

/-! ## Theorems: the motor command boundary and the enable gate -/

/-- C20: for a speed below -1000 or above 1000 `Motor_SetSpeed` returns -1, leaves
the motor object (speed, state, enable) as it was and performs no hardware
write; for a speed in `[-1000, 1000]` it returns 0. -/
theorem Motor_SetSpeed_range_check (motor : Motor_t) (speed : Int) (enable : Nat)
    (writes : List HW_Write) :
    ((speed < -1000 ∨ speed > 1000) →
      (Motor_SetSpeed motor speed enable writes).ret = -1 ∧
      (Motor_SetSpeed motor speed enable writes).motor = motor ∧
      (Motor_SetSpeed motor speed enable writes).writes = writes) ∧
    ((-1000 ≤ speed ∧ speed ≤ 1000) →
      (Motor_SetSpeed motor speed enable writes).ret = 0) := by
  constructor
  · intro h
    unfold Motor_SetSpeed
    rw [if_pos h]
    exact ⟨rfl, rfl, rfl⟩
  · intro h
    have hn : ¬ (speed < -1000 ∨ speed > 1000) := by omega
    unfold Motor_SetSpeed
    rw [if_neg hn]
    simp only []
    split_ifs <;> rfl

/-- Witness of C20: speed 1001 is rejected, speeds 1000 and -1000 are accepted. -/
theorem Motor_SetSpeed_range_check_witness :
    (Motor_SetSpeed motor1_created 1001 1 []).ret = -1 ∧
    (Motor_SetSpeed motor1_created 1001 1 []).motor = motor1_created ∧
    (Motor_SetSpeed motor1_created 1001 1 []).writes = [] ∧
    (Motor_SetSpeed motor1_created 1000 1 []).ret = 0 ∧
    (Motor_SetSpeed motor1_created (-1000) 1 []).ret = 0 ∧
    (Motor_SetSpeed motor1_created 1000 1 []).motor.speed = 1000 := by
  have h1 := (Motor_SetSpeed_range_check motor1_created 1001 1 []).1 (Or.inr (by decide))
  have h2 := (Motor_SetSpeed_range_check motor1_created 1000 1 []).2 ⟨by decide, by decide⟩
  have h3 := (Motor_SetSpeed_range_check motor1_created (-1000) 1 []).2
    ⟨by decide, by decide⟩
  exact ⟨h1.1, h1.2.1, h1.2.2, h2, h3, by decide⟩

/-- C16: with the global enable flag at 0, `pid_task` returns the globals of
`pid_control.c` as they were: the four controllers are the same objects. -/
theorem pid_task_disabled_keeps_pid {PID_T : Type} (lib : PID_Lib PID_T)
    (pg : PID_Globals PID_T) (mg : Motor_Globals) (eg : Encoder_Globals)
    (writes : List HW_Write) (hoff : mg.enable = 0) :
    (pid_task lib pg mg eg writes).1 = pg ∧
    (pid_task lib pg mg eg writes).1.PID_left_speed = pg.PID_left_speed ∧
    (pid_task lib pg mg eg writes).1.PID_right_speed = pg.PID_right_speed ∧
    (pid_task lib pg mg eg writes).1.PID_line = pg.PID_line ∧
    (pid_task lib pg mg eg writes).1.PID_Angle = pg.PID_Angle := by
  unfold pid_task
  rw [if_pos hoff]
  exact ⟨rfl, rfl, rfl, rfl, rfl⟩

/-- Witness of C16: the stopped car (`enable = 0`) with the controllers of
`PID_init`. -/
theorem pid_task_disabled_keeps_pid_witness :
    motors_stopped.enable = 0 ∧
    (pid_task (spec_pid_lib (1 / 100)) pid_globals_ready motors_stopped encoders_ready
      writes_stopped).1 = pid_globals_ready :=
  ⟨rfl, (pid_task_disabled_keeps_pid (spec_pid_lib (1 / 100)) pid_globals_ready motors_stopped
    encoders_ready writes_stopped rfl).1⟩

/-- C17 (as stated, refuted): in the stopped car (`enable = 0`, left motor last
commanded to 500) `pid_task` leaves `motor1.speed` at 500 and the PWM duty of
its channel at 500. -/
theorem pid_task_disabled_keeps_command :
    motors_stopped.enable = 0 ∧
    (pid_task (spec_pid_lib (1 / 100)) pid_globals_ready motors_stopped encoders_ready
      writes_stopped).2.1.motor1.speed = 500 ∧
    pwm_duty motors_stopped.motor1.hw.htim motors_stopped.motor1.hw.channel
      (pid_task (spec_pid_lib (1 / 100)) pid_globals_ready motors_stopped encoders_ready
        writes_stopped).2.2 = some 500 := by
  refine ⟨rfl, ?_, ?_⟩
  · unfold pid_task
    rw [if_pos (by rfl)]
    decide
  · unfold pid_task
    rw [if_pos (by rfl)]
    decide

/-- C17 (amended): with the global enable flag at 0, `pid_task` issues no command:
the motor objects and the hardware outputs stay as they were; the drive is
switched off by `motor_task`, whose only write sets the STBY pin low. -/
theorem pid_task_disabled_issues_nothing {PID_T : Type} (lib : PID_Lib PID_T)
    (pg : PID_Globals PID_T) (mg : Motor_Globals) (eg : Encoder_Globals)
    (writes : List HW_Write) (hoff : mg.enable = 0) :
    (pid_task lib pg mg eg writes).2.1 = mg ∧
    (pid_task lib pg mg eg writes).2.2 = writes ∧
    motor_task mg writes = writes ++ [HW_Write.WritePin GPIO_Port.GPIOA STBY_Pin false] := by
  unfold pid_task motor_task
  rw [if_pos hoff, if_pos hoff]
  exact ⟨rfl, rfl, rfl⟩

/-- Witness of C17 (amended): the stopped car. -/
theorem pid_task_disabled_issues_nothing_witness :
    motors_stopped.enable = 0 ∧
    (pid_task (spec_pid_lib (1 / 100)) pid_globals_ready motors_stopped encoders_ready
      writes_stopped).2.1 = motors_stopped ∧
    (pid_task (spec_pid_lib (1 / 100)) pid_globals_ready motors_stopped encoders_ready
      writes_stopped).2.2 = writes_stopped :=
  ⟨rfl, (pid_task_disabled_issues_nothing (spec_pid_lib (1 / 100)) pid_globals_ready
    motors_stopped encoders_ready writes_stopped rfl).1,
   (pid_task_disabled_issues_nothing (spec_pid_lib (1 / 100)) pid_globals_ready
    motors_stopped encoders_ready writes_stopped rfl).2.1⟩

/-- The cast `(int32_t)x` of a value in `[-999, 999]` stays in `[-999, 999]`. -/
theorem float_to_int32_bounds (q : ℚ) (h0 : -999 ≤ q) (h1 : q ≤ 999) :
    -999 ≤ float_to_int32 q ∧ float_to_int32 q ≤ 999 := by
  have hq : |q| ≤ 999 := abs_le.mpr ⟨h0, h1⟩
  have ht : |(truncQ q : ℚ)| ≤ 999 := le_trans (truncQ_abs_bounds q).1 hq
  have ht2 := abs_le.mp ht
  have ha : (-999 : Int) ≤ truncQ q := by exact_mod_cast ht2.1
  have hb : truncQ q ≤ (999 : Int) := by exact_mod_cast ht2.2
  unfold float_to_int32
  rw [wrapI32_of_range _ (by omega) (by omega)]
  exact ⟨ha, hb⟩

/-- An accepted command is stored in the motor object. -/
theorem Motor_SetSpeed_speed (motor : Motor_t) (speed : Int) (enable : Nat)
    (writes : List HW_Write) (h0 : -1000 ≤ speed) (h1 : speed ≤ 1000) :
    (Motor_SetSpeed motor speed enable writes).motor.speed = speed := by
  have hn : ¬ (speed < -1000 ∨ speed > 1000) := by omega
  unfold Motor_SetSpeed
  rw [if_neg hn]
  simp only []
  split_ifs <;> rfl

/-- A command in range is accepted. -/
theorem Motor_SetSpeed_ret (motor : Motor_t) (speed : Int) (enable : Nat)
    (writes : List HW_Write) (h0 : -1000 ≤ speed) (h1 : speed ≤ 1000) :
    (Motor_SetSpeed motor speed enable writes).ret = 0 := by
  have hn : ¬ (speed < -1000 ∨ speed > 1000) := by omega
  unfold Motor_SetSpeed
  rw [if_neg hn]
  simp only []
  split_ifs <;> rfl

theorem spec_pid_constrain_bounds (x lo hi : ℚ) (h : lo ≤ hi) :
    lo ≤ spec_pid_constrain x lo hi ∧ spec_pid_constrain x lo hi ≤ hi := by
  unfold spec_pid_constrain
  split_ifs with h1 h2
  · exact ⟨le_refl _, h⟩
  · exact ⟨h, le_refl _⟩
  · exact ⟨not_lt.mp h1, not_lt.mp h2⟩

/-- C18: if `pid_constrain x lo hi` limits `x` to `[lo, hi]`, then with the default
limits (-999 and 999 for both wheels) the integer commands `pid_task` passes to
`Motor_SetSpeed` lie in `[-999, 999]`; both calls return 0, not the range error
-1, and store the command in the motor object. -/
theorem pid_task_commands_accepted {PID_T : Type} (lib : PID_Lib PID_T)
    (pg : PID_Globals PID_T) (mg : Motor_Globals) (eg : Encoder_Globals)
    (writes : List HW_Write)
    (hcon : ∀ x lo hi : ℚ, lo ≤ hi →
      lo ≤ lib.pid_constrain x lo hi ∧ lib.pid_constrain x lo hi ≤ hi)
    (hl0 : pg.left_speed.out_min = -999) (hl1 : pg.left_speed.out_max = 999)
    (hr0 : pg.right_speed.out_min = -999) (hr1 : pg.right_speed.out_max = 999)
    (hon : mg.enable ≠ 0) :
    (-999 ≤ float_to_int32 (pid_task_outputs lib pg eg).2.1 ∧
      float_to_int32 (pid_task_outputs lib pg eg).2.1 ≤ 999) ∧
    (-999 ≤ float_to_int32 (pid_task_outputs lib pg eg).2.2 ∧
      float_to_int32 (pid_task_outputs lib pg eg).2.2 ≤ 999) ∧
    (Motor_SetSpeed mg.motor1 (float_to_int32 (pid_task_outputs lib pg eg).2.1) mg.enable
      writes).ret = 0 ∧
    (Motor_SetSpeed mg.motor2 (float_to_int32 (pid_task_outputs lib pg eg).2.2) mg.enable
      (Motor_SetSpeed mg.motor1 (float_to_int32 (pid_task_outputs lib pg eg).2.1) mg.enable
        writes).writes).ret = 0 ∧
    (pid_task lib pg mg eg writes).2.1.motor1.speed =
      float_to_int32 (pid_task_outputs lib pg eg).2.1 ∧
    (pid_task lib pg mg eg writes).2.1.motor2.speed =
      float_to_int32 (pid_task_outputs lib pg eg).2.2 := by
  have hL : -999 ≤ (pid_task_outputs lib pg eg).2.1 ∧ (pid_task_outputs lib pg eg).2.1 ≤ 999 := by
    simp only [pid_task_outputs, hl0, hl1]
    exact hcon _ _ _ (by norm_num)
  have hR : -999 ≤ (pid_task_outputs lib pg eg).2.2 ∧ (pid_task_outputs lib pg eg).2.2 ≤ 999 := by
    simp only [pid_task_outputs, hr0, hr1]
    exact hcon _ _ _ (by norm_num)
  have cL := float_to_int32_bounds _ hL.1 hL.2
  have cR := float_to_int32_bounds _ hR.1 hR.2
  refine ⟨cL, cR, ?_, ?_, ?_, ?_⟩
  · exact Motor_SetSpeed_ret _ _ _ _ (by omega) (by omega)
  · exact Motor_SetSpeed_ret _ _ _ _ (by omega) (by omega)
  · unfold pid_task
    rw [if_neg hon]
    exact Motor_SetSpeed_speed _ _ _ _ (by omega) (by omega)
  · unfold pid_task
    rw [if_neg hon]
    exact Motor_SetSpeed_speed _ _ _ _ (by omega) (by omega)

/-- Witness of C18: the enabled car after `PID_init` and `Encoder_Init`, with the
PID library of the specification. -/
theorem pid_task_commands_accepted_witness :
    motors_running.enable ≠ 0 ∧
    pid_globals_ready.left_speed.out_min = -999 ∧ pid_globals_ready.left_speed.out_max = 999 ∧
    (Motor_SetSpeed motors_running.motor1
      (float_to_int32 (pid_task_outputs (spec_pid_lib (1 / 100)) pid_globals_ready
        encoders_ready).2.1) motors_running.enable []).ret = 0 :=
  ⟨by decide, rfl, rfl,
    (pid_task_commands_accepted (spec_pid_lib (1 / 100)) pid_globals_ready motors_running
      encoders_ready [] spec_pid_constrain_bounds rfl rfl rfl rfl (by decide)).2.2.1⟩

/-! ## Theorems: reset after a parameter update -/

/-- C19: in `PID_update_params`, and in `handle_SPEED_command_with_params` called
with one parameter whose value is accepted (0 to 2), the last library operation
applied to each of the four controllers is `pid_reset`: it follows the
`pid_set_params` / `pid_set_limit` calls, respectively the `pid_set_target`
calls, on that controller. -/
theorem reset_ends_parameter_updates {PID_T : Type} (lib : PID_Lib PID_T)
    (pg : PID_Globals PID_T) (new_speed : ℚ) (h0 : 0 ≤ new_speed) (h2 : new_speed ≤ 2) :
    ((PID_update_params lib pg).PID_left_speed =
      lib.pid_reset (lib.pid_set_limit
        (lib.pid_set_params pg.PID_left_speed pg.left_speed.Kp pg.left_speed.Ki
          pg.left_speed.Kd) pg.left_speed.out_max) ∧
     (PID_update_params lib pg).PID_right_speed =
      lib.pid_reset (lib.pid_set_limit
        (lib.pid_set_params pg.PID_right_speed pg.right_speed.Kp pg.right_speed.Ki
          pg.right_speed.Kd) pg.right_speed.out_max) ∧
     (PID_update_params lib pg).PID_line =
      lib.pid_reset (lib.pid_set_limit
        (lib.pid_set_params pg.PID_line pg.line.Kp pg.line.Ki pg.line.Kd) pg.line.out_max) ∧
     (PID_update_params lib pg).PID_Angle =
      lib.pid_reset (lib.pid_set_limit
        (lib.pid_set_params pg.PID_Angle pg.Angle.Kp pg.Angle.Ki pg.Angle.Kd)
        pg.Angle.out_max)) ∧
    ((handle_SPEED_command_with_params lib pg 1 new_speed).basic_speed = new_speed ∧
     (handle_SPEED_command_with_params lib pg 1 new_speed).PID_left_speed =
      lib.pid_reset (lib.pid_set_target pg.PID_left_speed new_speed) ∧
     (handle_SPEED_command_with_params lib pg 1 new_speed).PID_right_speed =
      lib.pid_reset (lib.pid_set_target pg.PID_right_speed new_speed) ∧
     (handle_SPEED_command_with_params lib pg 1 new_speed).PID_line =
      lib.pid_reset pg.PID_line ∧
     (handle_SPEED_command_with_params lib pg 1 new_speed).PID_Angle =
      lib.pid_reset pg.PID_Angle) := by
  have hacc : ¬ (new_speed < 0 ∨ new_speed > 2) := by
    rintro (h | h) <;> linarith
  constructor
  · exact ⟨rfl, rfl, rfl, rfl⟩
  · unfold handle_SPEED_command_with_params
    rw [if_neg (by decide), if_pos rfl, if_neg hacc]
    exact ⟨rfl, rfl, rfl, rfl, rfl⟩

/-- Witness of C19: the command `speed 0.5` on the controllers of `PID_init`; the
left controller ends with the new target and a cleared integral. -/
theorem reset_ends_parameter_updates_witness :
    (handle_SPEED_command_with_params (spec_pid_lib (1 / 100)) pid_globals_ready 1
      (1 / 2)).PID_left_speed =
      spec_pid_reset ((spec_pid_lib (1 / 100)).pid_set_target pid_globals_ready.PID_left_speed
        (1 / 2)) ∧
    (PID_update_params (spec_pid_lib (1 / 100)) pid_globals_ready).PID_Angle =
      spec_pid_reset ((spec_pid_lib (1 / 100)).pid_set_limit
        ((spec_pid_lib (1 / 100)).pid_set_params pid_globals_ready.PID_Angle 0 0 0) 0) := by
  have h := reset_ends_parameter_updates (spec_pid_lib (1 / 100)) pid_globals_ready (1 / 2)
    (by norm_num) (by norm_num)
  exact ⟨h.2.2.1, h.1.2.2.2⟩

/-! ## Theorems: documented patterns, junction sides and mirror symmetry -/

/-- The value `Gary_CalculateLineError` returns, for every bitmap (with no set
channel the weighted average is `0 / 0 = 0`). -/
theorem line_error_eq_all (digital_data : Nat) :
    Gary_CalculateLineError digital_data = weighted_average (not_u8 digital_data) := by
  rcases Nat.eq_zero_or_pos (set_channels (not_u8 digital_data)).length with h0 | hpos
  · have hnil : set_channels (not_u8 digital_data) = [] := List.length_eq_zero.mp h0
    have hz : not_u8 digital_data = 0 :=
      set_channels_nil _ (not_u8_lt digital_data) hnil
    unfold Gary_CalculateLineError weighted_average
    rw [if_pos hz, hnil]
    simp
  · exact line_error_eq digital_data hpos

/-- C25 (evaluation at the failing input): of the two patterns the enum documents
for `LINE_CENTER`, `0xE7` (inverted `00011000`) is classified `LINE_CENTER`, but
`0xC7` (inverted `00111000`, channels 3, 4, 5) has error `2/3 > 0.5` and is
classified `LINE_SLIGHT_RIGHT`; read with bit 0 first the same digits are `0xE3`,
which is classified `LINE_SLIGHT_LEFT`. -/
theorem documented_centre_patterns :
    Gary_DetectLineState 0xE7 = Gary_LineState_t.LINE_CENTER ∧
    set_channels (not_u8 0xC7) = [3, 4, 5] ∧
    Gary_CalculateLineError 0xC7 = 2 / 3 ∧
    Gary_DetectLineState 0xC7 = Gary_LineState_t.LINE_SLIGHT_RIGHT ∧
    Gary_DetectLineState 0xC7 ≠ Gary_LineState_t.LINE_CENTER ∧
    Gary_DetectLineState 0xE3 = Gary_LineState_t.LINE_SLIGHT_LEFT := by
  have hs7 : set_channels (not_u8 0xE7) = [3, 4] := by decide
  have hsc : set_channels (not_u8 0xC7) = [3, 4, 5] := by decide
  have he7 : Gary_CalculateLineError 0xE7 = 0 := by
    rw [line_error_eq_all, weighted_average, hs7]; norm_num [line_weight]
  have hec : Gary_CalculateLineError 0xC7 = 2 / 3 := by
    rw [line_error_eq_all, weighted_average, hsc]; norm_num [line_weight]
  have h7 : Gary_DetectLineState 0xE7 = Gary_LineState_t.LINE_CENTER := by
    unfold Gary_DetectLineState
    rw [if_neg (by decide), if_neg (by decide), if_neg (by decide), if_neg (by decide)]
    simp only [he7]
    norm_num [GARY_CENTER_THRESHOLD]
  have hc : Gary_DetectLineState 0xC7 = Gary_LineState_t.LINE_SLIGHT_RIGHT := by
    unfold Gary_DetectLineState
    rw [if_neg (by decide), if_neg (by decide), if_neg (by decide), if_neg (by decide)]
    simp only [hec]
    norm_num [GARY_CENTER_THRESHOLD, GARY_SLIGHT_THRESHOLD]
  have hs3 : set_channels (not_u8 0xE3) = [2, 3, 4] := by decide
  have he3 : Gary_CalculateLineError 0xE3 = -(2 / 3) := by
    rw [line_error_eq_all, weighted_average, hs3]; norm_num [line_weight]
  have h3 : Gary_DetectLineState 0xE3 = Gary_LineState_t.LINE_SLIGHT_LEFT := by
    unfold Gary_DetectLineState
    rw [if_neg (by decide), if_neg (by decide), if_neg (by decide), if_neg (by decide)]
    simp only [he3]
    norm_num [GARY_CENTER_THRESHOLD, GARY_SLIGHT_THRESHOLD]
  refine ⟨h7, hsc, hec, hc, ?_, h3⟩
  rw [hc]; decide

set_option maxRecDepth 100000 in
/-- The inverted bitmaps that pass the intersection test and have the high
nibble fully set. -/
theorem t_left_bitmaps : ∀ lb < 256,
    (lb ≠ 0 ∧ (count_loop 8 lb 0).2 < 6 ∧ lb &&& 0xF0 = 0xF0) →
      (lb = 0xF0 ∨ lb = 0xF1 ∨ lb = 0xF2 ∨ lb = 0xF4 ∨ lb = 0xF8) := by
  decide

set_option maxRecDepth 100000 in
/-- The inverted bitmaps that pass the intersection test and have the low nibble,
but not the high nibble, fully set. -/
theorem t_right_bitmaps : ∀ lb < 256,
    (lb ≠ 0 ∧ (count_loop 8 lb 0).2 < 6 ∧ lb &&& 0xF0 ≠ 0xF0 ∧ lb &&& 0x0F = 0x0F) →
      (lb = 0x0F ∨ lb = 0x1F ∨ lb = 0x2F ∨ lb = 0x4F ∨ lb = 0x8F) := by
  decide

theorem weighted_average_t_left (lb : Nat)
    (h : lb = 0xF0 ∨ lb = 0xF1 ∨ lb = 0xF2 ∨ lb = 0xF4 ∨ lb = 0xF8) :
    0 < weighted_average lb := by
  have s0 : set_channels 0xF0 = [4, 5, 6, 7] := by decide
  have s1 : set_channels 0xF1 = [0, 4, 5, 6, 7] := by decide
  have s2 : set_channels 0xF2 = [1, 4, 5, 6, 7] := by decide
  have s4 : set_channels 0xF4 = [2, 4, 5, 6, 7] := by decide
  have s8 : set_channels 0xF8 = [3, 4, 5, 6, 7] := by decide
  rcases h with h | h | h | h | h <;> subst h <;> unfold weighted_average
  · rw [s0]; norm_num [line_weight]
  · rw [s1]; norm_num [line_weight]
  · rw [s2]; norm_num [line_weight]
  · rw [s4]; norm_num [line_weight]
  · rw [s8]; norm_num [line_weight]

theorem weighted_average_t_right (lb : Nat)
    (h : lb = 0x0F ∨ lb = 0x1F ∨ lb = 0x2F ∨ lb = 0x4F ∨ lb = 0x8F) :
    weighted_average lb < 0 := by
  have s0 : set_channels 0x0F = [0, 1, 2, 3] := by decide
  have s1 : set_channels 0x1F = [0, 1, 2, 3, 4] := by decide
  have s2 : set_channels 0x2F = [0, 1, 2, 3, 5] := by decide
  have s4 : set_channels 0x4F = [0, 1, 2, 3, 6] := by decide
  have s8 : set_channels 0x8F = [0, 1, 2, 3, 7] := by decide
  rcases h with h | h | h | h | h <;> subst h <;> unfold weighted_average
  · rw [s0]; norm_num [line_weight]
  · rw [s1]; norm_num [line_weight]
  · rw [s2]; norm_num [line_weight]
  · rw [s4]; norm_num [line_weight]
  · rw [s8]; norm_num [line_weight]

/-- The tests a bitmap has passed when `Gary_DetectLineState` returns a
T-junction state. -/
theorem t_junction_tests (digital_data : Nat) :
    (Gary_DetectLineState digital_data = Gary_LineState_t.LINE_T_LEFT →
      not_u8 digital_data ≠ 0 ∧ ¬ ((count_loop 8 (not_u8 digital_data) 0).2 ≥ 6) ∧
      not_u8 digital_data &&& 0xF0 = 0xF0) ∧
    (Gary_DetectLineState digital_data = Gary_LineState_t.LINE_T_RIGHT →
      not_u8 digital_data ≠ 0 ∧ ¬ ((count_loop 8 (not_u8 digital_data) 0).2 ≥ 6) ∧
      ¬ (not_u8 digital_data &&& 0xF0 = 0xF0) ∧ not_u8 digital_data &&& 0x0F = 0x0F) := by
  unfold Gary_DetectLineState
  by_cases h0 : not_u8 digital_data = 0
  · rw [if_pos h0]
    exact ⟨fun h => absurd h (by decide), fun h => absurd h (by decide)⟩
  · rw [if_neg h0]
    by_cases h6 : (count_loop 8 (not_u8 digital_data) 0).2 ≥ 6
    · rw [if_pos h6]
      exact ⟨fun h => absurd h (by decide), fun h => absurd h (by decide)⟩
    · rw [if_neg h6]
      by_cases hl : not_u8 digital_data &&& 0xF0 = 0xF0
      · rw [if_pos hl]
        exact ⟨fun _ => ⟨h0, h6, hl⟩, fun h => absurd h (by decide)⟩
      · rw [if_neg hl]
        by_cases hr : not_u8 digital_data &&& 0x0F = 0x0F
        · rw [if_pos hr]
          exact ⟨fun h => absurd h (by decide), fun _ => ⟨h0, h6, hl, hr⟩⟩
        · rw [if_neg hr]
          constructor
          · intro h; dsimp only at h; split_ifs at h
          · intro h; dsimp only at h; split_ifs at h

/-- C26: for every bitmap that `Gary_DetectLineState` classifies `LINE_T_LEFT` the
error of `Gary_CalculateLineError` is strictly positive, and for every bitmap
classified `LINE_T_RIGHT` it is strictly negative. -/
theorem t_junction_error_sign (digital_data : Nat) :
    (Gary_DetectLineState digital_data = Gary_LineState_t.LINE_T_LEFT →
      0 < Gary_CalculateLineError digital_data) ∧
    (Gary_DetectLineState digital_data = Gary_LineState_t.LINE_T_RIGHT →
      Gary_CalculateLineError digital_data < 0) := by
  have hlt := not_u8_lt digital_data
  obtain ⟨tl, tr⟩ := t_junction_tests digital_data
  constructor
  · intro h
    obtain ⟨h0, h6, hl⟩ := tl h
    rw [line_error_eq_all]
    exact weighted_average_t_left _ (t_left_bitmaps _ hlt ⟨h0, by omega, hl⟩)
  · intro h
    obtain ⟨h0, h6, hl, hr⟩ := tr h
    rw [line_error_eq_all]
    exact weighted_average_t_right _ (t_right_bitmaps _ hlt ⟨h0, by omega, hl, hr⟩)

/-- Witness of C26: inverted `11110000` is `LINE_T_LEFT` with error `5/2`,
inverted `00001111` is `LINE_T_RIGHT` with error `-5/2`. -/
theorem t_junction_error_sign_witness :
    Gary_DetectLineState 0x0F = Gary_LineState_t.LINE_T_LEFT ∧
    0 < Gary_CalculateLineError 0x0F ∧
    Gary_DetectLineState 0xF0 = Gary_LineState_t.LINE_T_RIGHT ∧
    Gary_CalculateLineError 0xF0 < 0 := by
  have hL : Gary_DetectLineState 0x0F = Gary_LineState_t.LINE_T_LEFT := by
    unfold Gary_DetectLineState
    rw [if_neg (by decide), if_neg (by decide), if_pos (by decide)]
  have hR : Gary_DetectLineState 0xF0 = Gary_LineState_t.LINE_T_RIGHT := by
    unfold Gary_DetectLineState
    rw [if_neg (by decide), if_neg (by decide), if_neg (by decide), if_pos (by decide)]
  exact ⟨hL, (t_junction_error_sign 0x0F).1 hL, hR, (t_junction_error_sign 0xF0).2 hR⟩

set_option maxRecDepth 100000 in
/-- `bit_reverse8` swaps bit `i` with bit `7 - i` and stays within 8 bits. -/
theorem bit_reverse8_spec : ∀ b < 256,
    bit_reverse8 b < 256 ∧
    (List.range 8).all (fun i => (bit_reverse8 b).testBit i == b.testBit (7 - i)) = true := by
  decide

set_option maxRecDepth 100000 in
/-- Inverting and mirroring a bitmap commute. -/
theorem not_u8_bit_reverse8 : ∀ b < 256, not_u8 (bit_reverse8 b) = bit_reverse8 (not_u8 b) := by
  decide

set_option maxRecDepth 100000 in
/-- The set channels of the mirrored bitmap are the mirrored set channels. -/
theorem set_channels_bit_reverse8 : ∀ lb < 256,
    set_channels (bit_reverse8 lb) = ((set_channels lb).map (fun i => 7 - i)).reverse := by
  decide

theorem set_channels_lt (bits : Nat) : ∀ i ∈ set_channels bits, i < 8 := by
  intro i hi
  unfold set_channels at hi
  exact List.mem_range.mp (List.mem_filter.mp hi).1

theorem line_weight_mirror (i : Nat) (hi : i < 8) : line_weight (7 - i) = -line_weight i := by
  interval_cases i <;> norm_num [line_weight]

theorem weight_sum_mirror (l : List Nat) (hl : ∀ i ∈ l, i < 8) :
    ((l.map (fun i => 7 - i)).map line_weight).sum = -(l.map line_weight).sum := by
  induction l with
  | nil => simp
  | cons i l ih =>
    have hi : i < 8 := hl i (List.mem_cons_self i l)
    have hl2 : ∀ j ∈ l, j < 8 := fun j hj => hl j (List.mem_cons_of_mem i hj)
    simp only [List.map_cons, List.sum_cons, ih hl2, line_weight_mirror i hi]
    ring

/-- The weighted average of the mirrored bitmap is the negated weighted average. -/
theorem weighted_average_mirror (lb : Nat) (hlb : lb < 256) :
    weighted_average (bit_reverse8 lb) = -weighted_average lb := by
  unfold weighted_average
  rw [set_channels_bit_reverse8 lb hlb, List.map_reverse, List.sum_reverse,
    weight_sum_mirror _ (set_channels_lt lb), List.length_reverse, List.length_map, neg_div]

/-- C27: for every 8-bit bitmap `b`, `Gary_CalculateLineError (bit_reverse8 b)` is
`-Gary_CalculateLineError b`; a bitmap that is its own bit reversal has error 0. -/
theorem line_error_mirror (digital_data : Nat) (hd : digital_data < 256) :
    Gary_CalculateLineError (bit_reverse8 digital_data) =
      -Gary_CalculateLineError digital_data ∧
    (bit_reverse8 digital_data = digital_data → Gary_CalculateLineError digital_data = 0) := by
  have hm : Gary_CalculateLineError (bit_reverse8 digital_data) =
      -Gary_CalculateLineError digital_data := by
    rw [line_error_eq_all, line_error_eq_all, not_u8_bit_reverse8 _ hd,
      weighted_average_mirror _ (not_u8_lt digital_data)]
  refine ⟨hm, ?_⟩
  intro hself
  rw [hself] at hm
  linarith

/-- Witness of C27: `0xF3` (inverted `00001100`, error `-3/2`) mirrors to `0xCF`
(inverted `00110000`, error `3/2`); `0xE7` is its own mirror image, error 0. -/
theorem line_error_mirror_witness :
    bit_reverse8 0xF3 = 0xCF ∧
    Gary_CalculateLineError 0xF3 = -3 / 2 ∧
    Gary_CalculateLineError 0xCF = 3 / 2 ∧
    bit_reverse8 0xE7 = 0xE7 ∧ Gary_CalculateLineError 0xE7 = 0 := by
  have hr : bit_reverse8 0xF3 = 0xCF := by decide
  have hs : set_channels (not_u8 0xF3) = [2, 3] := by decide
  have he : Gary_CalculateLineError 0xF3 = -3 / 2 := by
    rw [line_error_eq_all, weighted_average, hs]; norm_num [line_weight]
  have h1 := (line_error_mirror 0xF3 (by decide)).1
  rw [hr, he] at h1
  have h2 := (line_error_mirror 0xE7 (by decide)).2 (by decide)
  refine ⟨hr, he, ?_, by decide, h2⟩
  rw [h1]; norm_num

/-! ## Theorems: sensor read failures -/

/-- C21: a `gary_task` call that finds the sensor uninitialised, or whose analog
read fails (`result != 1`), leaves `line_state`, `line_error` and `line_width` as
they were; in particular it does not turn the state into `LINE_LOST`. -/
theorem gary_task_failed_read_keeps_line (s : Gary_State) (bus : Gary_Bus)
    (hfail : s.gary_data.init_status = 0 ∨ bus.analog_result ≠ 1) :
    (gary_task s bus).gary_data.line_state = s.gary_data.line_state ∧
    (gary_task s bus).gary_data.line_error = s.gary_data.line_error ∧
    (gary_task s bus).gary_data.line_width = s.gary_data.line_width ∧
    (s.gary_data.line_state ≠ Gary_LineState_t.LINE_LOST →
      (gary_task s bus).gary_data.line_state ≠ Gary_LineState_t.LINE_LOST) := by
  have h3 : (gary_task s bus).gary_data.line_state = s.gary_data.line_state ∧
      (gary_task s bus).gary_data.line_error = s.gary_data.line_error ∧
      (gary_task s bus).gary_data.line_width = s.gary_data.line_width := by
    unfold gary_task
    by_cases hi : s.gary_data.init_status = 0
    · rw [if_pos hi]
      exact ⟨rfl, rfl, rfl⟩
    · have hr : bus.analog_result ≠ 1 := hfail.resolve_left hi
      rw [if_neg hi]
      dsimp only
      rw [if_neg hr]
      split_ifs <;> exact ⟨rfl, rfl, rfl⟩
  refine ⟨h3.1, h3.2.1, h3.2.2, ?_⟩
  intro hne
  rw [h3.1]
  exact hne

/-- Witness of C21: the tracking sensor (`LINE_CENTER`) and a failed read whose
digital byte is `0xFF`. -/
theorem gary_task_failed_read_keeps_line_witness :
    bus_failed.analog_result ≠ 1 ∧
    (gary_task gary_tracking bus_failed).gary_data.digital_data = 0xFF ∧
    (gary_task gary_tracking bus_failed).gary_data.line_state =
      Gary_LineState_t.LINE_CENTER ∧
    (gary_task gary_tracking bus_failed).gary_data.line_width = 2 := by
  have h := gary_task_failed_read_keeps_line gary_tracking bus_failed (Or.inr (by decide))
  exact ⟨by decide, by decide, h.1, h.2.2.1⟩

/-- C22 (as stated, refuted): a successful `imu_task` read during which the SDK
does not invoke the callback leaves `data_ready` at 0. -/
theorem imu_task_success_keeps_data_ready :
    imu_waiting.imu_data.init_status = 1 ∧ wit_silent.result = WIT_HAL_OK ∧
    imu_waiting.imu_data.data_ready = 0 ∧
    (imu_task imu_waiting wit_silent).retry_count = 0 ∧
    (imu_task imu_waiting wit_silent).imu_data.data_ready = 0 ∧
    (imu_task imu_waiting wit_silent).imu_data.data_ready ≠ 1 := by
  refine ⟨rfl, rfl, rfl, ?_, ?_, ?_⟩ <;>
    simp [imu_task, imu_waiting, wit_silent, Wit_apply, WIT_HAL_OK]

/-- The failure branch of `gary_task`, for a consecutive-failure count as it
occurs in a run (0, 1 or 2). -/
theorem gary_task_failure (s : Gary_State) (bus : Gary_Bus)
    (hinit : s.gary_data.init_status ≠ 0) (hfail : bus.analog_result ≠ 1)
    (hcount : s.retry_count ≤ 2) (hbyte : s.gary_data.comm_error_count ≤ 255) :
    (gary_task s bus).gary_data.comm_error_count = min 255 (s.gary_data.comm_error_count + 1) ∧
    (s.retry_count < 2 →
      (gary_task s bus).gary_data.data_ready = s.gary_data.data_ready ∧
      (gary_task s bus).retry_count = s.retry_count + 1) ∧
    (s.retry_count = 2 →
      (gary_task s bus).gary_data.data_ready = 0 ∧ (gary_task s bus).retry_count = 0) := by
  unfold gary_task
  rw [if_neg hinit]
  dsimp only
  rw [if_neg hfail]
  have hm : (s.retry_count + 1) % 256 = s.retry_count + 1 := by omega
  simp only [hm, GARY_MAX_RETRY]
  refine ⟨?_, ?_, ?_⟩
  · split_ifs <;> simp <;> omega
  · intro h
    have h3 : ¬ (s.retry_count + 1 ≥ 3) := by omega
    rw [if_neg h3]
    split_ifs <;> exact ⟨rfl, rfl⟩
  · intro h
    have h3 : s.retry_count + 1 ≥ 3 := by omega
    rw [if_pos h3]
    exact ⟨rfl, rfl⟩

/-- The success branch of `gary_task`. -/
theorem gary_task_success (s : Gary_State) (bus : Gary_Bus)
    (hinit : s.gary_data.init_status ≠ 0) (hok : bus.analog_result = 1) :
    (gary_task s bus).retry_count = 0 ∧ (gary_task s bus).gary_data.data_ready = 1 := by
  unfold gary_task
  rw [if_neg hinit]
  dsimp only
  rw [if_pos hok]
  split_ifs <;> exact ⟨rfl, rfl⟩

/-- The callback sets `data_ready` when it is invoked for the three registers
`imu_task` reads. -/
theorem callback_sets_data_ready (d : IMU_Data_t) (cb : Wit_Callback)
    (hreg : cb.uiReg = Roll) (hnum : cb.uiRegNum = 3) :
    (IMU_RegUpdateCallback d cb).data_ready = 1 := by
  unfold IMU_RegUpdateCallback
  have h : cb.uiReg ≤ Yaw ∧ add_u32 cb.uiReg cb.uiRegNum > Roll := by
    rw [hreg, hnum]; decide
  rw [if_pos h]

/-- The calls the SDK makes keep `comm_error_count` within a byte. -/
theorem Wit_apply_count_le (d : IMU_Data_t) (events : List Wit_Event)
    (h : d.comm_error_count ≤ 255) : (Wit_apply d events).comm_error_count ≤ 255 := by
  unfold Wit_apply
  induction events generalizing d with
  | nil => exact h
  | cons ev evs ih =>
    rw [List.foldl_cons]
    apply ih
    cases ev with
    | i2c_failed =>
      dsimp only
      unfold IMU_I2C_error
      split_ifs with hc
      · show d.comm_error_count + 1 ≤ 255
        omega
      · exact h
    | callback cb =>
      dsimp only
      unfold IMU_RegUpdateCallback
      split_ifs <;> exact h

/-- C22 (amended): a failed `gary_task` read sets `comm_error_count` to
`min 255 (comm_error_count + 1)`, leaves `data_ready` unchanged on the 1st and 2nd
consecutive failure and clears it on the 3rd (`GARY_MAX_RETRY`); a successful
read resets the consecutive-failure count and sets `data_ready` to 1.  A failed
`imu_task` read follows the same rule with `IMU_MAX_RETRY = 3`, counted from the
state the SDK's calls left; a successful `imu_task` read resets the count and
stores the tick, and leaves `data_ready` as the SDK's calls left it (1 when the
callback was invoked last for the registers read). -/
theorem bounded_retry_rule (s : Gary_State) (bus : Gary_Bus) (si : IMU_State)
    (wit : Wit_Read) (hg : s.gary_data.init_status ≠ 0) (hgc : s.retry_count ≤ 2)
    (hgb : s.gary_data.comm_error_count ≤ 255)
    (hi : si.imu_data.init_status ≠ 0) (hic : si.retry_count ≤ 2)
    (hib : si.imu_data.comm_error_count ≤ 255) :
    (bus.analog_result ≠ 1 →
      (gary_task s bus).gary_data.comm_error_count =
        min 255 (s.gary_data.comm_error_count + 1) ∧
      (s.retry_count < 2 →
        (gary_task s bus).gary_data.data_ready = s.gary_data.data_ready ∧
        (gary_task s bus).retry_count = s.retry_count + 1) ∧
      (s.retry_count = 2 →
        (gary_task s bus).gary_data.data_ready = 0 ∧ (gary_task s bus).retry_count = 0)) ∧
    (bus.analog_result = 1 →
      (gary_task s bus).retry_count = 0 ∧ (gary_task s bus).gary_data.data_ready = 1) ∧
    (wit.result ≠ WIT_HAL_OK →
      (imu_task si wit).imu_data.comm_error_count =
        min 255 ((Wit_apply si.imu_data wit.events).comm_error_count + 1) ∧
      (si.retry_count < 2 →
        (imu_task si wit).imu_data.data_ready =
          (Wit_apply si.imu_data wit.events).data_ready ∧
        (imu_task si wit).retry_count = si.retry_count + 1) ∧
      (si.retry_count = 2 →
        (imu_task si wit).imu_data.data_ready = 0 ∧ (imu_task si wit).retry_count = 0)) ∧
    (wit.result = WIT_HAL_OK →
      (imu_task si wit).retry_count = 0 ∧
      (imu_task si wit).imu_data.last_update_time = wit.tick ∧
      (imu_task si wit).imu_data.data_ready =
        (Wit_apply si.imu_data wit.events).data_ready ∧
      (∀ evs cb, wit.events = evs ++ [Wit_Event.callback cb] → cb.uiReg = Roll →
        cb.uiRegNum = 3 → (imu_task si wit).imu_data.data_ready = 1)) := by
  have hwb := Wit_apply_count_le si.imu_data wit.events hib
  refine ⟨fun h => gary_task_failure s bus hg h hgc hgb,
    fun h => gary_task_success s bus hg h, ?_, ?_⟩
  · intro hfail
    unfold imu_task
    rw [if_neg hi]
    dsimp only
    rw [if_neg hfail]
    have hm : (si.retry_count + 1) % 256 = si.retry_count + 1 := by omega
    simp only [hm, IMU_MAX_RETRY]
    refine ⟨?_, ?_, ?_⟩
    · split_ifs <;> simp <;> omega
    · intro h
      have h3 : ¬ (si.retry_count + 1 ≥ 3) := by omega
      rw [if_neg h3]
      split_ifs <;> exact ⟨rfl, rfl⟩
    · intro h
      have h3 : si.retry_count + 1 ≥ 3 := by omega
      rw [if_pos h3]
      exact ⟨rfl, rfl⟩
  · intro hok
    unfold imu_task
    rw [if_neg hi]
    dsimp only
    rw [if_pos hok]
    refine ⟨rfl, rfl, rfl, ?_⟩
    intro evs cb hev hreg hnum
    dsimp only
    rw [hev]
    unfold Wit_apply
    rw [List.foldl_append]
    exact callback_sets_data_ready _ cb hreg hnum

/-- Witness of C22 (amended): three failed reads of the tracking sensor in a row,
a good read, and the IMU reads with and without the callback. -/
theorem bounded_retry_rule_witness :
    (gary_task gary_tracking bus_failed).gary_data.data_ready = 1 ∧
    (gary_task (gary_task gary_tracking bus_failed) bus_failed).gary_data.data_ready = 1 ∧
    (gary_task (gary_task (gary_task gary_tracking bus_failed) bus_failed)
      bus_failed).gary_data.data_ready = 0 ∧
    (gary_task (gary_task (gary_task gary_tracking bus_failed) bus_failed)
      bus_failed).gary_data.comm_error_count = 3 ∧
    (gary_task gary_tracking bus_good).gary_data.data_ready = 1 ∧
    (imu_task imu_waiting wit_failed).imu_data.comm_error_count = min 255 (0 + 1) ∧
    (imu_task imu_waiting wit_delivers).imu_data.data_ready = 1 := by
  have h := bounded_retry_rule gary_tracking bus_good imu_waiting wit_delivers (by decide)
    (by decide) (by decide) (by decide) (by decide) (by decide)
  have hf := (bounded_retry_rule gary_tracking bus_failed imu_waiting wit_failed (by decide)
    (by decide) (by decide) (by decide) (by decide) (by decide)).2.2.1 (by decide)
  refine ⟨by decide, by decide, by decide, by decide, (h.2.1 rfl).2, ?_,
    (h.2.2.2 rfl).2.2.2 [] _ rfl rfl rfl⟩
  have e : (Wit_apply imu_waiting.imu_data wit_failed.events).comm_error_count = 0 := rfl
  rw [e] at hf
  exact hf.1

/-! ## Theorems: the heading loop and the line loop -/

/-- C23 (as stated, refuted): with `imu_data.data_ready = 0` and a heading of 10
degrees, `PID_Angle_Control` runs the incremental PID calculation: `pid_yaw_out`
goes from 0 to -10 and the stored previous error of `PID_Angle` from 0 to -10. -/
theorem PID_Angle_Control_ignores_data_ready :
    imu_not_ready.data_ready = 0 ∧
    pid_globals_heading.pid_yaw_out = 0 ∧
    pid_globals_heading.PID_Angle.prev_error = 0 ∧
    (PID_Angle_Control (spec_pid_lib (1 / 100)) pid_globals_heading imu_not_ready).pid_yaw_out =
      -10 ∧
    (PID_Angle_Control (spec_pid_lib (1 / 100)) pid_globals_heading
      imu_not_ready).PID_Angle.prev_error = -10 ∧
    (PID_Angle_Control (spec_pid_lib (1 / 100)) pid_globals_heading imu_not_ready).PID_Angle ≠
      pid_globals_heading.PID_Angle := by
  have hA : pid_globals_heading.PID_Angle =
      { Kp := 1, Ki := 0, Kd := 0, target := 0, integral := 0, prev_error := 0,
        prev_error2 := 0, prev_output := 0, out_min := -100, out_max := 100 } := by
    simp [pid_globals_heading, PID_update_params, PID_reset_all, spec_pid_lib, spec_pid_reset,
      pid_globals_ready, PID_init, pid_globals_start]
  have hout : (PID_Angle_Control (spec_pid_lib (1 / 100)) pid_globals_heading
      imu_not_ready).pid_yaw_out = -10 := by
    simp only [PID_Angle_Control, hA, spec_pid_lib, spec_pid_incremental, imu_not_ready,
      spec_pid_constrain]
    norm_num
  have hprev : (PID_Angle_Control (spec_pid_lib (1 / 100)) pid_globals_heading
      imu_not_ready).PID_Angle.prev_error = -10 := by
    simp only [PID_Angle_Control, hA, spec_pid_lib, spec_pid_incremental, imu_not_ready]
    norm_num
  refine ⟨rfl, rfl, ?_, hout, hprev, ?_⟩
  · rw [hA]
  · intro h
    have h2 := congrArg Spec_PID.prev_error h
    rw [hprev, hA] at h2
    norm_num at h2

/-- C23 (amended): `PID_Angle_Control` does not consult `imu_data.data_ready`: on
every call it copies `imu_data.yaw` into `yaw`, runs `pid_calculate_incremental`
on `PID_Angle` with it and stores the result in `pid_yaw_out`. -/
theorem PID_Angle_Control_always_calculates {PID_T : Type} (lib : PID_Lib PID_T)
    (pg : PID_Globals PID_T) (imu : IMU_Data_t) (ready : Nat) :
    (PID_Angle_Control lib pg imu).yaw = imu.yaw ∧
    (PID_Angle_Control lib pg imu).PID_Angle =
      (lib.pid_calculate_incremental pg.PID_Angle imu.yaw).1 ∧
    (PID_Angle_Control lib pg imu).pid_yaw_out =
      (lib.pid_calculate_incremental pg.PID_Angle imu.yaw).2 ∧
    PID_Angle_Control lib pg { imu with data_ready := ready } = PID_Angle_Control lib pg imu :=
  ⟨rfl, rfl, rfl, rfl⟩

/-- C29: with the limits of the `line` parameter set at 0 (its initialiser names
neither), and `pid_constrain` limiting its argument to `[min, max]`,
`PID_Line_Control` computes `pid_line_out = 0` and sets both speed targets to
`basic_speed`; whatever the limits, the two targets it sets are
`basic_speed - pid_line_out` and `basic_speed + pid_line_out`, which sum to
`2 * basic_speed`. -/
theorem PID_Line_Control_inert {PID_T : Type} (lib : PID_Lib PID_T) (pg : PID_Globals PID_T)
    (gd : Gary_Data_t) (zero : PID_T)
    (hcon : ∀ x lo hi : ℚ, lo ≤ hi →
      lo ≤ lib.pid_constrain x lo hi ∧ lib.pid_constrain x lo hi ≤ hi) :
    ((pid_globals_start zero).line.out_min = 0 ∧ (pid_globals_start zero).line.out_max = 0 ∧
      (PID_init lib (pid_globals_start zero)).line.out_min = 0 ∧
      (PID_init lib (pid_globals_start zero)).line.out_max = 0) ∧
    (pg.line.out_min = 0 → pg.line.out_max = 0 →
      (PID_Line_Control lib pg gd).pid_line_out = 0 ∧
      (PID_Line_Control lib pg gd).PID_left_speed =
        lib.pid_set_target pg.PID_left_speed pg.basic_speed ∧
      (PID_Line_Control lib pg gd).PID_right_speed =
        lib.pid_set_target pg.PID_right_speed pg.basic_speed) ∧
    ((PID_Line_Control lib pg gd).PID_left_speed =
        lib.pid_set_target pg.PID_left_speed
          (pg.basic_speed - (PID_Line_Control lib pg gd).pid_line_out) ∧
      (PID_Line_Control lib pg gd).PID_right_speed =
        lib.pid_set_target pg.PID_right_speed
          (pg.basic_speed + (PID_Line_Control lib pg gd).pid_line_out) ∧
      (pg.basic_speed - (PID_Line_Control lib pg gd).pid_line_out) +
        (pg.basic_speed + (PID_Line_Control lib pg gd).pid_line_out) = 2 * pg.basic_speed) := by
  refine ⟨⟨rfl, rfl, rfl, rfl⟩, ?_, ⟨rfl, rfl, by ring⟩⟩
  intro hmin hmax
  have hz : (PID_Line_Control lib pg gd).pid_line_out = 0 := by
    simp only [PID_Line_Control, hmin, hmax]
    have h := hcon (lib.pid_calculate_positional pg.PID_line (Gary_GetLineError gd / 4)).2 0 0
      (le_refl 0)
    exact le_antisymm h.2 h.1
  have hl : (PID_Line_Control lib pg gd).PID_left_speed =
      lib.pid_set_target pg.PID_left_speed
        (pg.basic_speed - (PID_Line_Control lib pg gd).pid_line_out) := rfl
  have hr : (PID_Line_Control lib pg gd).PID_right_speed =
      lib.pid_set_target pg.PID_right_speed
        (pg.basic_speed + (PID_Line_Control lib pg gd).pid_line_out) := rfl
  refine ⟨hz, ?_, ?_⟩
  · rw [hl, hz, sub_zero]
  · rw [hr, hz, add_zero]

/-- Witness of C29: the controllers of `PID_init` and a line sensor reporting the
error `-3/2`. -/
theorem PID_Line_Control_inert_witness :
    pid_globals_ready.line.out_min = 0 ∧ pid_globals_ready.line.out_max = 0 ∧
    (PID_Line_Control (spec_pid_lib (1 / 100)) pid_globals_ready
      { gary_tracking.gary_data with line_error := -3 / 2 }).pid_line_out = 0 ∧
    (PID_Line_Control (spec_pid_lib (1 / 100)) pid_globals_ready
      { gary_tracking.gary_data with line_error := -3 / 2 }).PID_left_speed =
      (spec_pid_lib (1 / 100)).pid_set_target pid_globals_ready.PID_left_speed
        pid_globals_ready.basic_speed := by
  have h := (PID_Line_Control_inert (spec_pid_lib (1 / 100)) pid_globals_ready
    { gary_tracking.gary_data with line_error := -3 / 2 } zero_pid
    spec_pid_constrain_bounds).2.1 rfl rfl
  exact ⟨rfl, rfl, h.1, h.2.1⟩

/-! ## Theorems: health of the encoder subsystem -/

/-- C24: `is_encoder_system_healthy` returns 0 whenever a wheel's
`last_update_time` is more than 500 ms before the current tick (unsigned 32-bit
difference) or a wheel's `error_count` exceeds 100; it returns 1 exactly when
both wheel timestamps and the differential-drive timestamp are at most 500 ms
old and both error counters are at most 100; it returns nothing else. -/
theorem encoder_health (g : Encoder_Globals) (current_time : Nat) :
    ((sub_u32 current_time g.encoder_data_A.last_update_time > 500 ∨
        sub_u32 current_time g.encoder_data_B.last_update_time > 500 ∨
        g.encoder_data_A.error_count > 100 ∨ g.encoder_data_B.error_count > 100) →
      is_encoder_system_healthy g current_time = 0) ∧
    (is_encoder_system_healthy g current_time = 1 ↔
      (sub_u32 current_time g.encoder_data_A.last_update_time ≤ 500 ∧
        sub_u32 current_time g.encoder_data_B.last_update_time ≤ 500 ∧
        sub_u32 current_time g.diff_drive_data.last_update_time ≤ 500 ∧
        g.encoder_data_A.error_count ≤ 100 ∧ g.encoder_data_B.error_count ≤ 100)) ∧
    (is_encoder_system_healthy g current_time = 0 ∨
      is_encoder_system_healthy g current_time = 1) := by
  unfold is_encoder_system_healthy
  refine ⟨?_, ?_, ?_⟩
  · intro h
    split_ifs <;> first | rfl | omega
  · split_ifs <;> simp <;> omega
  · split_ifs <;> simp

/-- Witness of C24: both wheels updated at tick 50 and 0, read at tick 300 (healthy)
and at tick 600 (stale). -/
theorem encoder_health_witness :
    is_encoder_system_healthy encoders_moving 300 = 1 ∧
    is_encoder_system_healthy encoders_moving 600 = 0 := by
  have hA : encoders_moving.encoder_data_A.last_update_time = 50 := by
    show moving_data.last_update_time = 50
    rw [moving_data_eq]
  have hAe : encoders_moving.encoder_data_A.error_count = 0 := by
    show moving_data.error_count = 0
    rw [moving_data_eq]; rfl
  have hB : encoders_moving.encoder_data_B.last_update_time = 0 := by
    show init_data.last_update_time = 0
    rw [init_data_eq]; rfl
  have hBe : encoders_moving.encoder_data_B.error_count = 0 := by
    show init_data.error_count = 0
    rw [init_data_eq]; rfl
  have hD : encoders_moving.diff_drive_data.last_update_time = 50 := rfl
  constructor
  · exact ((encoder_health encoders_moving 300).2.1).mpr (by
      rw [hA, hAe, hB, hBe, hD]; decide)
  · exact (encoder_health encoders_moving 600).1 (Or.inl (by rw [hA]; decide))

/-! ## Theorems: range of the fixed-point sample -/

theorem get_adaptive_sample_time_values (q : ℚ) :
    get_adaptive_sample_time q = 20 ∨ get_adaptive_sample_time q = 50 ∨
      get_adaptive_sample_time q = 100 := by
  unfold get_adaptive_sample_time
  simp only [ENCODER_HIGH_SPEED_SAMPLE, ENCODER_LOW_SPEED_SAMPLE, ENCODER_SAMPLE_TIME]
  split_ifs <;> simp

/-- In every reachable wheel state the adaptive sample period is 20, 50 or 100 ms
and the stored counter is a 16-bit value. -/
theorem reachable_inv (e : Encoder_Data_t) (h : Encoder_Reachable e) :
    (e.adaptive_sample_time = 20 ∨ e.adaptive_sample_time = 50 ∨
      e.adaptive_sample_time = 100) ∧ 0 ≤ e.last_count ∧ e.last_count ≤ 65535 := by
  induction h with
  | init id e tick _ =>
    simp [Encoder_Init_data, ENCODER_SAMPLE_TIME]
  | step e t c _ hc ih =>
    unfold calculate_speed_for_encoder
    by_cases hdue : sub_u32 t e.last_update_time ≥ e.adaptive_sample_time
    · simp only [if_pos hdue]
      refine ⟨get_adaptive_sample_time_values _, ?_, ?_⟩
      · rw [wrapI32_of_range _ (by omega) (by omega)]; omega
      · rw [wrapI32_of_range _ (by omega) (by omega)]; omega
    · simp only [if_neg hdue]
      exact ih

theorem corrected_delta_range (c : Nat) (l : Int) (hc : c ≤ 65535) (h0 : 0 ≤ l)
    (h1 : l ≤ 65535) :
    -32768 ≤ corrected_delta c l ∧ corrected_delta c l ≤ 32768 := by
  unfold corrected_delta overflow_correct
  split_ifs <;> omega

/-- The single-precision bound on the scaled sample `100 * rps` for a delta of
magnitude at most 32768 over at least 20 ms: the three roundings of the largest
case, `32768 / 20`, end one unit in the last place above 4096. -/
theorem scaled_sample_bound (d : Int) (t : Nat) (hd0 : -32768 ≤ d) (hd1 : d ≤ 32768)
    (ht : 20 ≤ t) :
    |f32 (f32 (f32 (f32 (d : ℚ) / f32 (t : ℚ)) * SPEED_CALC_FACTOR) * 100)| ≤
      4096 + 1 / 2048 := by
  have hA : f32 (8192 / 5) = 13421773 / 8192 := by
    rw [f32_eval _ (10) 13421773 (by norm_num) (by norm_num) (by norm_num) (by norm_num)
    (by norm_num)]
    norm_num
  have hB : f32 ((13421773 / 8192 : ℚ) * (13421773 / 536870912)) = 10737419 / 262144 := by
    rw [f32_eval _ (5) 10737419 (by norm_num) (by norm_num) (by norm_num) (by norm_num)
    (by norm_num)]
    norm_num
  have hC : f32 ((10737419 / 262144 : ℚ) * 100) = 4096 + 1 / 2048 := by
    rw [f32_eval _ (12) 8388609 (by norm_num) (by norm_num) (by norm_num) (by norm_num)
    (by norm_num)]
    norm_num
  have hd : f32 (d : ℚ) = d := f32_intCast d (by omega) (by omega)
  have hT : (20 : ℚ) ≤ f32 (t : ℚ) := by
    have h1 : (20 : ℚ) ≤ (t : ℚ) := by exact_mod_cast ht
    have h2 := f32_mono _ _ h1
    rwa [f32_ofNat_small 20 (by norm_num)] at h2
  have hTpos : (0 : ℚ) < f32 (t : ℚ) := by linarith
  have hD : |(d : ℚ)| ≤ 32768 := by
    rw [abs_le]; constructor
    · exact_mod_cast hd0
    · exact_mod_cast hd1
  have h1 : |f32 (d : ℚ) / f32 (t : ℚ)| ≤ 8192 / 5 := by
    rw [hd, abs_div, abs_of_pos hTpos, div_le_iff₀ hTpos]
    nlinarith [abs_nonneg (d : ℚ)]
  have h2 : |f32 (f32 (d : ℚ) / f32 (t : ℚ))| ≤ 13421773 / 8192 := by
    rw [f32_abs, ← hA]; exact f32_mono _ _ h1
  have h3 : |f32 (f32 (f32 (d : ℚ) / f32 (t : ℚ)) * SPEED_CALC_FACTOR)| ≤ 10737419 / 262144 := by
    rw [f32_abs, ← hB, SPEED_CALC_FACTOR_eq]
    apply f32_mono
    rw [abs_mul, abs_of_pos (show (0 : ℚ) < 13421773 / 536870912 by norm_num)]
    exact mul_le_mul_of_nonneg_right h2 (by norm_num)
  rw [f32_abs, ← hC]
  apply f32_mono
  rw [abs_mul, abs_of_pos (show (0 : ℚ) < 100 by norm_num)]
  exact mul_le_mul_of_nonneg_right h3 (by norm_num)


/-- The value cast to `int16_t` for 32768 counts in 50 ms: `1638.4000244...`. -/
theorem scaled_sample_32768_50 :
    f32 (f32 (f32 (f32 32768 / f32 50) * SPEED_CALC_FACTOR) * 100) = 13421773 / 8192 := by
  rw [f32_ofNat_small 32768 (by norm_num), f32_ofNat_small 50 (by norm_num), SPEED_CALC_FACTOR_eq]
  have h1 : f32 ((32768 : ℚ) / 50) = 5368709 / 8192 := by
    rw [f32_eval _ (9) 10737418 (by norm_num) (by norm_num) (by norm_num) (by norm_num)
    (by norm_num)]
    norm_num
  have h2 : f32 ((5368709 / 8192 : ℚ) * (13421773 / 536870912)) = 8589935 / 524288 := by
    rw [f32_eval _ (4) 8589935 (by norm_num) (by norm_num) (by norm_num) (by norm_num)
    (by norm_num)]
    norm_num
  rw [h1, h2, f32_eval _ (10) 13421773 (by norm_num) (by norm_num) (by norm_num) (by norm_num)
    (by norm_num)]
  norm_num

theorem stored_sample_32768_50 : truncQ (13421773 / 8192) = 1638 :=
  truncQ_eq _ 1638 (by norm_num) (by norm_num) (by norm_num)

/-- The value cast to `int16_t` for 32767 counts in 50 ms: `1638.3500976...`. -/
theorem scaled_sample_32767_50 :
    f32 (f32 (f32 (f32 32767 / f32 50) * SPEED_CALC_FACTOR) * 100) = 3355341 / 2048 := by
  rw [f32_ofNat_small 32767 (by norm_num), f32_ofNat_small 50 (by norm_num), SPEED_CALC_FACTOR_eq]
  have h1 : f32 ((32767 : ℚ) / 50) = 10737091 / 16384 := by
    rw [f32_eval _ (9) 10737091 (by norm_num) (by norm_num) (by norm_num) (by norm_num)
    (by norm_num)]
    norm_num
  have h2 : f32 ((10737091 / 16384 : ℚ) * (13421773 / 536870912)) = 8589673 / 524288 := by
    rw [f32_eval _ (4) 8589673 (by norm_num) (by norm_num) (by norm_num) (by norm_num)
    (by norm_num)]
    norm_num
  rw [h1, h2, f32_eval _ (10) 13421364 (by norm_num) (by norm_num) (by norm_num) (by norm_num)
    (by norm_num)]
  norm_num

theorem stored_sample_32767_50 : truncQ (3355341 / 2048) = 1638 :=
  truncQ_eq _ 1638 (by norm_num) (by norm_num) (by norm_num)

/-- The value cast to `int16_t` for 32768 counts in 20 ms: `4096.00048828125`. -/
theorem scaled_sample_32768_20 :
    f32 (f32 (f32 (f32 32768 / f32 20) * SPEED_CALC_FACTOR) * 100) = 8388609 / 2048 := by
  rw [f32_ofNat_small 32768 (by norm_num), f32_ofNat_small 20 (by norm_num), SPEED_CALC_FACTOR_eq]
  have h1 : f32 ((32768 : ℚ) / 20) = 13421773 / 8192 := by
    rw [f32_eval _ (10) 13421773 (by norm_num) (by norm_num) (by norm_num) (by norm_num)
    (by norm_num)]
    norm_num
  have h2 : f32 ((13421773 / 8192 : ℚ) * (13421773 / 536870912)) = 10737419 / 262144 := by
    rw [f32_eval _ (5) 10737419 (by norm_num) (by norm_num) (by norm_num) (by norm_num)
    (by norm_num)]
    norm_num
  rw [h1, h2, f32_eval _ (12) 8388609 (by norm_num) (by norm_num) (by norm_num) (by norm_num)
    (by norm_num)]
  norm_num

/-- The value cast to `int16_t` for 1980 counts in 50 ms: `98.9999923...`. -/
theorem scaled_sample_1980_50 :
    f32 (f32 (f32 (f32 1980 / f32 50) * SPEED_CALC_FACTOR) * 100) = 12976127 / 131072 := by
  rw [f32_ofNat_small 1980 (by norm_num), f32_ofNat_small 50 (by norm_num), SPEED_CALC_FACTOR_eq]
  have h1 : f32 ((1980 : ℚ) / 50) = 5190451 / 131072 := by
    rw [f32_eval _ (5) 10380902 (by norm_num) (by norm_num) (by norm_num) (by norm_num)
    (by norm_num)]
    norm_num
  have h2 : f32 ((5190451 / 131072 : ℚ) * (13421773 / 536870912)) = 16609443 / 16777216 := by
    rw [f32_eval _ (-1) 16609443 (by norm_num) (by norm_num) (by norm_num) (by norm_num)
    (by norm_num)]
    norm_num
  rw [h1, h2, f32_eval _ (6) 12976127 (by norm_num) (by norm_num) (by norm_num) (by norm_num)
    (by norm_num)]
  norm_num

theorem stored_sample_1980_50 : truncQ (12976127 / 131072) = 98 :=
  truncQ_eq _ 98 (by norm_num) (by norm_num) (by norm_num)

theorem f32_1638 : f32 1638 = 1638 := f32_ofNat_small 1638 (by norm_num)

theorem f32_3276 : f32 3276 = 3276 := f32_ofNat_small 3276 (by norm_num)

/-- The `float` nearest to `3.276`. -/
theorem f32_speed_1638 : f32 (819 / 250) = 3435135 / 1048576 := by
  rw [f32_eval _ (1) 13740540 (by norm_num) (by norm_num) (by norm_num) (by norm_num)
    (by norm_num)]
  norm_num

/-- The `float` nearest to `6.552`. -/
theorem f32_speed_3276 : f32 (819 / 125) = 3435135 / 524288 := by
  rw [f32_eval _ (2) 13740540 (by norm_num) (by norm_num) (by norm_num) (by norm_num)
    (by norm_num)]
  norm_num

theorem speed_rpm_1638 : truncQ (f32 (f32 (819 / 250) * 60)) = 196 := by
  rw [f32_speed_1638, f32_eval _ (7) 12881756 (by norm_num) (by norm_num) (by norm_num) (by norm_num)
    (by norm_num)]
  exact truncQ_eq _ 196 (by norm_num) (by norm_num) (by norm_num)

theorem speed_rpm_3276 : truncQ (f32 (f32 (819 / 125) * 60)) = 393 := by
  rw [f32_speed_3276, f32_eval _ (8) 12881756 (by norm_num) (by norm_num) (by norm_num) (by norm_num)
    (by norm_num)]
  exact truncQ_eq _ 393 (by norm_num) (by norm_num) (by norm_num)

theorem fast_data1_eq : fast_data1 =
    { power_on_data with
      total_count := 32768, last_count := 32768, speed_rpm := 196,
      speed_buffer := [1638, 0, 0, 0, 0], buffer_index := 1, last_update_time := 50,
      speed_rps := f32 (819 / 250), speed_m_s := f32 (f32 (819 / 250) * WHEEL_CIRCUMFERENCE),
      adaptive_sample_time := 50, filter_sum := 1638 } := by
  rw [fast_data1, init_data_eq]
  norm_num [calculate_speed_for_encoder, power_on_data, sub_u32, corrected_delta,
    overflow_correct, apply_moving_average_filter, scaled_sample_32768_50,
    ENCODER_FILTER_SIZE, float_to_int16, wrapI32, wrapI16,
    stored_sample_32768_50, f32_1638, f32_500, f32_abs, abs_of_nonneg, speed_rpm_1638]
  norm_num [get_adaptive_sample_time, f32_speed_1638, abs_of_nonneg,
    ENCODER_SPEED_THRESHOLD_H, ENCODER_SPEED_THRESHOLD_L, ENCODER_SAMPLE_TIME]

theorem fast_data2_eq : fast_data2 =
    { power_on_data with
      total_count := 65535, last_count := 65535, speed_rpm := 393,
      speed_buffer := [1638, 1638, 0, 0, 0], buffer_index := 2, last_update_time := 100,
      speed_rps := f32 (819 / 125), speed_m_s := f32 (f32 (819 / 125) * WHEEL_CIRCUMFERENCE),
      adaptive_sample_time := 20, filter_sum := 3276 } := by
  rw [fast_data2, fast_data1_eq]
  norm_num [calculate_speed_for_encoder, power_on_data, sub_u32, corrected_delta,
    overflow_correct, apply_moving_average_filter, scaled_sample_32767_50,
    ENCODER_FILTER_SIZE, float_to_int16, wrapI32, wrapI16,
    stored_sample_32767_50, f32_3276, f32_500, f32_abs, abs_of_nonneg, speed_rpm_3276]
  norm_num [get_adaptive_sample_time, f32_speed_3276, abs_of_nonneg,
    ENCODER_SPEED_THRESHOLD_H, ENCODER_SPEED_THRESHOLD_L, ENCODER_HIGH_SPEED_SAMPLE]

/-- C28 (as stated, refuted): wheel A after `Encoder_Init` at tick 0 and the reads
(tick 50, counter 32768) and (tick 100, counter 65535) has a filtered speed of
`6.552` and the sample period 20 ms; the read (tick 120, counter 32767) reaches the
filtering branch with the corrected delta -32768 over 20 ms, and the value cast to
`int16_t` is `-4096.00048828125`, of magnitude above 4096. -/
theorem scaled_sample_exceeds_4096 :
    Encoder_Reachable fast_data2 ∧ (32767 : Nat) ≤ 65535 ∧
    fast_data2.adaptive_sample_time ≤ sub_u32 120 fast_data2.last_update_time ∧
    ¬ (corrected_delta 32767 fast_data2.last_count = 0 ∨
      sub_u32 120 fast_data2.last_update_time > 200) ∧
    corrected_delta 32767 fast_data2.last_count = -32768 ∧
    sub_u32 120 fast_data2.last_update_time = 20 ∧
    f32 (f32 (f32 (f32 (corrected_delta 32767 fast_data2.last_count : ℚ) /
      f32 (sub_u32 120 fast_data2.last_update_time : ℚ)) * SPEED_CALC_FACTOR) * 100) =
      -(4096 + 1 / 2048) ∧
    ¬ (|f32 (f32 (f32 (f32 (corrected_delta 32767 fast_data2.last_count : ℚ) /
      f32 (sub_u32 120 fast_data2.last_update_time : ℚ)) * SPEED_CALC_FACTOR) * 100)| ≤
      4096) := by
  have hr : Encoder_Reachable fast_data2 :=
    Encoder_Reachable.step _ 100 65535
      (Encoder_Reachable.step _ 50 32768
        (Encoder_Reachable.init Encoder_ID_t.ENCODER_A power_on_data 0 rfl) (by decide))
      (by decide)
  have hd : corrected_delta 32767 fast_data2.last_count = -32768 := by
    rw [fast_data2_eq]; rfl
  have ht : sub_u32 120 fast_data2.last_update_time = 20 := by
    rw [fast_data2_eq]; rfl
  have hx : f32 (f32 (f32 (f32 (corrected_delta 32767 fast_data2.last_count : ℚ) /
      f32 (sub_u32 120 fast_data2.last_update_time : ℚ)) * SPEED_CALC_FACTOR) * 100) =
      -(4096 + 1 / 2048) := by
    rw [hd, ht]
    have e : ((-32768 : Int) : ℚ) = -(32768 : ℚ) := by norm_num
    have e2 : (((20 : Nat) : ℚ)) = (20 : ℚ) := by norm_num
    rw [e, e2, f32_neg, neg_div, f32_neg, neg_mul, f32_neg, neg_mul, f32_neg,
      scaled_sample_32768_20]
    norm_num
  refine ⟨hr, by decide, ?_, ?_, hd, ht, hx, ?_⟩
  · rw [ht, fast_data2_eq]
  · rw [hd, ht]; decide
  · rw [hx]; norm_num [abs_of_nonneg]

/-- C28 (amended): in a wheel state reached from `Encoder_Init` or
`clear_speed_data` with counter readings in `0..65535`, `adaptive_sample_time` is
20, 50 or 100; in a call of `calculate_speed_for_encoder` that reaches the
filtering branch the elapsed time is between 20 and 200 ms, the corrected delta
has magnitude at most 32768, and the single-precision value cast to `int16_t` in
`apply_moving_average_filter` has magnitude at most `4096 + 2^-11`, below 32767,
so the cast is exact and the truncated value is what the ring buffer receives. -/
theorem fixed_point_sample_in_range (e : Encoder_Data_t) (current_time current_counter : Nat)
    (hreach : Encoder_Reachable e) (hc : current_counter ≤ 65535)
    (hdue : e.adaptive_sample_time ≤ sub_u32 current_time e.last_update_time)
    (hmove : ¬ (corrected_delta current_counter e.last_count = 0 ∨
      sub_u32 current_time e.last_update_time > 200)) :
    (e.adaptive_sample_time = 20 ∨ e.adaptive_sample_time = 50 ∨
      e.adaptive_sample_time = 100) ∧
    (20 ≤ sub_u32 current_time e.last_update_time ∧
      sub_u32 current_time e.last_update_time ≤ 200) ∧
    (-32768 ≤ corrected_delta current_counter e.last_count ∧
      corrected_delta current_counter e.last_count ≤ 32768) ∧
    |f32 (f32 (f32 (f32 (corrected_delta current_counter e.last_count : ℚ) /
        f32 (sub_u32 current_time e.last_update_time : ℚ)) * SPEED_CALC_FACTOR) * 100)| ≤
      4096 + 1 / 2048 ∧
    (4096 + 1 / 2048 : ℚ) < 32767 ∧
    float_to_int16 (f32 (f32 (f32 (f32 (corrected_delta current_counter e.last_count : ℚ) /
        f32 (sub_u32 current_time e.last_update_time : ℚ)) * SPEED_CALC_FACTOR) * 100)) =
      truncQ (f32 (f32 (f32 (f32 (corrected_delta current_counter e.last_count : ℚ) /
        f32 (sub_u32 current_time e.last_update_time : ℚ)) * SPEED_CALC_FACTOR) * 100)) ∧
    (calculate_speed_for_encoder e current_time current_counter).speed_buffer =
      e.speed_buffer.set e.buffer_index
        (truncQ (f32 (f32 (f32 (f32 (corrected_delta current_counter e.last_count : ℚ) /
          f32 (sub_u32 current_time e.last_update_time : ℚ)) * SPEED_CALC_FACTOR) * 100))) := by
  obtain ⟨hast, hl0, hl1⟩ := reachable_inv e hreach
  have ht20 : 20 ≤ sub_u32 current_time e.last_update_time := by
    rcases hast with h | h | h <;> omega
  have ht200 : sub_u32 current_time e.last_update_time ≤ 200 := by
    by_contra hgt
    exact hmove (Or.inr (by omega))
  have hd := corrected_delta_range current_counter e.last_count hc hl0 hl1
  have hb := scaled_sample_bound _ _ hd.1 hd.2 ht20
  have hb' : |f32 (f32 (f32 (f32 (corrected_delta current_counter e.last_count : ℚ) /
      f32 (sub_u32 current_time e.last_update_time : ℚ)) * SPEED_CALC_FACTOR) * 100)| ≤
      4097 := le_trans hb (by norm_num)
  have htr := le_trans (truncQ_abs_bounds _).1 hb'
  have htr2 := abs_le.mp htr
  have ha : (-4097 : Int) ≤ truncQ (f32 (f32 (f32 (f32
      (corrected_delta current_counter e.last_count : ℚ) /
      f32 (sub_u32 current_time e.last_update_time : ℚ)) * SPEED_CALC_FACTOR) * 100)) := by
    exact_mod_cast htr2.1
  have hbb : truncQ (f32 (f32 (f32 (f32 (corrected_delta current_counter e.last_count : ℚ) /
      f32 (sub_u32 current_time e.last_update_time : ℚ)) * SPEED_CALC_FACTOR) * 100)) ≤
      (4097 : Int) := by
    exact_mod_cast htr2.2
  have hcast : float_to_int16 (f32 (f32 (f32 (f32
      (corrected_delta current_counter e.last_count : ℚ) /
      f32 (sub_u32 current_time e.last_update_time : ℚ)) * SPEED_CALC_FACTOR) * 100)) =
      truncQ (f32 (f32 (f32 (f32 (corrected_delta current_counter e.last_count : ℚ) /
        f32 (sub_u32 current_time e.last_update_time : ℚ)) * SPEED_CALC_FACTOR) * 100)) :=
    wrapI16_of_range _ (by omega) (by omega)
  refine ⟨hast, ⟨ht20, ht200⟩, hd, hb, by norm_num, hcast, ?_⟩
  rw [← hcast]
  unfold calculate_speed_for_encoder
  simp only [ge_iff_le, if_pos hdue, if_neg hmove, apply_moving_average_filter]

/-- Witness of C28 (amended): wheel A after `Encoder_Init`, read at tick 50 with
counter 1980: the value cast is `98.9999923...` and the ring buffer receives 98. -/
theorem fixed_point_sample_in_range_witness :
    Encoder_Reachable init_data ∧
    |f32 (f32 (f32 (f32 (corrected_delta 1980 init_data.last_count : ℚ) /
        f32 (sub_u32 50 init_data.last_update_time : ℚ)) * SPEED_CALC_FACTOR) * 100)| ≤
      4096 + 1 / 2048 ∧
    (calculate_speed_for_encoder init_data 50 1980).speed_buffer = [98, 0, 0, 0, 0] := by
  have hr : Encoder_Reachable init_data :=
    Encoder_Reachable.init Encoder_ID_t.ENCODER_A power_on_data 0 rfl
  have hdue : init_data.adaptive_sample_time ≤ sub_u32 50 init_data.last_update_time := by
    rw [init_data_eq]; decide
  have hmove : ¬ (corrected_delta 1980 init_data.last_count = 0 ∨
      sub_u32 50 init_data.last_update_time > 200) := by
    rw [init_data_eq]; decide
  have h := fixed_point_sample_in_range init_data 50 1980 hr (by decide) hdue hmove
  refine ⟨hr, h.2.2.2.1, ?_⟩
  rw [h.2.2.2.2.2.2, init_data_eq]
  norm_num [power_on_data, sub_u32, corrected_delta, overflow_correct,
    scaled_sample_1980_50, stored_sample_1980_50]

/-! ## Theorems: the estimator is direction-blind -/

theorem truncQ_neg (q : ℚ) : truncQ (-q) = -truncQ q := by
  unfold truncQ
  rcases lt_trichotomy q 0 with h | h | h
  · have h1 : (0 : ℚ) ≤ -q := by linarith
    have h2 : ¬ (0 : ℚ) ≤ q := by linarith
    rw [if_pos h1, if_neg h2, Int.floor_neg]
  · subst h; simp
  · have h1 : ¬ (0 : ℚ) ≤ -q := by linarith
    have h2 : (0 : ℚ) ≤ q := by linarith
    rw [if_neg h1, if_pos h2, Int.ceil_neg]

theorem WHEEL_CIRCUMFERENCE_nonneg : 0 ≤ WHEEL_CIRCUMFERENCE := by
  rw [WHEEL_CIRCUMFERENCE_eq]; norm_num

/-- Two 32-bit sums that add up to 0 modulo `2^32` give the same filtered speed. -/
theorem wrapI32_mirror_abs (a b : Int) (D : ℚ) (h : (b + a) % 4294967296 = 0) :
    |f32 (f32 ((wrapI32 b : Int) : ℚ) / D)| = |f32 (f32 ((wrapI32 a : Int) : ℚ) / D)| := by
  have hc : wrapI32 b = -wrapI32 a ∨ wrapI32 b = wrapI32 a := by
    unfold wrapI32; omega
  rcases hc with hc | hc
  · rw [hc]; push_cast; rw [f32_neg, neg_div, f32_neg, abs_neg]
  · rw [hc]

/-- One call of `apply_moving_average_filter` on mirrored states with opposite
samples: the results are mirrored again and report the same speeds. -/
theorem mirror_step (e e' : Encoder_Data_t) (v : ℚ) (hm : Mirrored e e')
    (hv0 : -32767 ≤ truncQ (f32 (v * 100))) (hv1 : truncQ (f32 (v * 100)) ≤ 32767) :
    Mirrored (apply_moving_average_filter e v) (apply_moving_average_filter e' (-v)) ∧
    (apply_moving_average_filter e' (-v)).speed_rps =
      (apply_moving_average_filter e v).speed_rps ∧
    (apply_moving_average_filter e' (-v)).speed_m_s =
      (apply_moving_average_filter e v).speed_m_s := by
  obtain ⟨hb, hi, hs⟩ := hm
  have hn : float_to_int16 (f32 (-v * 100)) = -float_to_int16 (f32 (v * 100)) := by
    unfold float_to_int16
    rw [neg_mul, f32_neg, truncQ_neg, wrapI16_of_range _ (by omega) (by omega),
      wrapI16_of_range _ (by omega) (by omega)]
  have hold : (e.speed_buffer.map (fun x => -x)).getD e.buffer_index 0 =
      -(e.speed_buffer.getD e.buffer_index 0) := by
    have := List.getD_map (fun x : Int => -x) (l := e.speed_buffer) (d := 0) (n := e.buffer_index)
    simpa using this
  have hsum : (wrapI32 (e'.filter_sum - e'.speed_buffer.getD e'.buffer_index 0 +
        float_to_int16 (f32 (-v * 100))) +
      wrapI32 (e.filter_sum - e.speed_buffer.getD e.buffer_index 0 +
        float_to_int16 (f32 (v * 100)))) % 4294967296 = 0 := by
    rw [hb, hi, hold, hn]
    unfold wrapI32
    omega
  have hrps : (apply_moving_average_filter e' (-v)).speed_rps =
      (apply_moving_average_filter e v).speed_rps := by
    simp only [apply_moving_average_filter]
    apply wrapI32_mirror_abs
    rw [hb, hi, hold, hn]
    have h2 := hs
    omega
  refine ⟨⟨?_, ?_, hsum⟩, hrps, ?_⟩
  · simp only [apply_moving_average_filter]
    rw [hb, hi, hn, List.map_set]
  · simp only [apply_moving_average_filter]
    rw [hi]
  · have h1 : (apply_moving_average_filter e' (-v)).speed_m_s =
        f32 ((apply_moving_average_filter e' (-v)).speed_rps * WHEEL_CIRCUMFERENCE) := rfl
    have h2 : (apply_moving_average_filter e v).speed_m_s =
        f32 ((apply_moving_average_filter e v).speed_rps * WHEEL_CIRCUMFERENCE) := rfl
    rw [h1, h2, hrps]

/-- Mirrored states with equal speeds stay so under opposite sample sequences. -/
theorem mirror_fold (vs : List ℚ) (e e' : Encoder_Data_t) (hm : Mirrored e e')
    (hr : e'.speed_rps = e.speed_rps) (hms : e'.speed_m_s = e.speed_m_s)
    (hv : ∀ v ∈ vs, -32767 ≤ truncQ (f32 (v * 100)) ∧ truncQ (f32 (v * 100)) ≤ 32767) :
    Mirrored (vs.foldl apply_moving_average_filter e)
      ((vs.map (fun v => -v)).foldl apply_moving_average_filter e') ∧
    ((vs.map (fun v => -v)).foldl apply_moving_average_filter e').speed_rps =
      (vs.foldl apply_moving_average_filter e).speed_rps ∧
    ((vs.map (fun v => -v)).foldl apply_moving_average_filter e').speed_m_s =
      (vs.foldl apply_moving_average_filter e).speed_m_s := by
  induction vs generalizing e e' with
  | nil => exact ⟨hm, hr, hms⟩
  | cons v vs ih =>
    have hv1 := hv v (List.mem_cons_self v vs)
    obtain ⟨m1, r1, s1⟩ := mirror_step e e' v hm hv1.1 hv1.2
    simp only [List.map_cons, List.foldl_cons]
    exact ih _ _ m1 r1 s1 (fun w hw => hv w (List.mem_cons_of_mem v hw))

/-- The speeds a call of `calculate_speed_for_encoder` leaves are not negative
when those before the call are not. -/
theorem calculate_speed_nonneg (e : Encoder_Data_t) (current_time current_counter : Nat)
    (h0 : 0 ≤ e.speed_rps) (h1 : 0 ≤ e.speed_m_s) :
    0 ≤ (calculate_speed_for_encoder e current_time current_counter).speed_rps ∧
    0 ≤ (calculate_speed_for_encoder e current_time current_counter).speed_m_s := by
  unfold calculate_speed_for_encoder
  by_cases hdue : sub_u32 current_time e.last_update_time ≥ e.adaptive_sample_time
  · simp only [if_pos hdue]
    by_cases hstop : corrected_delta current_counter e.last_count = 0 ∨
        sub_u32 current_time e.last_update_time > 200
    · simp only [if_pos hstop]
      exact ⟨le_refl 0, le_refl 0⟩
    · simp only [if_neg hstop, apply_moving_average_filter]
      exact ⟨abs_nonneg _, f32_nonneg _ (mul_nonneg (abs_nonneg _) WHEEL_CIRCUMFERENCE_nonneg)⟩
  · simp only [if_neg hdue]
    exact ⟨h0, h1⟩

/-- Every state reached from `Encoder_Init` or `clear_speed_data` by calls of
`calculate_speed_for_encoder` reports non-negative speeds. -/
theorem reachable_speeds_nonneg (e : Encoder_Data_t) (h : Encoder_Reachable e) :
    0 ≤ e.speed_rps ∧ 0 ≤ e.speed_m_s := by
  induction h with
  | init id e tick _ => exact ⟨le_refl 0, le_refl 0⟩
  | step e t c _ _ ih => exact calculate_speed_nonneg e t c ih.1 ih.2

/-- C30: the speeds `Encoder_Init` and `clear_speed_data` write are 0; every call
of `calculate_speed_for_encoder` keeps `speed_rps` and `speed_m_s` non-negative,
so they are non-negative in every state reached from initialisation; with
non-negative wheel speeds `calculate_differential_drive` computes a non-negative
`linear_velocity`; and from a state with negated buffer and sum, feeding
`apply_moving_average_filter` the negated samples (each stored sample fitting
`int16_t` with its negation) gives the same `speed_rps` and `speed_m_s`. -/
theorem estimator_direction_blind (g : Encoder_Globals) (tickA tickB tickD : Nat)
    (e e' : Encoder_Data_t) (current_time current_counter : Nat) (v : ℚ) (vs : List ℚ) :
    ((Encoder_Init g tickA tickB).encoder_data_A.speed_rps = 0 ∧
      (Encoder_Init g tickA tickB).encoder_data_A.speed_m_s = 0 ∧
      (Encoder_Init g tickA tickB).encoder_data_B.speed_rps = 0 ∧
      (Encoder_Init g tickA tickB).encoder_data_B.speed_m_s = 0 ∧
      (clear_speed_data g tickA tickB tickD).encoder_data_A.speed_rps = 0 ∧
      (clear_speed_data g tickA tickB tickD).encoder_data_A.speed_m_s = 0 ∧
      (clear_speed_data g tickA tickB tickD).encoder_data_B.speed_rps = 0 ∧
      (clear_speed_data g tickA tickB tickD).encoder_data_B.speed_m_s = 0) ∧
    (0 ≤ e.speed_rps → 0 ≤ e.speed_m_s →
      0 ≤ (calculate_speed_for_encoder e current_time current_counter).speed_rps ∧
      0 ≤ (calculate_speed_for_encoder e current_time current_counter).speed_m_s) ∧
    (Encoder_Reachable e → 0 ≤ e.speed_rps ∧ 0 ≤ e.speed_m_s) ∧
    (0 ≤ g.encoder_data_A.speed_m_s → 0 ≤ g.encoder_data_B.speed_m_s →
      0 ≤ (calculate_differential_drive g tickD).diff_drive_data.linear_velocity) ∧
    (e'.speed_buffer = e.speed_buffer.map (fun x => -x) → e'.filter_sum = -e.filter_sum →
      e'.buffer_index = e.buffer_index →
      (-32767 ≤ truncQ (f32 (v * 100)) ∧ truncQ (f32 (v * 100)) ≤ 32767) →
      (∀ w ∈ vs, -32767 ≤ truncQ (f32 (w * 100)) ∧ truncQ (f32 (w * 100)) ≤ 32767) →
      (((v :: vs).map (fun w => -w)).foldl apply_moving_average_filter e').speed_rps =
        ((v :: vs).foldl apply_moving_average_filter e).speed_rps ∧
      (((v :: vs).map (fun w => -w)).foldl apply_moving_average_filter e').speed_m_s =
        ((v :: vs).foldl apply_moving_average_filter e).speed_m_s) := by
  refine ⟨⟨rfl, rfl, rfl, rfl, rfl, rfl, rfl, rfl⟩,
    fun h0 h1 => calculate_speed_nonneg e current_time current_counter h0 h1,
    reachable_speeds_nonneg e, ?_, ?_⟩
  · intro hA hB
    simp only [calculate_differential_drive]
    exact f32_nonneg _ (div_nonneg (f32_nonneg _ (add_nonneg hA hB)) (by norm_num))
  · intro hb hs hi hv hvs
    have hm : Mirrored e e' := ⟨hb, hi, by rw [hs]; simp⟩
    obtain ⟨m1, r1, s1⟩ := mirror_step e e' v hm hv.1 hv.2
    have h := mirror_fold vs _ _ m1 r1 s1 hvs
    simp only [List.map_cons, List.foldl_cons]
    exact ⟨h.2.1, h.2.2⟩

/-- Witness of C30: wheel A after `Encoder_Init` fed the samples `1/2` then `1/4`,
against the same state fed `-1/2` then `-1/4`; and the speeds after the first
moving update. -/
theorem estimator_direction_blind_witness :
    (([(1 / 2 : ℚ), 1 / 4].map (fun w => -w)).foldl apply_moving_average_filter
      init_data).speed_rps =
      ([(1 / 2 : ℚ), 1 / 4].foldl apply_moving_average_filter init_data).speed_rps ∧
    0 ≤ (calculate_speed_for_encoder init_data 50 210).speed_rps := by
  have h := estimator_direction_blind encoders_ready 0 0 0 init_data init_data 50 210 (1 / 2)
    [1 / 4]
  have t50 : truncQ (f32 ((1 / 2 : ℚ) * 100)) = 50 := by
    rw [show ((1 / 2 : ℚ) * 100) = 50 by norm_num, f32_ofNat_small 50 (by norm_num)]
    exact truncQ_eq _ 50 (by norm_num) (by norm_num) (by norm_num)
  have t25 : truncQ (f32 ((1 / 4 : ℚ) * 100)) = 25 := by
    rw [show ((1 / 4 : ℚ) * 100) = 25 by norm_num, f32_ofNat_small 25 (by norm_num)]
    exact truncQ_eq _ 25 (by norm_num) (by norm_num) (by norm_num)
  have hinit0 : (0 : ℚ) ≤ init_data.speed_rps := by rw [init_data_eq]; exact le_refl _
  have hinit1 : (0 : ℚ) ≤ init_data.speed_m_s := by rw [init_data_eq]; exact le_refl _
  refine ⟨(h.2.2.2.2 ?_ ?_ rfl ?_ ?_).1, (h.2.1 hinit0 hinit1).1⟩
  · rw [init_data_eq]; rfl
  · rw [init_data_eq]; rfl
  · rw [t50]; decide
  · intro w hw
    have e : w = 1 / 4 := by simpa using hw
    rw [e, t25]; decide

end FlowerLine
